import Mathlib

/-!
# The `cmswwwdataload` harness and the `newidentity` command

A shallow embedding of `cmswww/cmd/cmswwwdataload/main.go` and of
`cmswww/cmd/cmswwwcli/commands/newidentity.go`.

The Go program talks to things that live outside the two files: the `client`
package, the operating system, the two daemons.  Every such call is an entry of
a trace (`Event`), and what the call hands back is read from an environment
`Env` that may look at the whole trace so far.  Quantifying over `Env`
quantifies over every behaviour of the service, the daemons and the file
system.  Package level variables of `main.go` (`politeiadCmd`, `cmswwwCmd`) are
fields of `World`; `cfg` and `c` are passed as the arguments `cfg` and `env`.

Go's `int` is taken to be 64 bits wide (`wrapInt`).  Loops that the source does
not bound (`waitForStartOfDay`, the record loop of `createInvoiceFile`) take a
fuel argument; `none` means that the fuel ran out before the loop ended.
Output written with `fmt.Printf`, the contents of the daemon log files and the
background `io.Copy` are left out of the model.
-/

namespace Dataload

/-! ## Data -/

/-- Go `error` values, identified by their message; `none : Option Error` is `nil`. -/
abbrev Error := String

/-- An `*exec.Cmd`.  `id` stands for the identity of the pointer (the length of
the trace when the command was allocated); `Args` is the command line. -/
structure Cmd where
  id : Nat
  Args : List String
deriving DecidableEq, Repr

/-- The fields of `v1.User` that `main.go` reads. -/
structure User where
  Name : String
  Location : String
  ExtendedPublicKey : String
deriving DecidableEq, Repr

/-- The reply of `c.Login`. -/
structure LoginReply where
  UserID : String
deriving DecidableEq, Repr

/-- The reply of `c.UserDetails`. -/
structure UserDetailsReply where
  User : User
deriving DecidableEq, Repr

/-- The fields of `config.Config` that `main.go` reads. -/
structure Config where
  DeleteData : Bool
  IncludeTests : Bool
  AdminEmail : String
  AdminUser : String
  AdminPass : String
  ContractorEmail : String
  ContractorUser : String
  ContractorPass : String
  ContractorName : String
  ContractorLocation : String
  ContractorExtendedPublicKey : String
  DataDir : String
  PoliteiadLogFile : String
  CmswwwLogFile : String
deriving DecidableEq, Repr

/-- Every call that leaves `main.go`: methods of the client `c`, `os` and
`exec` calls, `generateRandomString`, and the two teardown functions. -/
inductive Call where
  | DeleteAllData
  | CreateAdminUser (email username password : String)
  | ExecuteCommand (name : String) (args : List String)
  | CreateCmswwwCmd
  | Version
  | Login (email password : String)
  | Logout
  | NewIdentity
  | VerifyIdentity (token : String)
  | InviteUser (email : String)
  | ResendInvite (email : String)
  | RegisterUser (email username password name location extendedPublicKey token : String)
  | SubmitInvoice (filepath : String)
  | ApproveInvoice (token : String)
  | RejectInvoice (token : String)
  | ResetPassword (email newPassword : String)
  | ChangePassword (currentPassword newPassword : String)
  | UserDetails (userID : String)
  | EditUser (name location extendedPublicKey : String)
  | generateRandomString (length : Nat)
  | StdoutPipe (cmd : Cmd)
  | Start (cmd : Cmd)
  | Kill (cmd : Cmd)
  | OpenFile (path : String)
  | Sync (path : String)
  | RemoveAll (path : String)
  | Remove (path : String)
  | stopPoliteiad
  | stopCmswww
deriving DecidableEq, Repr

/-- The value a call returned next to its error. -/
inductive Value where
  | unit
  | str (s : String)
  | user (u : User)
deriving DecidableEq, Repr

/-- One entry of the trace.  `err` is the error the caller received; for a call
whose results the source throws away nothing is received and `err` is `none`. -/
structure Event where
  call : Call
  err : Option Error
  val : Value
deriving DecidableEq, Repr

/-- Everything outside `main.go`.  `errOf`, `strOf` and `userOf` answer a call
made after the given trace; `stdout` is the sequence of lines the scanner gets
from a daemon's standard output (`none`: `Scan` returns false); the remaining
fields are library functions and constants of other packages. -/
structure Env where
  errOf : List Event → Call → Option Error
  strOf : List Event → Call → String
  userOf : List Event → Call → User
  stdout : Cmd → Nat → Option String
  Join : List String → String
  cmswwwArgs : List String
  politeiadAppDataDir : String
  DefaultDataDir : String
  TestNet3ParamsName : String
  HomeDir : String

/-- The mutable state: the trace of calls so far, the files written by the
harness (path and content) and the two package level daemon handles. -/
structure World where
  trace : List Event
  files : List (String × String)
  politeiadCmd : Option Cmd
  cmswwwCmd : Option Cmd

/-- The state a run starts from: nothing called, both handles `nil`. -/
def World.init (files : List (String × String)) : World :=
  { trace := [], files := files, politeiadCmd := none, cmswwwCmd := none }

/-! ## Calls -/

/-- A call that returns only an error. -/
def call (env : Env) (c : Call) (w : World) : Option Error × World :=
  let err := env.errOf w.trace c
  (err, { w with trace := w.trace ++ [⟨c, err, .unit⟩] })

/-- A call that returns a string and an error. -/
def callStr (env : Env) (c : Call) (w : World) : String × Option Error × World :=
  let s := env.strOf w.trace c
  let err := env.errOf w.trace c
  (s, err, { w with trace := w.trace ++ [⟨c, err, .str s⟩] })

/-- A call that returns a user record and an error. -/
def callUser (env : Env) (c : Call) (w : World) : User × Option Error × World :=
  let u := env.userOf w.trace c
  let err := env.errOf w.trace c
  (u, err, { w with trace := w.trace ++ [⟨c, err, .user u⟩] })

/-- A call whose results the source discards. -/
def callIgnored (c : Call) (w : World) : World :=
  { w with trace := w.trace ++ [⟨c, none, .unit⟩] }

namespace Client

def DeleteAllData (env : Env) : World → Option Error × World :=
  call env .DeleteAllData

def CreateAdminUser (env : Env) (email username password : String) :
    World → Option Error × World :=
  call env (.CreateAdminUser email username password)

/-- The client builds a fresh command for the given command line. -/
def ExecuteCommand (name : String) (args : List String) (w : World) : Cmd × World :=
  (⟨w.trace.length, name :: args⟩, callIgnored (.ExecuteCommand name args) w)

/-- The client builds a fresh command for cmswww; its command line comes from
the configuration held by the client. -/
def CreateCmswwwCmd (env : Env) (w : World) : Cmd × World :=
  (⟨w.trace.length, env.cmswwwArgs⟩, callIgnored .CreateCmswwwCmd w)

def Version (env : Env) : World → Option Error × World :=
  call env .Version

def Login (env : Env) (email password : String) (w : World) :
    LoginReply × Option Error × World :=
  match callStr env (.Login email password) w with
  | (id, err, w) => (⟨id⟩, err, w)

def Logout (env : Env) : World → Option Error × World :=
  call env .Logout

def NewIdentity (env : Env) : World → String × Option Error × World :=
  callStr env .NewIdentity

def VerifyIdentity (env : Env) (token : String) : World → Option Error × World :=
  call env (.VerifyIdentity token)

def InviteUser (env : Env) (email : String) : World → String × Option Error × World :=
  callStr env (.InviteUser email)

def ResendInvite (env : Env) (email : String) : World → String × Option Error × World :=
  callStr env (.ResendInvite email)

def RegisterUser (env : Env)
    (email username password name location extendedPublicKey token : String) :
    World → Option Error × World :=
  call env (.RegisterUser email username password name location extendedPublicKey token)

def SubmitInvoice (env : Env) (filepath : String) : World → String × Option Error × World :=
  callStr env (.SubmitInvoice filepath)

def ApproveInvoice (env : Env) (token : String) : World → Option Error × World :=
  call env (.ApproveInvoice token)

def RejectInvoice (env : Env) (token : String) : World → Option Error × World :=
  call env (.RejectInvoice token)

def ResetPassword (env : Env) (email newPassword : String) : World → Option Error × World :=
  call env (.ResetPassword email newPassword)

def ChangePassword (env : Env) (currentPassword newPassword : String) :
    World → Option Error × World :=
  call env (.ChangePassword currentPassword newPassword)

def UserDetails (env : Env) (userID : String) (w : World) :
    UserDetailsReply × Option Error × World :=
  match callUser env (.UserDetails userID) w with
  | (u, err, w) => (⟨u⟩, err, w)

def EditUser (env : Env) (name location extendedPublicKey : String) :
    World → Option Error × World :=
  call env (.EditUser name location extendedPublicKey)

end Client

/-- The random string source of package `main`: what it returns is up to the
environment. -/
def generateRandomString (env : Env) (length : Nat) (w : World) : String × World :=
  let s := env.strOf w.trace (.generateRandomString length)
  (s, { w with trace := w.trace ++ [⟨.generateRandomString length, none, .str s⟩] })

/-! ## Files -/

/-- The content of the file at `path`, if there is one. -/
def readFile (files : List (String × String)) (path : String) : Option String :=
  (files.find? (fun f => f.1 == path)).map (fun f => f.2)

/-- Replace the content of the file at `path`. -/
def storeFile (files : List (String × String)) (path content : String) :
    List (String × String) :=
  (path, content) :: files.filter (fun f => !(f.1 == path))

/-- Writing `s` at `offset` into `old`: the bytes under the write are replaced,
the rest of `old` stays (the file is opened without `O_TRUNC`). -/
def writeAt (old : String) (offset : Nat) (s : String) : String :=
  ⟨old.data.take offset ++ s.data ++ old.data.drop (offset + s.length)⟩

/-- An open `*os.File`: its path and the write position. -/
structure File where
  path : String
  offset : Nat
deriving DecidableEq, Repr

/-- `os.OpenFile(path, os.O_CREATE|os.O_WRONLY, 0644)`: the file is created
empty when it is missing and left as it is otherwise; the position is 0. -/
def osOpenFile (env : Env) (path : String) (w : World) : File × Option Error × World :=
  let err := env.errOf w.trace (.OpenFile path)
  let w1 : World := { w with trace := w.trace ++ [⟨.OpenFile path, err, .unit⟩] }
  match err with
  | some e => (⟨path, 0⟩, some e, w1)
  | none =>
    match readFile w.files path with
    | some _ => (⟨path, 0⟩, none, w1)
    | none => (⟨path, 0⟩, none, { w1 with files := storeFile w1.files path "" })

/-- `file.WriteString(s)` with its results discarded, as everywhere in the source. -/
def File.WriteString (file : File) (s : String) (w : World) : File × World :=
  let old := (readFile w.files file.path).getD ""
  ({ file with offset := file.offset + s.length },
   { w with files := storeFile w.files file.path (writeAt old file.offset s) })

/-- `file.Sync()`. -/
def File.Sync (env : Env) (file : File) : World → Option Error × World :=
  call env (.Sync file.path)

/-- `createLogFile` of the source. -/
def createLogFile (env : Env) (path : String) : World → File × Option Error × World :=
  osOpenFile env path

/-! ## Dates, numbers and strings of the Go library -/

/-- Go's `int` arithmetic: the result taken modulo `2^64` in two's complement. -/
def wrapInt (x : Int) : Int :=
  (x + 2 ^ 63) % 2 ^ 64 - 2 ^ 63

/-- `fmt.Sprintf("%v", x)` for an `int`. -/
def sprintInt (x : Int) : String :=
  toString x

/-- `norm` of package `time`: bring `lo` into `[0, base)`, carrying into `hi`. -/
def norm (hi lo base : Int) : Int × Int :=
  let p : Int × Int :=
    if lo < 0 then
      let n := (-lo - 1) / base + 1
      (hi - n, lo + n * base)
    else (hi, lo)
  if p.2 ≥ base then
    let n := p.2 / base
    (p.1 + n, p.2 - n * base)
  else p

/-- The year and month of a `time.Time`. -/
structure Time where
  year : Int
  month : Int
deriving DecidableEq, Repr

/-- `time.Date(year, month, 1, 0, 0, 0, 0, time.UTC)`: the month is normalised,
overflowing into the year. -/
def Date (year : Int) (month : Int) : Time :=
  let p := norm year (month - 1) 12
  ⟨p.1, p.2 + 1⟩

/-- `appendInt` of package `time`: decimal, zero padded to `width`, with a
leading minus sign for a negative number. -/
def appendInt (x : Int) (width : Nat) : String :=
  let digits := toString x.natAbs
  (if x < 0 then "-" else "") ++ String.mk (List.replicate (width - digits.length) '0') ++ digits

/-- `t.Format("2006-01")`. -/
def Time.Format (t : Time) : String :=
  appendInt t.year 4 ++ "-" ++ appendInt t.month 2

/-- `t.Format("2006-01.csv")`. -/
def Time.FormatCsv (t : Time) : String :=
  t.Format ++ ".csv"

/-- Does `s` have `sub` at some position? -/
def containsAt : List Char → List Char → Bool
  | [], sub => sub.isEmpty
  | c :: cs, sub => sub.isPrefixOf (c :: cs) || containsAt cs sub

/-- `strings.Contains`. -/
def Contains (s substr : String) : Bool :=
  containsAt s.data substr.data

/-! ## The functions of `main.go` -/

/-- One record line of the invoice file, as formatted by
`fmt.Sprintf("Development,Task %v,,%v,%v", i, 20, 20*i)`. -/
def recordLine (i : Int) : String :=
  "Development,Task " ++ sprintInt i ++ ",," ++ sprintInt 20 ++ "," ++ sprintInt (wrapInt (20 * i))

/-- The loop `for i := 1; i <= numRecords; i++` of `createInvoiceFile`, entered
with the current `i`. -/
def writeRecords : Nat → Int → Int → File → World → Option (File × World)
  | 0, _, _, _, _ => none
  | fuel + 1, i, numRecords, file, w =>
    if i ≤ numRecords then
      match file.WriteString (recordLine i) w with
      | (file, w) => writeRecords fuel (wrapInt (i + 1)) numRecords file w
    else some (file, w)

/-- `createInvoiceFile` of the source. -/
def createInvoiceFile (env : Env) (cfg : Config) (fuel : Nat) (month year : Nat)
    (numRecords : Int) (w : World) : Option (String × Option Error × World) :=
  let date := Date year month
  let filepath := env.Join [cfg.DataDir, date.FormatCsv]
  match osOpenFile env filepath w with
  | (_, some err, w) => some ("", some err, w)
  | (file, none, w) =>
    match file.WriteString ("# " ++ date.Format ++ "\n") w with
    | (file, w) =>
      match file.WriteString "# This file was generated by the dataload utility.\n" w with
      | (file, w) =>
        match writeRecords fuel 1 numRecords file w with
        | none => none
        | some (file, w) =>
          match file.Sync env w with
          | (err, w) => some (filepath, err, w)

/-- `waitForStartOfDay` of the source, reading line `k` of `out` next.  The
result is the number of lines the scanner has handed over when the function
returns. -/
def waitForStartOfDay : Nat → (Nat → Option String) → Nat → Option Nat
  | 0, _, _ => none
  | fuel + 1, out, k =>
    match out k with
    | none => some k
    | some text =>
      if Contains text "Start of day" then some (k + 1)
      else waitForStartOfDay fuel out (k + 1)

/-- `startCmswww` of the source. -/
def startCmswww (env : Env) (cfg : Config) (fuel : Nat) (w : World) :
    Option (Option Error × World) :=
  match Client.CreateCmswwwCmd env w with
  | (cmd, w) =>
    let w : World := { w with cmswwwCmd := some cmd }
    let w := callIgnored (.StdoutPipe cmd) w
    match call env (.Start cmd) w with
    | (some err, w) => some (some err, { w with cmswwwCmd := none })
    | (none, w) =>
      match createLogFile env cfg.CmswwwLogFile w with
      | (_, some err, w) => some (some err, w)
      | (_, none, w) =>
        match waitForStartOfDay fuel (env.stdout cmd) 0 with
        | none => none
        | some _ => some (Client.Version env w)

/-- `startPoliteiad` of the source. -/
def startPoliteiad (env : Env) (cfg : Config) (fuel : Nat) (w : World) :
    Option (Option Error × World) :=
  match Client.ExecuteCommand "politeiad" ["--testnet"] w with
  | (cmd, w) =>
    let w : World := { w with politeiadCmd := some cmd }
    let w := callIgnored (.StdoutPipe cmd) w
    match call env (.Start cmd) w with
    | (some err, w) => some (some err, { w with politeiadCmd := none })
    | (none, w) =>
      match createLogFile env cfg.PoliteiadLogFile w with
      | (_, some err, w) => some (some err, w)
      | (_, none, w) =>
        match waitForStartOfDay fuel (env.stdout cmd) 0 with
        | none => none
        | some _ => some (none, w)

/-- `setNewIdentity` of the source. -/
def setNewIdentity (env : Env) (email password : String) (w : World) : Option Error × World :=
  match Client.Login env email password w with
  | (_, some err, w) => (some err, w)
  | (_, none, w) =>
    match Client.NewIdentity env w with
    | (_, some err, w) => (some err, w)
    | (token, none, w) =>
      match Client.VerifyIdentity env token w with
      | (some err, w) => (some err, w)
      | (none, w) => Client.Logout env w

/-- `submitInvoice` of the source. -/
def submitInvoice (env : Env) (email password filepath : String) (w : World) :
    String × Option Error × World :=
  match Client.Login env email password w with
  | (_, some err, w) => ("", some err, w)
  | (_, none, w) =>
    match Client.SubmitInvoice env filepath w with
    | (_, some err, w) => ("", some err, w)
    | (token, none, w) =>
      match Client.Logout env w with
      | (err, w) => (token, err, w)

/-- `approveInvoice` of the source. -/
def approveInvoice (env : Env) (email password token : String) (w : World) :
    Option Error × World :=
  match Client.Login env email password w with
  | (_, some err, w) => (some err, w)
  | (_, none, w) =>
    match Client.ApproveInvoice env token w with
    | (some err, w) => (some err, w)
    | (none, w) => Client.Logout env w

/-- `rejectInvoice` of the source. -/
def rejectInvoice (env : Env) (email password token : String) (w : World) :
    Option Error × World :=
  match Client.Login env email password w with
  | (_, some err, w) => (some err, w)
  | (_, none, w) =>
    match Client.RejectInvoice env token w with
    | (some err, w) => (some err, w)
    | (none, w) => Client.Logout env w

/-- `testPasswordResetAndChange` of the source. -/
def testPasswordResetAndChange (env : Env) (email password : String) (w : World) :
    Option Error × World :=
  match generateRandomString env 16 w with
  | (newPassword, w) =>
    match Client.ResetPassword env email newPassword w with
    | (some err, w) => (some err, w)
    | (none, w) =>
      match Client.Login env email newPassword w with
      | (_, some err, w) => (some err, w)
      | (_, none, w) =>
        match Client.ChangePassword env newPassword password w with
        | (some err, w) => (some err, w)
        | (none, w) => Client.Logout env w

/-- `testEditUser` of the source. -/
def testEditUser (env : Env) (email password : String) (w : World) : Option Error × World :=
  match Client.Login env email password w with
  | (_, some err, w) => (some err, w)
  | (lr, none, w) =>
    match Client.UserDetails env lr.UserID w with
    | (_, some err, w) => (some err, w)
    | (udr, none, w) =>
      match generateRandomString env 16 w with
      | (newName, w) =>
        match generateRandomString env 16 w with
        | (newLocation, w) =>
          match generateRandomString env 16 w with
          | (newExtendedPublicKey, w) =>
            match Client.EditUser env newName newLocation newExtendedPublicKey w with
            | (some err, w) => (some err, w)
            | (none, w) =>
              match Client.UserDetails env lr.UserID w with
              | (_, some err, w) => (some err, w)
              | (udr2, none, w) =>
                if newName ≠ udr2.User.Name then
                  (some "User's name was not modified", w)
                else if newLocation ≠ udr2.User.Location then
                  (some "User's location was not modified", w)
                else if newExtendedPublicKey ≠ udr2.User.ExtendedPublicKey then
                  (some "User's extended public key was not modified", w)
                else
                  match Client.EditUser env udr.User.Name udr.User.Location
                      udr.User.ExtendedPublicKey w with
                  | (some err, w) => (some err, w)
                  | (none, w) => Client.Logout env w

/-- `createContractorUser` of the source. -/
def createContractorUser (env : Env)
    (adminEmail adminPass contractorEmail contractorUser contractorPass contractorName
      contractorLocation contractorExtendedPublicKey : String) (w : World) :
    Option Error × World :=
  match Client.Login env adminEmail adminPass w with
  | (_, some err, w) => (some err, w)
  | (_, none, w) =>
    match Client.InviteUser env contractorEmail w with
    | (_, some err, w) => (some err, w)
    | (_, none, w) =>
      match Client.ResendInvite env contractorEmail w with
      | (_, some err, w) => (some err, w)
      | (token, none, w) =>
        match Client.Logout env w with
        | (some err, w) => (some err, w)
        | (none, w) =>
          Client.RegisterUser env contractorEmail contractorUser contractorPass contractorName
            contractorLocation contractorExtendedPublicKey token w

/-- `deleteExistingData` of the source. -/
def deleteExistingData (env : Env) (w : World) : Option Error × World :=
  let politeiadDataDir := env.Join [env.politeiadAppDataDir, "data"]
  match call env (.RemoveAll politeiadDataDir) w with
  | (some err, w) => (some err, w)
  | (none, w) =>
    let testnetDataDir := env.Join [env.DefaultDataDir, env.TestNet3ParamsName]
    let w := callIgnored (.RemoveAll (env.Join [testnetDataDir, "sessions"])) w
    let w := callIgnored (.Remove (env.Join [testnetDataDir, "csrf.key"])) w
    match Client.DeleteAllData env w with
    | (some err, w) => (some err, w)
    | (none, w) => (none, callIgnored (.RemoveAll env.HomeDir) w)

/-- `stopPoliteiad` of the source; the first entry it adds to the trace marks
that the function was entered. -/
def stopPoliteiad (w : World) : World :=
  let w := callIgnored .stopPoliteiad w
  match w.politeiadCmd with
  | some cmd => { callIgnored (.Kill cmd) w with politeiadCmd := none }
  | none => w

/-- `stopCmswww` of the source; the first entry it adds to the trace marks that
the function was entered. -/
def stopCmswww (w : World) : World :=
  let w := callIgnored .stopCmswww w
  match w.cmswwwCmd with
  | some cmd => { callIgnored (.Kill cmd) w with cmswwwCmd := none }
  | none => w

/-- `stopServers` of the source. -/
def stopServers (w : World) : World :=
  stopCmswww (stopPoliteiad w)

/-- `_main` of the source.  `load` is what `config.Load()` returned. -/
def _main (env : Env) (load : Config × Option Error) (fuel : Nat) (w : World) :
    Option (Option Error × World) :=
  match load with
  | (_, some err) => some (some ("Could not load configuration file: " ++ err), w)
  | (cfg, none) =>
    match (if cfg.DeleteData then deleteExistingData env w else (none, w)) with
    | (some err, w) => some (some err, w)
    | (none, w) =>
    match Client.CreateAdminUser env cfg.AdminEmail cfg.AdminUser cfg.AdminPass w with
    | (some err, w) => some (some err, w)
    | (none, w) =>
    match startPoliteiad env cfg fuel w with
    | none => none
    | some (some err, w) => some (some err, w)
    | some (none, w) =>
    match startCmswww env cfg fuel w with
    | none => none
    | some (some err, w) => some (some err, w)
    | some (none, w) =>
    match setNewIdentity env cfg.AdminEmail cfg.AdminPass w with
    | (some err, w) => some (some err, w)
    | (none, w) =>
    match createContractorUser env cfg.AdminEmail cfg.AdminPass cfg.ContractorEmail
        cfg.ContractorUser cfg.ContractorPass cfg.ContractorName cfg.ContractorLocation
        cfg.ContractorExtendedPublicKey w with
    | (some err, w) => some (some err, w)
    | (none, w) =>
    match setNewIdentity env cfg.ContractorEmail cfg.ContractorPass w with
    | (some err, w) => some (some err, w)
    | (none, w) =>
    match createInvoiceFile env cfg fuel 9 2018 5 w with
    | none => none
    | some (_, some err, w) => some (some err, w)
    | some (invoiceToApproveFilepath, none, w) =>
    match submitInvoice env cfg.ContractorEmail cfg.ContractorPass invoiceToApproveFilepath w with
    | (_, some err, w) => some (some err, w)
    | (invoiceToApproveToken, none, w) =>
    match approveInvoice env cfg.AdminEmail cfg.AdminPass invoiceToApproveToken w with
    | (some err, w) => some (some err, w)
    | (none, w) =>
    match createInvoiceFile env cfg fuel 10 2018 5 w with
    | none => none
    | some (_, some err, w) => some (some err, w)
    | some (invoiceToRejectFilepath, none, w) =>
    match submitInvoice env cfg.ContractorEmail cfg.ContractorPass invoiceToRejectFilepath w with
    | (_, some err, w) => some (some err, w)
    | (invoiceToRejectToken, none, w) =>
    match rejectInvoice env cfg.AdminEmail cfg.AdminPass invoiceToRejectToken w with
    | (some err, w) => some (some err, w)
    | (none, w) =>
    if cfg.IncludeTests then
      match testPasswordResetAndChange env cfg.AdminEmail cfg.AdminPass w with
      | (some err, w) => some (some err, w)
      | (none, w) =>
      match testEditUser env cfg.ContractorEmail cfg.ContractorPass w with
      | (some err, w) => some (some err, w)
      | (none, w) => some (none, w)
    else some (none, w)

/-- `main` of the source: the error it prints before `os.Exit(1)` (`none`: it
returns normally) and the final state. -/
def main (env : Env) (load : Config × Option Error) (fuel : Nat) (w : World) :
    Option (Option Error × World) :=
  match _main env load fuel w with
  | none => none
  | some (err, w) => some (err, stopServers w)

end Dataload

/-! ## `newidentity.go` -/

namespace Commands

open Dataload (Error)

/-- The logged in user kept by package `config`; `Execute` reads its `Email`. -/
structure LoggedInUser where
  Email : String
deriving DecidableEq, Repr

/-- An `identity.FullIdentity`: the bytes of its public key. -/
structure FullIdentity where
  PublicKey : List Nat
deriving DecidableEq, Repr

/-- The request body `v1.NewIdentity`. -/
structure NewIdentity where
  PublicKey : String
deriving DecidableEq, Repr

/-- What `Execute` does to the outside after the version request. -/
inductive Action where
  | identityNew
  | SaveUserIdentity (id : FullIdentity) (email : String)
  | Post (route : String) (body : NewIdentity)
deriving DecidableEq, Repr

/-- The state the command runs in: `config.LoggedInUser` (`none` is `nil`) and
the actions taken so far. -/
structure State where
  LoggedInUser : Option LoggedInUser
  actions : List Action

/-- The parts of packages `commands`, `config`, `identity` and `v1` that
`newidentity.go` uses and that are declared elsewhere. -/
structure Env where
  ErrNotLoggedIn : Error
  RouteNewIdentity : String
  InitialVersionRequest : State → Option Error × State
  identityNew : List Action → FullIdentity × Option Error
  SaveUserIdentity : List Action → FullIdentity → String → Option Error
  Post : List Action → String → NewIdentity → Option Error

/-- One lower case hexadecimal digit. -/
def hexDigit (n : Nat) : Char :=
  "0123456789abcdef".data.getD (n % 16) '0'

/-- `hex.EncodeToString`. -/
def EncodeToString (bytes : List Nat) : String :=
  ⟨bytes.flatMap (fun b => [hexDigit (b % 256 / 16), hexDigit (b % 256 % 16)])⟩

/-- `(*NewIdentityCmd).Execute` of the source. -/
def Execute (env : Env) (_args : List String) (s : State) : Option Error × State :=
  match env.InitialVersionRequest s with
  | (some err, s) => (some err, s)
  | (none, s) =>
    match s.LoggedInUser with
    | none => (some env.ErrNotLoggedIn, s)
    | some user =>
      -- Generate and save the new identity.
      match env.identityNew s.actions with
      | (id, err) =>
        let s : State := { s with actions := s.actions ++ [.identityNew] }
        match err with
        | some err => (some err, s)
        | none =>
          let err := env.SaveUserIdentity s.actions id user.Email
          let s : State := { s with actions := s.actions ++ [.SaveUserIdentity id user.Email] }
          match err with
          | some err => (some err, s)
          | none =>
            let ni : NewIdentity := { PublicKey := EncodeToString id.PublicKey }
            let err := env.Post s.actions env.RouteNewIdentity ni
            (err, { s with actions := s.actions ++ [.Post env.RouteNewIdentity ni] })

end Commands

namespace Dataload

end Dataload

namespace Commands

/-- An environment in which the version request cannot reach the server. -/
def envUnreachable : Env where
  ErrNotLoggedIn := "not logged in"
  RouteNewIdentity := "/user/identity"
  InitialVersionRequest := fun s => (some "connection refused", s)
  identityNew := fun _ => (⟨List.replicate 32 0⟩, none)
  SaveUserIdentity := fun _ _ _ => none
  Post := fun _ _ _ => none

/-- An environment in which every collaborator succeeds. -/
def envReachable : Env where
  ErrNotLoggedIn := "not logged in"
  RouteNewIdentity := "/user/identity"
  InitialVersionRequest := fun s => (none, s)
  identityNew := fun _ => (⟨List.replicate 32 171⟩, none)
  SaveUserIdentity := fun _ _ _ => none
  Post := fun _ _ _ => none

end Commands

namespace Dataload

/-! ## Notions used to state the properties -/

/-- Line `k` of the stream exists and contains the readiness marker. -/
def markerLine (out : Nat → Option String) (k : Nat) : Prop :=
  ∃ text, out k = some text ∧ Contains text "Start of day" = true

/-- Line `k` of the stream exists and does not contain the readiness marker. -/
def plainLine (out : Nat → Option String) (k : Nat) : Prop :=
  ∃ text, out k = some text ∧ Contains text "Start of day" = false

/-- The stream that delivers the lines of `lines` and then ends. -/
def linesOf (lines : List String) : Nat → Option String :=
  fun k => lines.get? k

/-- The record the specification asks for at index `i`: hours 20, cost `20 * i`. -/
def specRecord (i : Int) : String :=
  "Development,Task " ++ toString i ++ ",,20," ++ toString (20 * i)

/-- The `n` records the loop of `createInvoiceFile` writes from index `i` on. -/
def recordsFrom (i : Int) : Nat → List String
  | 0 => []
  | n + 1 => recordLine i :: recordsFrom (i + 1) n

/-- The strings of `ss` one after the other, nothing in between. -/
def concatAll : List String → String
  | [] => ""
  | s :: ss => s ++ concatAll ss

/-- The file and state after the strings of `ss` were written one after the other. -/
def writeAll (ss : List String) (file : File) (w : World) : File × World :=
  ss.foldl (fun p s => p.1.WriteString s p.2) (file, w)

/-- The number of newline characters of a string. -/
def newlines (s : String) : Nat :=
  s.data.count '\n'

/-- An environment in which every call succeeds: tokens and random strings are
numbered by the position of the call, a fetched user has fixed fields, both
daemons print the marker on their second line. -/
def envOk : Env where
  errOf := fun _ _ => none
  strOf := fun tr _ => "s" ++ toString tr.length
  userOf := fun _ _ => ⟨"name", "location", "xpub"⟩
  stdout := fun _ => linesOf ["loading", "Start of day"]
  Join := fun parts => "/".intercalate parts
  cmswwwArgs := ["cmswww", "--testnet"]
  politeiadAppDataDir := "/home/u/.politeiad"
  DefaultDataDir := "/home/u/.cmswww/data"
  TestNet3ParamsName := "testnet3"
  HomeDir := "/home/u/.cmswwwcli"

/-- A configuration with both switches off. -/
def cfg0 : Config where
  DeleteData := false
  IncludeTests := false
  AdminEmail := "admin@example.org"
  AdminUser := "admin"
  AdminPass := "adminpass"
  ContractorEmail := "contractor@example.org"
  ContractorUser := "contractor"
  ContractorPass := "contractorpass"
  ContractorName := "Con Tractor"
  ContractorLocation := "Earth"
  ContractorExtendedPublicKey := "tpubContractor"
  DataDir := "/data"
  PoliteiadLogFile := "/log/politeiad.log"
  CmswwwLogFile := "/log/cmswww.log"

/-- The fields carried by the first `EditUser` call of a trace. -/
def firstEdit : List Event → Option User
  | [] => none
  | ev :: rest =>
    match ev.call with
    | .EditUser name location extendedPublicKey => some ⟨name, location, extendedPublicKey⟩
    | _ => firstEdit rest

/-- A service that succeeds at every call but applies only the first profile
edit it receives: later edits are accepted and dropped. -/
def envSticky : Env :=
  { envOk with userOf := fun tr _ => (firstEdit tr).getD ⟨"name", "location", "xpub"⟩ }

/-- Fail-fast, for a run that returned `r` after the calls `evs`: a call that
returned an error is the last call of the run and its error is what the run
returned. -/
def failFast (r : Option Error) (evs : List Event) : Prop :=
  ∀ pre ev post e, evs = pre ++ ev :: post → ev.err = some e → post = [] ∧ r = some e

/-- Is this a `Login` call? -/
def Call.isLogin : Call → Bool
  | .Login _ _ => true
  | _ => false

/-- Is this a `Logout` call? -/
def Call.isLogout : Call → Bool
  | .Logout => true
  | _ => false

/-- The session bookkeeping of one call.  The state is `some true` while a
session opened by a successful `Login` is open, `some false` while none is, and
`none` once a `Login` was attempted with a session open or a `Logout` was
called with none open. -/
def sessionStep (s : Option Bool) (ev : Event) : Option Bool :=
  match s with
  | none => none
  | some opened =>
    if ev.call.isLogin then
      if opened then none else some ev.err.isNone
    else if ev.call.isLogout then
      if opened then some false else none
    else some opened

/-- The session state after the calls `evs`, started in state `opened`. -/
def sessions (opened : Bool) (evs : List Event) : Option Bool :=
  evs.foldl sessionStep (some opened)

/-- The number of `Login` calls that succeeded. -/
def okLogins (evs : List Event) : Nat :=
  evs.countP (fun ev => ev.call.isLogin && ev.err.isNone)

/-- The number of `Login` calls. -/
def logins (evs : List Event) : Nat :=
  evs.countP (fun ev => ev.call.isLogin)

/-- The number of `Logout` calls. -/
def logouts (evs : List Event) : Nat :=
  evs.countP (fun ev => ev.call.isLogout)

/-- Calls made by the teardown: the two markers and `Kill`. -/
def Call.isTeardown : Call → Bool
  | .Kill _ => true
  | .stopPoliteiad => true
  | .stopCmswww => true
  | _ => false

/-- Is this the marker that `stopPoliteiad` was entered? -/
def Call.isStopPoliteiad : Call → Bool
  | .stopPoliteiad => true
  | _ => false

/-- Is this the marker that `stopCmswww` was entered? -/
def Call.isStopCmswww : Call → Bool
  | .stopCmswww => true
  | _ => false

/-- The kill a call sends, if it is one. -/
def Call.killed : Call → Option Cmd
  | .Kill cmd => some cmd
  | _ => none

/-- The commands whose `Start` succeeded, in order. -/
def startedCmds (evs : List Event) : List Cmd :=
  evs.filterMap (fun ev => match ev.call with
    | .Start cmd => if ev.err = none then some cmd else none
    | _ => none)

/-- The commands that were sent a kill, in order. -/
def killedCmds (evs : List Event) : List Cmd :=
  evs.filterMap (fun ev => ev.call.killed)

/-- Is this one of `SubmitInvoice`, `ApproveInvoice`, `RejectInvoice`? -/
def Call.isInvoice : Call → Bool
  | .SubmitInvoice _ => true
  | .ApproveInvoice _ => true
  | .RejectInvoice _ => true
  | _ => false

/-- The invoice calls of a trace, in order. -/
def invoiceCalls (evs : List Event) : List Event :=
  evs.filter (fun ev => ev.call.isInvoice)

/-- The tokens returned by the `SubmitInvoice` calls that succeeded, in order. -/
def submittedTokens (evs : List Event) : List String :=
  evs.filterMap (fun ev => match ev.call, ev.err, ev.val with
    | .SubmitInvoice _, none, .str token => some token
    | _, _, _ => none)

/-- The files passed to `SubmitInvoice`, in order. -/
def submittedFiles (evs : List Event) : List String :=
  evs.filterMap (fun ev => match ev.call with
    | .SubmitInvoice filepath => some filepath
    | _ => none)

/-- The tokens passed to `ApproveInvoice`, in order. -/
def approvedTokens (evs : List Event) : List String :=
  evs.filterMap (fun ev => match ev.call with
    | .ApproveInvoice token => some token
    | _ => none)

/-- The tokens passed to `RejectInvoice`, in order. -/
def rejectedTokens (evs : List Event) : List String :=
  evs.filterMap (fun ev => match ev.call with
    | .RejectInvoice token => some token
    | _ => none)

/-- What holds of the calls `evs` of a run of `_main` that returned `r`: the
run is fail-fast, logins and logouts alternate and a run without error ends
with no session open, and no teardown call is made. -/
structure Good (r : Option Error) (evs : List Event) : Prop where
  ff : failFast r evs
  sess : ∃ opened, sessions false evs = some opened ∧ (r = none → opened = false)
  quiet : ∀ ev ∈ evs, ev.call.isTeardown = false

/-- The invoice calls a run of `_main` can have made: a prefix of "submit the
first file, approve the token it returned, submit the second file, reject the
token it returned", cut after the first call that failed. -/
def InvoiceFlow (p1 p2 : String) (l : List Event) : Prop :=
  l = [] ∨
  (∃ e v, l = [⟨.SubmitInvoice p1, some e, v⟩]) ∨
  ∃ t1,
    l = [⟨.SubmitInvoice p1, none, .str t1⟩] ∨
    (∃ r v, l = [⟨.SubmitInvoice p1, none, .str t1⟩, ⟨.ApproveInvoice t1, r, v⟩]) ∨
    (∃ e v, l = [⟨.SubmitInvoice p1, none, .str t1⟩, ⟨.ApproveInvoice t1, none, .unit⟩,
      ⟨.SubmitInvoice p2, some e, v⟩]) ∨
    ∃ t2,
      l = [⟨.SubmitInvoice p1, none, .str t1⟩, ⟨.ApproveInvoice t1, none, .unit⟩,
        ⟨.SubmitInvoice p2, none, .str t2⟩] ∨
      ∃ r v, l = [⟨.SubmitInvoice p1, none, .str t1⟩, ⟨.ApproveInvoice t1, none, .unit⟩,
        ⟨.SubmitInvoice p2, none, .str t2⟩, ⟨.RejectInvoice t2, r, v⟩]

/-- The shape of what a function that neither starts a daemon nor touches an
invoice leaves behind: it adds the calls `evs` to the trace. -/
def PlainStep (r : Option Error) (w w' : World) : Prop :=
  ∃ evs, w'.trace = w.trace ++ evs ∧ Good r evs ∧
    invoiceCalls evs = [] ∧ startedCmds evs = [] ∧
    w'.politeiadCmd = w.politeiadCmd ∧ w'.cmswwwCmd = w.cmswwwCmd

/-- The shape of what `startPoliteiad` or `startCmswww` leaves behind: `cmd` is
the command the function builds, `held` the handle it assigns, read afterwards. -/
def StartStep (r : Option Error) (w w' : World) (cmd : Cmd) (held : Option Cmd) : Prop :=
  ∃ evs, w'.trace = w.trace ++ evs ∧ Good r evs ∧ invoiceCalls evs = [] ∧
    (r = none → held = some cmd ∧ startedCmds evs = [cmd]) ∧
    (∀ e, r = some e →
      (held = none ∧ startedCmds evs = []) ∨ (held = some cmd ∧ startedCmds evs = [cmd]))

/-- The shape of what `submitInvoice`, `approveInvoice` or `rejectInvoice`
leaves behind; `c` is the invoice call the function makes, `v` what the call
returns on success. -/
def InvoiceStep (r : Option Error) (w w' : World) (c : Call) (v : Value) : Prop :=
  ∃ evs, w'.trace = w.trace ++ evs ∧ Good r evs ∧ startedCmds evs = [] ∧
    w'.politeiadCmd = w.politeiadCmd ∧ w'.cmswwwCmd = w.cmswwwCmd ∧
    (r = none → invoiceCalls evs = [⟨c, none, v⟩]) ∧
    (∀ e, r = some e →
      invoiceCalls evs = [] ∨ (∃ v', invoiceCalls evs = [⟨c, some e, v'⟩]) ∨
      invoiceCalls evs = [⟨c, none, v⟩])

/-- The entry of a call that succeeded and returned nothing but `nil`. -/
def Event.ok (c : Call) : Event :=
  ⟨c, none, .unit⟩

/-- The entry of a call that succeeded and returned the string `s`. -/
def Event.gave (c : Call) (s : String) : Event :=
  ⟨c, none, .str s⟩

/-- The environment `envOk` with an identity service that refuses every
`NewIdentity` call. -/
def envNoIdentity : Env :=
  { envOk with
    errOf := fun _ c => match c with
      | .NewIdentity => some "identity service unavailable"
      | _ => none }

/-- The environment `envOk` with a service that hands out the same token for
every submitted invoice. -/
def envSameToken : Env :=
  { envOk with
    strOf := fun tr c => match c with
      | .SubmitInvoice _ => "token"
      | _ => "s" ++ toString tr.length }

/-- The configuration `cfg0` with the wipe switch on. -/
def cfgDelete : Config :=
  { cfg0 with DeleteData := true }

/-- The configuration `cfg0` with the extra tests on. -/
def cfgTests : Config :=
  { cfg0 with IncludeTests := true }

/-- The calls `stopServers` adds to the trace when it is entered in state `w`. -/
def teardownCalls (w : World) : List Event :=
  [Event.ok .stopPoliteiad] ++
  (match w.politeiadCmd with
    | some cmd => [Event.ok (.Kill cmd)]
    | none => []) ++
  [Event.ok .stopCmswww] ++
  (match w.cmswwwCmd with
    | some cmd => [Event.ok (.Kill cmd)]
    | none => [])

/-- The environment `envOk` with a cmswww that starts but does not answer the
version request. -/
def envNoVersion : Env :=
  { envOk with
    errOf := fun _ c => match c with
      | .Version => some "no route to host"
      | _ => none }

/-! ## The scripted sequence, step by step -/

/-- The local variables of `_main` that one step hands to a later one. -/
structure Vars where
  invoiceToApproveFilepath : String
  invoiceToApproveToken : String
  invoiceToRejectFilepath : String
  invoiceToRejectToken : String

/-- The variables before the first step. -/
def Vars.init : Vars :=
  ⟨"", "", "", ""⟩

/-- One step of the scripted sequence: a statement of `_main` that can return
an error, run on the variables and the state it finds. -/
abbrev Step := Vars → World → Option (Option Error × Vars × World)

/-- The steps of `_main` after the configuration is loaded, one entry for each
`if err != nil` of the function, in the order of the source. -/
def steps (env : Env) (cfg : Config) (fuel : Nat) : List Step :=
  [fun v w =>
     match (if cfg.DeleteData then deleteExistingData env w else (none, w)) with
     | (err, w) => some (err, v, w),
   fun v w =>
     match Client.CreateAdminUser env cfg.AdminEmail cfg.AdminUser cfg.AdminPass w with
     | (err, w) => some (err, v, w),
   fun v w =>
     match startPoliteiad env cfg fuel w with
     | none => none
     | some (err, w) => some (err, v, w),
   fun v w =>
     match startCmswww env cfg fuel w with
     | none => none
     | some (err, w) => some (err, v, w),
   fun v w =>
     match setNewIdentity env cfg.AdminEmail cfg.AdminPass w with
     | (err, w) => some (err, v, w),
   fun v w =>
     match createContractorUser env cfg.AdminEmail cfg.AdminPass cfg.ContractorEmail
         cfg.ContractorUser cfg.ContractorPass cfg.ContractorName cfg.ContractorLocation
         cfg.ContractorExtendedPublicKey w with
     | (err, w) => some (err, v, w),
   fun v w =>
     match setNewIdentity env cfg.ContractorEmail cfg.ContractorPass w with
     | (err, w) => some (err, v, w),
   fun v w =>
     match createInvoiceFile env cfg fuel 9 2018 5 w with
     | none => none
     | some (p, err, w) => some (err, { v with invoiceToApproveFilepath := p }, w),
   fun v w =>
     match submitInvoice env cfg.ContractorEmail cfg.ContractorPass
         v.invoiceToApproveFilepath w with
     | (t, err, w) => some (err, { v with invoiceToApproveToken := t }, w),
   fun v w =>
     match approveInvoice env cfg.AdminEmail cfg.AdminPass v.invoiceToApproveToken w with
     | (err, w) => some (err, v, w),
   fun v w =>
     match createInvoiceFile env cfg fuel 10 2018 5 w with
     | none => none
     | some (p, err, w) => some (err, { v with invoiceToRejectFilepath := p }, w),
   fun v w =>
     match submitInvoice env cfg.ContractorEmail cfg.ContractorPass
         v.invoiceToRejectFilepath w with
     | (t, err, w) => some (err, { v with invoiceToRejectToken := t }, w),
   fun v w =>
     match rejectInvoice env cfg.AdminEmail cfg.AdminPass v.invoiceToRejectToken w with
     | (err, w) => some (err, v, w),
   fun v w =>
     if cfg.IncludeTests then
       match testPasswordResetAndChange env cfg.AdminEmail cfg.AdminPass w with
       | (err, w) => some (err, v, w)
     else some (none, v, w),
   fun v w =>
     if cfg.IncludeTests then
       match testEditUser env cfg.ContractorEmail cfg.ContractorPass w with
       | (err, w) => some (err, v, w)
     else some (none, v, w)]

/-- Running a list of steps in order: the first step that returns an error ends
the run with that error and the state the step left; a step that does not
return ends the run without a result. -/
def runSteps : List Step → Vars → World → Option (Option Error × Vars × World)
  | [], v, w => some (none, v, w)
  | s :: rest, v, w =>
    match s v w with
    | none => none
    | some (some err, v, w) => some (some err, v, w)
    | some (none, v, w) => runSteps rest v w

/-- The three errors `testEditUser` makes itself, with `fmt.Errorf`. -/
def AssertionError (e : Error) : Prop :=
  e = "User's name was not modified" ∨ e = "User's location was not modified" ∨
    e = "User's extended public key was not modified"

/-- The error `e` a run returned after the calls `evs` is accounted for by the
last call: that call returned `e`, or it is a successful `UserDetails` and `e`
is one of the errors `testEditUser` raises on what the fetch returned. -/
def Ends (e : Error) (evs : List Event) : Prop :=
  ∃ last, evs.getLast? = some last ∧
    (last.err = some e ∨
      (last.err = none ∧ (∃ id u, last = ⟨.UserDetails id, none, .user u⟩) ∧ AssertionError e))

/-- The calls of `deleteExistingData` when each succeeds; no call when the
switch `DeleteData` is off. -/
def wipeCalls (env : Env) (cfg : Config) : List Event :=
  if cfg.DeleteData then
    [Event.ok (Call.RemoveAll (env.Join [env.politeiadAppDataDir, "data"])),
     Event.ok (Call.RemoveAll
       (env.Join [env.Join [env.DefaultDataDir, env.TestNet3ParamsName], "sessions"])),
     Event.ok (Call.Remove
       (env.Join [env.Join [env.DefaultDataDir, env.TestNet3ParamsName], "csrf.key"])),
     Event.ok (Call.DeleteAllData),
     Event.ok (Call.RemoveAll env.HomeDir)]
  else []

/-! ## The readiness wait -/

theorem waitForStartOfDay_marker (out : Nat → Option String) (k : Nat) (hk : markerLine out k) :
    ∀ fuel s, s ≤ k → k - s < fuel → (∀ j, s ≤ j → j < k → plainLine out j) →
      waitForStartOfDay fuel out s = some (k + 1) := by
  intro fuel
  induction fuel with
  | zero => intro s _ h; omega
  | succ fuel ih =>
    intro s hs hf hpre
    obtain ⟨text, htext, hm⟩ := hk
    rcases Nat.eq_or_lt_of_le hs with rfl | hlt
    · simp [waitForStartOfDay, htext, hm]
    · obtain ⟨t, ht, hp⟩ := hpre s (le_refl s) hlt
      simp only [waitForStartOfDay, ht, hp]
      exact ih (s + 1) hlt (by omega) (fun j hj hjk => hpre j (by omega) hjk)

theorem waitForStartOfDay_eof (out : Nat → Option String) (k : Nat) (hk : out k = none) :
    ∀ fuel s, s ≤ k → k - s < fuel → (∀ j, s ≤ j → j < k → plainLine out j) →
      waitForStartOfDay fuel out s = some k := by
  intro fuel
  induction fuel with
  | zero => intro s _ h; omega
  | succ fuel ih =>
    intro s hs hf hpre
    rcases Nat.eq_or_lt_of_le hs with rfl | hlt
    · simp [waitForStartOfDay, hk]
    · obtain ⟨t, ht, hp⟩ := hpre s (le_refl s) hlt
      simp only [waitForStartOfDay, ht, hp]
      exact ih (s + 1) hlt (by omega) (fun j hj hjk => hpre j (by omega) hjk)

theorem waitForStartOfDay_never (out : Nat → Option String) (h : ∀ j, plainLine out j) :
    ∀ fuel s, waitForStartOfDay fuel out s = none := by
  intro fuel
  induction fuel with
  | zero => intro s; rfl
  | succ fuel ih =>
    intro s
    obtain ⟨t, ht, hp⟩ := h s
    simp only [waitForStartOfDay, ht, hp]
    exact ih (s + 1)

theorem waitForStartOfDay_result (out : Nat → Option String) :
    ∀ fuel s r, waitForStartOfDay fuel out s = some r →
      (s ≤ r ∧ out r = none ∧ ∀ j, s ≤ j → j < r → plainLine out j) ∨
      (∃ k, r = k + 1 ∧ s ≤ k ∧ markerLine out k ∧ ∀ j, s ≤ j → j < k → plainLine out j) := by
  intro fuel
  induction fuel with
  | zero => intro s r h; simp [waitForStartOfDay] at h
  | succ fuel ih =>
    intro s r h
    unfold waitForStartOfDay at h
    cases hs : out s with
    | none =>
      simp only [hs] at h
      injection h with h
      subst h
      exact Or.inl ⟨le_refl _, hs, fun j h1 h2 => by omega⟩
    | some text =>
      simp only [hs] at h
      by_cases hm : Contains text "Start of day" = true
      · simp only [hm, if_true] at h
        injection h with h
        subst h
        exact Or.inr ⟨s, rfl, le_refl _, ⟨text, hs, hm⟩, fun j h1 h2 => by omega⟩
      · simp only [hm] at h
        have hplain : plainLine out s := ⟨text, hs, by simpa using hm⟩
        have hstep : ∀ j, s ≤ j → j < s + 1 → plainLine out j := by
          intro j h1 h2
          have : j = s := by omega
          subst this
          exact hplain
        rcases ih (s + 1) r h with ⟨h1, h2, h3⟩ | ⟨k, h1, h2, h3, h4⟩
        · refine Or.inl ⟨by omega, h2, fun j hj hjr => ?_⟩
          by_cases hjs : j < s + 1
          · exact hstep j hj hjs
          · exact h3 j (by omega) hjr
        · refine Or.inr ⟨k, h1, by omega, h3, fun j hj hjk => ?_⟩
          by_cases hjs : j < s + 1
          · exact hstep j hj hjs
          · exact h4 j (by omega) hjk

/-- C7, as the code has it: `waitForStartOfDay` returns at the first line that
contains "Start of day" without scanning a later line, it also returns when the
stream ends before any such line (having scanned every line), it returns in no
other way, and on a stream that never ends and never shows the marker it does
not return. -/
theorem waitForStartOfDay_spec (out : Nat → Option String) (k : Nat)
    (hpre : ∀ j, j < k → plainLine out j) :
    (markerLine out k → ∀ fuel, k < fuel → waitForStartOfDay fuel out 0 = some (k + 1)) ∧
    (out k = none → ∀ fuel, k < fuel → waitForStartOfDay fuel out 0 = some k) ∧
    (∀ fuel r, waitForStartOfDay fuel out 0 = some r →
      (out r = none ∧ ∀ j, j < r → plainLine out j) ∨
      (∃ m, r = m + 1 ∧ markerLine out m ∧ ∀ j, j < m → plainLine out j)) ∧
    ((∀ j, plainLine out j) → ∀ fuel, waitForStartOfDay fuel out 0 = none) := by
  refine ⟨fun hm fuel hf => ?_, fun he fuel hf => ?_, fun fuel r h => ?_, fun h fuel => ?_⟩
  · exact waitForStartOfDay_marker out k hm fuel 0 (Nat.zero_le _) (by omega)
      (fun j _ hj => hpre j hj)
  · exact waitForStartOfDay_eof out k he fuel 0 (Nat.zero_le _) (by omega)
      (fun j _ hj => hpre j hj)
  · rcases waitForStartOfDay_result out fuel 0 r h with ⟨_, h2, h3⟩ | ⟨m, h1, _, h3, h4⟩
    · exact Or.inl ⟨h2, fun j hj => h3 j (Nat.zero_le _) hj⟩
    · exact Or.inr ⟨m, h1, h3, fun j hj => h4 j (Nat.zero_le _) hj⟩
  · exact waitForStartOfDay_never out h fuel 0

/-- The daemon prints one line, then the marker line, then more. -/
theorem waitForStartOfDay_spec_witness :
    (∀ j, j < 1 → plainLine (linesOf ["loading", "Start of day", "listening"]) j) ∧
    markerLine (linesOf ["loading", "Start of day", "listening"]) 1 ∧
    waitForStartOfDay 5 (linesOf ["loading", "Start of day", "listening"]) 0 = some 2 := by
  have hpre : ∀ j, j < 1 → plainLine (linesOf ["loading", "Start of day", "listening"]) j := by
    intro j hj
    have : j = 0 := by omega
    subst this
    exact ⟨"loading", rfl, by decide⟩
  have hm : markerLine (linesOf ["loading", "Start of day", "listening"]) 1 :=
    ⟨"Start of day", rfl, by decide⟩
  exact ⟨hpre, hm, (waitForStartOfDay_spec _ 1 hpre).1 hm 5 (by decide)⟩

/-- C7 fails as stated: the daemon prints two lines without the marker and
exits; `waitForStartOfDay` returns after the second line although no line of
the stream contains "Start of day". -/
theorem waitForStartOfDay_returns_without_marker :
    waitForStartOfDay 3 (linesOf ["politeiad starting", "unable to open database"]) 0 = some 2 ∧
    ∀ k, ¬ markerLine (linesOf ["politeiad starting", "unable to open database"]) k := by
  refine ⟨by decide, ?_⟩
  rintro k ⟨text, ht, hm⟩
  match k, ht with
  | 0, ht =>
    simp [linesOf] at ht
    subst ht
    revert hm
    decide
  | 1, ht =>
    simp [linesOf] at ht
    subst ht
    revert hm
    decide
  | k + 2, ht => simp [linesOf] at ht

/-! ## The invoice file -/

theorem readFile_storeFile (files : List (String × String)) (path content : String) :
    readFile (storeFile files path content) path = some content := by
  simp [readFile, storeFile]

theorem writeAt_end (c s : String) : writeAt c c.length s = c ++ s := by
  cases c with
  | mk cd =>
    cases s with
    | mk sd =>
      have hd : List.drop (cd.length + sd.length) cd = [] :=
        List.drop_eq_nil_of_le (by omega)
      show String.mk _ = String.mk _
      simp [String.length, hd]

theorem WriteString_at_end (file : File) (s c : String) (w : World)
    (hc : readFile w.files file.path = some c) (ho : file.offset = c.length) :
    readFile (file.WriteString s w).2.files (file.WriteString s w).1.path = some (c ++ s) ∧
    (file.WriteString s w).1.offset = (c ++ s).length ∧
    (file.WriteString s w).1.path = file.path ∧
    (file.WriteString s w).2.trace = w.trace ∧
    (file.WriteString s w).2.politeiadCmd = w.politeiadCmd ∧
    (file.WriteString s w).2.cmswwwCmd = w.cmswwwCmd := by
  refine ⟨?_, ?_, rfl, rfl, rfl, rfl⟩
  · show readFile (storeFile w.files file.path _) file.path = _
    rw [readFile_storeFile, hc, ho]
    exact congrArg some (writeAt_end c s)
  · show file.offset + s.length = (c ++ s).length
    rw [ho, String.length_append]

theorem writeAll_at_end (ss : List String) :
    ∀ (file : File) (c : String) (w : World),
      readFile w.files file.path = some c → file.offset = c.length →
      readFile (writeAll ss file w).2.files (writeAll ss file w).1.path
          = some (c ++ concatAll ss) ∧
      (writeAll ss file w).1.offset = (c ++ concatAll ss).length ∧
      (writeAll ss file w).1.path = file.path ∧
      (writeAll ss file w).2.trace = w.trace ∧
      (writeAll ss file w).2.politeiadCmd = w.politeiadCmd ∧
      (writeAll ss file w).2.cmswwwCmd = w.cmswwwCmd := by
  induction ss with
  | nil =>
    intro file c w hc ho
    simp [writeAll, concatAll, hc, ho]
  | cons s ss ih =>
    intro file c w hc ho
    obtain ⟨h1, h2, h3, h4, h5, h6⟩ := WriteString_at_end file s c w hc ho
    obtain ⟨k1, k2, k3, k4, k5, k6⟩ :=
      ih (file.WriteString s w).1 (c ++ s) (file.WriteString s w).2 h1 h2
    have hw : writeAll (s :: ss) file w
        = writeAll ss (file.WriteString s w).1 (file.WriteString s w).2 := rfl
    have hj : c ++ concatAll (s :: ss) = c ++ s ++ concatAll ss := by
      show c ++ (s ++ concatAll ss) = _
      rw [String.append_assoc]
    rw [hw, hj]
    exact ⟨k1, k2, k3.trans h3, k4.trans h4, k5.trans h5, k6.trans h6⟩

theorem wrapInt_of_range (x : Int) (h1 : -2 ^ 63 ≤ x) (h2 : x < 2 ^ 63) : wrapInt x = x := by
  unfold wrapInt
  rw [Int.emod_eq_of_lt (by omega) (by omega)]
  omega

theorem writeRecords_eq (numRecords : Int) (hN : numRecords < 2 ^ 63 - 1) :
    ∀ (n fuel : Nat) (i : Int) (file : File) (w : World),
      -2 ^ 63 ≤ i → numRecords - i + 1 = n → n < fuel →
      writeRecords fuel i numRecords file w = some (writeAll (recordsFrom i n) file w) := by
  intro n
  induction n with
  | zero =>
    intro fuel i file w hi hn hf
    cases fuel with
    | zero => omega
    | succ fuel =>
      have : ¬ i ≤ numRecords := by omega
      simp [writeRecords, this, recordsFrom, writeAll]
  | succ n ih =>
    intro fuel i file w hi hn hf
    cases fuel with
    | zero => omega
    | succ fuel =>
      have hle : i ≤ numRecords := by omega
      have hwrap : wrapInt (i + 1) = i + 1 := wrapInt_of_range _ (by omega) (by omega)
      simp only [writeRecords, hle, if_true, hwrap]
      rw [ih fuel (i + 1) _ _ (by omega) (by omega) (by omega)]
      rfl

theorem digitChar_ne_newline (m : Nat) (h : m < 10) : Nat.digitChar m ≠ '\n' := by
  interval_cases m <;> decide

theorem toDigitsCore_no_newline :
    ∀ (fuel n : Nat) (ds : List Char), (∀ c ∈ ds, c ≠ '\n') →
      ∀ c ∈ Nat.toDigitsCore 10 fuel n ds, c ≠ '\n' := by
  intro fuel
  induction fuel with
  | zero => intro n ds h; simpa [Nat.toDigitsCore] using h
  | succ fuel ih =>
    intro n ds h
    have hd : ∀ c ∈ Nat.digitChar (n % 10) :: ds, c ≠ '\n' := by
      intro c hc
      rcases List.mem_cons.mp hc with rfl | hc
      · exact digitChar_ne_newline _ (Nat.mod_lt _ (by decide))
      · exact h c hc
    unfold Nat.toDigitsCore
    by_cases hz : n / 10 = 0
    · simpa only [hz, if_true] using hd
    · simpa only [hz, if_false] using ih _ _ hd

theorem newlines_append (a b : String) : newlines (a ++ b) = newlines a + newlines b := by
  simp [newlines, String.data_append]

theorem newlines_natToString (n : Nat) : newlines (toString n) = 0 := by
  show List.count '\n' (Nat.toDigits 10 n) = 0
  rw [List.count_eq_zero]
  intro hmem
  exact toDigitsCore_no_newline _ n [] (by simp) _ hmem rfl

theorem newlines_intToString (x : Int) : newlines (toString x) = 0 := by
  cases x with
  | ofNat m => exact newlines_natToString m
  | negSucc m =>
    show newlines ("-" ++ toString (m + 1)) = 0
    rw [newlines_append, newlines_natToString]
    decide

theorem newlines_replicate_zero (k : Nat) : newlines (String.mk (List.replicate k '0')) = 0 := by
  show List.count '\n' (List.replicate k '0') = 0
  rw [List.count_eq_zero]
  intro h
  have := List.eq_of_mem_replicate h
  revert this
  decide

theorem newlines_appendInt (x : Int) (width : Nat) : newlines (appendInt x width) = 0 := by
  unfold appendInt
  simp only [newlines_append, newlines_natToString, newlines_replicate_zero]
  split <;> decide

theorem newlines_Format (t : Time) : newlines t.Format = 0 := by
  unfold Time.Format
  simp only [newlines_append, newlines_appendInt]
  decide

theorem newlines_specRecord (i : Int) : newlines (specRecord i) = 0 := by
  unfold specRecord
  simp only [newlines_append, newlines_intToString]
  decide

theorem newlines_concatAll (ss : List String) (h : ∀ s ∈ ss, newlines s = 0) :
    newlines (concatAll ss) = 0 := by
  induction ss with
  | nil => decide
  | cons s ss ih =>
    show newlines (s ++ concatAll ss) = 0
    rw [newlines_append, h s (List.mem_cons_self _ _),
      ih (fun t ht => h t (List.mem_cons_of_mem _ ht))]

theorem recordLine_eq_specRecord (i : Int) (h1 : 0 ≤ i) (h2 : 20 * i < 2 ^ 63) :
    recordLine i = specRecord i := by
  unfold recordLine specRecord sprintInt
  rw [wrapInt_of_range _ (by omega) h2]
  have h20 : toString (20 : Int) = "20" := by decide
  rw [h20]
  simp only [String.append_assoc]
  rfl

theorem recordsFrom_eq_map (n : Nat) :
    ∀ i : Int, recordsFrom i n = (List.range n).map (fun (k : Nat) => recordLine (i + (k : Int))) := by
  induction n with
  | zero => intro i; rfl
  | succ n ih =>
    intro i
    rw [List.range_succ_eq_map, List.map_cons, List.map_map]
    show recordLine i :: recordsFrom (i + 1) n = _
    rw [ih (i + 1)]
    congr 1
    · simp
    · apply List.map_congr_left
      intro k _
      simp only [Function.comp, Nat.cast_succ]
      congr 1
      omega

theorem recordsFrom_one_eq_spec (n : Nat) (h : 20 * (n : Int) < 2 ^ 63) :
    recordsFrom 1 n = (List.range n).map (fun (k : Nat) => specRecord ((k : Int) + 1)) := by
  rw [recordsFrom_eq_map]
  apply List.map_congr_left
  intro k hk
  have hk : k < n := List.mem_range.mp hk
  rw [recordLine_eq_specRecord _ (by omega) (by omega)]
  congr 1
  omega

theorem createInvoiceFile_run (env : Env) (cfg : Config) (fuel month year : Nat)
    (numRecords : Int) (w : World)
    (hN0 : 0 ≤ numRecords) (hN : numRecords < 2 ^ 63 - 1) (hfuel : numRecords.toNat < fuel)
    (hopen : env.errOf w.trace
      (.OpenFile (env.Join [cfg.DataDir, (Date year month).FormatCsv])) = none)
    (hfresh : readFile w.files (env.Join [cfg.DataDir, (Date year month).FormatCsv]) = none) :
    ∃ err w', createInvoiceFile env cfg fuel month year numRecords w
        = some (env.Join [cfg.DataDir, (Date year month).FormatCsv], err, w') ∧
      readFile w'.files (env.Join [cfg.DataDir, (Date year month).FormatCsv])
        = some (("# " ++ (Date year month).Format ++ "\n")
            ++ ("# This file was generated by the dataload utility.\n"
            ++ concatAll (recordsFrom 1 numRecords.toNat))) := by
  have hrec := writeRecords_eq numRecords hN numRecords.toNat fuel 1
  have hopen' : osOpenFile env (env.Join [cfg.DataDir, (Date year month).FormatCsv]) w
      = (⟨env.Join [cfg.DataDir, (Date year month).FormatCsv], 0⟩, none,
          { w with
            trace := w.trace ++
              [⟨.OpenFile (env.Join [cfg.DataDir, (Date year month).FormatCsv]), none, .unit⟩],
            files := storeFile w.files
              (env.Join [cfg.DataDir, (Date year month).FormatCsv]) "" }) := by
    simp only [osOpenFile, hopen, hfresh]
  unfold createInvoiceFile
  simp only [hopen']
  rw [hrec _ _ (by norm_num) (by omega) hfuel]
  simp only [File.Sync, call]
  refine ⟨_, _, rfl, ?_⟩
  have h := writeAll_at_end
    (("# " ++ (Date year month).Format ++ "\n")
      :: "# This file was generated by the dataload utility.\n"
      :: recordsFrom 1 numRecords.toNat)
    ⟨env.Join [cfg.DataDir, (Date year month).FormatCsv], 0⟩ ""
    { w with
      trace := w.trace ++
        [⟨.OpenFile (env.Join [cfg.DataDir, (Date year month).FormatCsv]), none, .unit⟩],
      files := storeFile w.files (env.Join [cfg.DataDir, (Date year month).FormatCsv]) "" }
    (readFile_storeFile _ _ _) rfl
  obtain ⟨h1, _, h3, _⟩ := h
  rw [h3] at h1
  simpa [concatAll] using h1

theorem concatAll_append_singleton (ss : List String) (s : String) :
    concatAll (ss ++ [s]) = concatAll ss ++ s := by
  induction ss with
  | nil => simp [concatAll]
  | cons t ss ih =>
    show t ++ concatAll (ss ++ [s]) = t ++ concatAll ss ++ s
    rw [ih, String.append_assoc]

theorem recordsFrom_succ (n : Nat) :
    ∀ i : Int, recordsFrom i (n + 1) = recordsFrom i n ++ [recordLine (i + n)] := by
  induction n with
  | zero => intro i; simp [recordsFrom]
  | succ n ih =>
    intro i
    show recordLine i :: recordsFrom (i + 1) (n + 1) = recordLine i :: recordsFrom (i + 1) n ++ _
    rw [ih (i + 1)]
    have hi : i + 1 + (n : Int) = i + ((n + 1 : Nat) : Int) := by push_cast; ring
    rw [hi]
    rfl

/-- C1, within the range of Go's `int`: for every month and year and every
record count `N ≥ 1` with `20 * N < 2^63`, `createInvoiceFile` returns (given
fuel for `N` rounds of the loop), and a file that was missing before holds
afterwards exactly the line "# " followed by the date in the layout "2006-01",
the line "# This file was generated by the dataload utility.", and the `N`
records "Development,Task i,,20,(20*i)" for `i = 1..N` with nothing between
them; the content has exactly two newline characters. -/
theorem createInvoiceFile_content (env : Env) (cfg : Config) (fuel month year : Nat)
    (numRecords : Int) (w : World)
    (hN : 1 ≤ numRecords) (hbound : 20 * numRecords < 2 ^ 63)
    (hfuel : numRecords.toNat < fuel)
    (hopen : env.errOf w.trace
      (.OpenFile (env.Join [cfg.DataDir, (Date year month).FormatCsv])) = none)
    (hfresh : readFile w.files (env.Join [cfg.DataDir, (Date year month).FormatCsv]) = none) :
    ∃ err w' content,
      createInvoiceFile env cfg fuel month year numRecords w
        = some (env.Join [cfg.DataDir, (Date year month).FormatCsv], err, w') ∧
      readFile w'.files (env.Join [cfg.DataDir, (Date year month).FormatCsv]) = some content ∧
      content = ("# " ++ (Date year month).Format ++ "\n")
        ++ ("# This file was generated by the dataload utility.\n"
        ++ concatAll ((List.range numRecords.toNat).map
            (fun (k : Nat) => specRecord ((k : Int) + 1)))) ∧
      ((List.range numRecords.toNat).map
        (fun (k : Nat) => specRecord ((k : Int) + 1))).length = numRecords.toNat ∧
      newlines content = 2 := by
  obtain ⟨err, w', hrun, hcontent⟩ := createInvoiceFile_run env cfg fuel month year numRecords w
    (by omega) (by omega) hfuel hopen hfresh
  have hcast : ((numRecords.toNat : Nat) : Int) = numRecords := Int.toNat_of_nonneg (by omega)
  rw [recordsFrom_one_eq_spec _ (by omega)] at hcontent
  refine ⟨err, w', _, hrun, hcontent, rfl, by simp, ?_⟩
  simp only [newlines_append, newlines_Format]
  rw [newlines_concatAll]
  · decide
  · intro s hs
    obtain ⟨k, _, rfl⟩ := List.mem_map.mp hs
    exact newlines_specRecord _

/-- The call `createInvoiceFile(9, 2018, 5)` of `_main` on an empty data directory. -/
theorem createInvoiceFile_content_witness :
    ∃ err w' content,
      createInvoiceFile envOk cfg0 6 9 2018 5 (World.init [])
        = some ("/data/2018-09.csv", err, w') ∧
      readFile w'.files "/data/2018-09.csv" = some content ∧
      content = "# 2018-09\n# This file was generated by the dataload utility.\nDevelopment,Task 1,,20,20Development,Task 2,,20,40Development,Task 3,,20,60Development,Task 4,,20,80Development,Task 5,,20,100" ∧
      newlines content = 2 := by
  obtain ⟨err, w', content, h1, h2, h3, _, h5⟩ :=
    createInvoiceFile_content envOk cfg0 6 9 2018 5 (World.init [])
      (by decide) (by decide) (by decide) rfl (by decide)
  refine ⟨err, w', content, h1, h2, ?_, h5⟩
  rw [h3]
  rfl

/-- C1 fails as stated for a record count beyond the range in which `20 * i`
fits Go's 64 bit `int`: with `N = 461168601842738791` the last record written
carries the cost `-9223372036854775796`, not `20 * N`. -/
theorem createInvoiceFile_cost_overflow :
    ∃ err w' before,
      createInvoiceFile envOk cfg0 461168601842738792 9 2018 461168601842738791 (World.init [])
        = some ("/data/2018-09.csv", err, w') ∧
      readFile w'.files "/data/2018-09.csv"
        = some (before ++ "Development,Task 461168601842738791,,20,-9223372036854775796") ∧
      specRecord 461168601842738791
        = "Development,Task 461168601842738791,,20,9223372036854775820" := by
  obtain ⟨err, w', hrun, hcontent⟩ :=
    createInvoiceFile_run envOk cfg0 461168601842738792 9 2018 461168601842738791 (World.init [])
      (by decide) (by decide) (by decide) rfl (by decide)
  have hn : (461168601842738791 : Int).toNat = 461168601842738790 + 1 := by decide
  rw [hn, recordsFrom_succ, concatAll_append_singleton] at hcontent
  have hlast : recordLine (1 + ((461168601842738790 : Nat) : Int))
      = "Development,Task 461168601842738791,,20,-9223372036854775796" := by decide
  rw [hlast, ← String.append_assoc, ← String.append_assoc] at hcontent
  exact ⟨err, w', _, hrun, hcontent, by decide⟩

end Dataload

/-! ## The create-identity command -/

namespace Commands

/-- C8, as the code has it: when `config.LoggedInUser` is `nil` at the moment
`Execute` looks at it, `Execute` fails, generates and saves no identity and
posts nothing; the error is `ErrNotLoggedIn` when the initial version request
succeeded and the error of the version request when that failed. -/
theorem Execute_not_logged_in (env : Env) (args : List String) (s : State)
    (h : (env.InitialVersionRequest s).2.LoggedInUser = none) :
    (Execute env args s).2.actions = (env.InitialVersionRequest s).2.actions ∧
    ((env.InitialVersionRequest s).1 = none →
      (Execute env args s).1 = some env.ErrNotLoggedIn) ∧
    (∀ err, (env.InitialVersionRequest s).1 = some err →
      (Execute env args s).1 = some err) := by
  unfold Execute
  rcases hv : env.InitialVersionRequest s with ⟨r, s1⟩
  rw [hv] at h
  simp only at h
  cases r with
  | some e => simp
  | none => simp [h]

/-- Nobody is logged in and the server answers the version request. -/
theorem Execute_not_logged_in_witness :
    (Execute envReachable ["x"] ⟨none, []⟩).2.actions = [] ∧
    (Execute envReachable ["x"] ⟨none, []⟩).1 = some envReachable.ErrNotLoggedIn := by
  have h := Execute_not_logged_in envReachable ["x"] ⟨none, []⟩ rfl
  exact ⟨h.1, h.2.1 rfl⟩

/-- C8 fails as stated: nobody is logged in and the version request fails;
`Execute` returns the error of the version request, not `ErrNotLoggedIn`. -/
theorem Execute_version_error_first :
    (Execute envUnreachable [] ⟨none, []⟩).1 = some "connection refused" ∧
    (Execute envUnreachable [] ⟨none, []⟩).1 ≠ some envUnreachable.ErrNotLoggedIn := by
  decide

/-- With a user logged in and every collaborator succeeding, `Execute` makes
the identity, saves it under the user's email and posts the hex encoded key. -/
theorem Execute_logged_in_example :
    (Execute envReachable [] ⟨some ⟨"a@b.c"⟩, []⟩).1 = none ∧
    (Execute envReachable [] ⟨some ⟨"a@b.c"⟩, []⟩).2.actions
      = [.identityNew, .SaveUserIdentity ⟨List.replicate 32 171⟩ "a@b.c",
          .Post "/user/identity"
            ⟨"abababababababababababababababababababababababababababababababab"⟩] := by
  decide

end Commands

namespace Dataload

/-! ## What each function of `main.go` adds to the trace -/

set_option linter.unusedTactic false
set_option linter.unreachableTactic false

theorem osOpenFile_run (env : Env) (path : String) (w w' : World) (file : File)
    (r : Option Error) (h : osOpenFile env path w = (file, r, w')) :
    file = ⟨path, 0⟩ ∧ w'.politeiadCmd = w.politeiadCmd ∧ w'.cmswwwCmd = w.cmswwwCmd ∧
    w'.trace = w.trace ++ [⟨.OpenFile path, r, .unit⟩] := by
  unfold osOpenFile at h
  simp only at h
  repeat' split at h
  all_goals simp only [Prod.mk.injEq] at *
  all_goals casesm* _ ∧ _
  all_goals subst_vars
  all_goals simp_all

theorem call_run (env : Env) (c : Call) (w w' : World) (r : Option Error)
    (h : call env c w = (r, w')) :
    w'.trace = w.trace ++ [⟨c, r, .unit⟩] ∧ w'.politeiadCmd = w.politeiadCmd ∧
    w'.cmswwwCmd = w.cmswwwCmd := by
  simp only [call, Prod.mk.injEq] at h
  obtain ⟨rfl, rfl⟩ := h
  exact ⟨rfl, rfl, rfl⟩

theorem callStr_run (env : Env) (c : Call) (w w' : World) (s : String) (r : Option Error)
    (h : callStr env c w = (s, r, w')) :
    w'.trace = w.trace ++ [⟨c, r, .str s⟩] ∧ w'.politeiadCmd = w.politeiadCmd ∧
    w'.cmswwwCmd = w.cmswwwCmd := by
  simp only [callStr, Prod.mk.injEq] at h
  obtain ⟨rfl, rfl, rfl⟩ := h
  exact ⟨rfl, rfl, rfl⟩

theorem Login_run (env : Env) (email password : String) (w w' : World) (lr : LoginReply)
    (r : Option Error) (h : Client.Login env email password w = (lr, r, w')) :
    w'.trace = w.trace ++ [⟨.Login email password, r, .str lr.UserID⟩] ∧
    w'.politeiadCmd = w.politeiadCmd ∧ w'.cmswwwCmd = w.cmswwwCmd := by
  simp only [Client.Login, callStr, Prod.mk.injEq] at h
  obtain ⟨rfl, rfl, rfl⟩ := h
  exact ⟨rfl, rfl, rfl⟩

theorem UserDetails_run (env : Env) (userID : String) (w w' : World) (udr : UserDetailsReply)
    (r : Option Error) (h : Client.UserDetails env userID w = (udr, r, w')) :
    w'.trace = w.trace ++ [⟨.UserDetails userID, r, .user udr.User⟩] ∧
    w'.politeiadCmd = w.politeiadCmd ∧ w'.cmswwwCmd = w.cmswwwCmd := by
  simp only [Client.UserDetails, callUser, Prod.mk.injEq] at h
  obtain ⟨rfl, rfl, rfl⟩ := h
  exact ⟨rfl, rfl, rfl⟩

theorem call_trace (env : Env) (c : Call) (w : World) :
    (call env c w).2.trace = w.trace ++ [⟨c, (call env c w).1, .unit⟩] :=
  rfl

theorem call_politeiadCmd (env : Env) (c : Call) (w : World) :
    (call env c w).2.politeiadCmd = w.politeiadCmd :=
  rfl

theorem call_cmswwwCmd (env : Env) (c : Call) (w : World) :
    (call env c w).2.cmswwwCmd = w.cmswwwCmd :=
  rfl

theorem generateRandomString_trace (env : Env) (n : Nat) (w : World) :
    (generateRandomString env n w).2.trace
      = w.trace ++ [⟨.generateRandomString n, none, .str (generateRandomString env n w).1⟩] :=
  rfl

theorem generateRandomString_politeiadCmd (env : Env) (n : Nat) (w : World) :
    (generateRandomString env n w).2.politeiadCmd = w.politeiadCmd :=
  rfl

theorem generateRandomString_cmswwwCmd (env : Env) (n : Nat) (w : World) :
    (generateRandomString env n w).2.cmswwwCmd = w.cmswwwCmd :=
  rfl

theorem writeRecords_frame :
    ∀ (fuel : Nat) (i numRecords : Int) (file file' : File) (w w' : World),
      writeRecords fuel i numRecords file w = some (file', w') →
      file'.path = file.path ∧ w'.trace = w.trace ∧ w'.politeiadCmd = w.politeiadCmd ∧
      w'.cmswwwCmd = w.cmswwwCmd := by
  intro fuel
  induction fuel with
  | zero => intro i n f f' w w' h; simp [writeRecords] at h
  | succ fuel ih =>
    intro i n f f' w w' h
    unfold writeRecords at h
    split at h
    · obtain ⟨h1, h2, h3, h4⟩ := ih _ _ _ _ _ _ h
      exact ⟨h1, h2, h3, h4⟩
    · simp only [Option.some.injEq, Prod.mk.injEq] at h
      obtain ⟨rfl, rfl⟩ := h
      exact ⟨rfl, rfl, rfl, rfl⟩

theorem createInvoiceFile_trace (env : Env) (cfg : Config) (fuel month year : Nat)
    (numRecords : Int) (w w' : World) (p : String) (r : Option Error)
    (h : createInvoiceFile env cfg fuel month year numRecords w = some (p, r, w')) :
    w'.politeiadCmd = w.politeiadCmd ∧ w'.cmswwwCmd = w.cmswwwCmd ∧
    ((∃ e, r = some e ∧ w'.trace = w.trace ++
        [⟨.OpenFile (env.Join [cfg.DataDir, (Date year month).FormatCsv]), some e, .unit⟩]) ∨
     (p = env.Join [cfg.DataDir, (Date year month).FormatCsv] ∧ w'.trace = w.trace ++
        [⟨.OpenFile (env.Join [cfg.DataDir, (Date year month).FormatCsv]), none, .unit⟩,
         ⟨.Sync (env.Join [cfg.DataDir, (Date year month).FormatCsv]), r, .unit⟩])) := by
  unfold createInvoiceFile at h
  simp only at h
  split at h
  · rename_i heq
    obtain ⟨_, h2, h3, h4⟩ := osOpenFile_run _ _ _ _ _ _ heq
    simp only [Option.some.injEq, Prod.mk.injEq] at h
    obtain ⟨_, rfl, rfl⟩ := h
    exact ⟨h2, h3, Or.inl ⟨_, rfl, h4⟩⟩
  · rename_i heq
    obtain ⟨h1, h2, h3, h4⟩ := osOpenFile_run _ _ _ _ _ _ heq
    split at h
    · simp at h
    · rename_i hw
      obtain ⟨k1, k2, k3, k4⟩ := writeRecords_frame _ _ _ _ _ _ _ hw
      simp only [File.Sync, call, Option.some.injEq, Prod.mk.injEq] at h
      obtain ⟨rfl, rfl, rfl⟩ := h
      subst h1
      simp only [File.WriteString] at k1 k2 k3 k4
      refine ⟨k3.trans h2, k4.trans h3, Or.inr ⟨rfl, ?_⟩⟩
      simp only [k1, k2, h4, List.append_assoc, List.singleton_append]

theorem deleteExistingData_run (env : Env) (w w' : World) (r : Option Error)
    (h : deleteExistingData env w = (r, w')) :
    w'.politeiadCmd = w.politeiadCmd ∧ w'.cmswwwCmd = w.cmswwwCmd ∧
    ((∃ e, r = some e ∧ w'.trace = w.trace ++
        [⟨.RemoveAll (env.Join [env.politeiadAppDataDir, "data"]), some e, .unit⟩]) ∨
     (∃ e, r = some e ∧ w'.trace = w.trace ++
        [⟨.RemoveAll (env.Join [env.politeiadAppDataDir, "data"]), none, .unit⟩,
         ⟨.RemoveAll (env.Join [env.Join [env.DefaultDataDir, env.TestNet3ParamsName],
            "sessions"]), none, .unit⟩,
         ⟨.Remove (env.Join [env.Join [env.DefaultDataDir, env.TestNet3ParamsName],
            "csrf.key"]), none, .unit⟩,
         ⟨.DeleteAllData, some e, .unit⟩]) ∨
     (r = none ∧ w'.trace = w.trace ++
        [⟨.RemoveAll (env.Join [env.politeiadAppDataDir, "data"]), none, .unit⟩,
         ⟨.RemoveAll (env.Join [env.Join [env.DefaultDataDir, env.TestNet3ParamsName],
            "sessions"]), none, .unit⟩,
         ⟨.Remove (env.Join [env.Join [env.DefaultDataDir, env.TestNet3ParamsName],
            "csrf.key"]), none, .unit⟩,
         ⟨.DeleteAllData, none, .unit⟩,
         ⟨.RemoveAll env.HomeDir, none, .unit⟩])) := by
  unfold deleteExistingData at h
  simp only [Client.DeleteAllData] at h
  repeat' split at h
  all_goals try contradiction
  all_goals try simp only [Option.some.injEq] at h
  all_goals repeat
    (have hx := call_run _ _ _ _ _ ‹call _ _ _ = _›; clear ‹call _ _ _ = _›)
  all_goals repeat
    (have hx := Login_run _ _ _ _ _ _ _ ‹Client.Login _ _ _ _ = _›;
     clear ‹Client.Login _ _ _ _ = _›)
  all_goals repeat
    (have hx := callStr_run _ _ _ _ _ _ ‹callStr _ _ _ = _›; clear ‹callStr _ _ _ = _›)
  all_goals repeat
    (have hx := osOpenFile_run _ _ _ _ _ _ ‹osOpenFile _ _ _ = _›;
     clear ‹osOpenFile _ _ _ = _›)
  all_goals repeat
    (have hx := UserDetails_run _ _ _ _ _ _ ‹Client.UserDetails _ _ _ = _›;
     clear ‹Client.UserDetails _ _ _ = _›)
  all_goals try simp only [Prod.mk.injEq] at h
  all_goals casesm* _ ∧ _
  all_goals subst_vars
  all_goals try simp only [ne_eq, not_not] at *
  all_goals try simp only [*, generateRandomString_trace, generateRandomString_politeiadCmd,
    generateRandomString_cmswwwCmd, call_trace, call_politeiadCmd, call_cmswwwCmd,
    List.append_assoc, List.singleton_append, List.cons_append,
    List.nil_append, true_and, callIgnored]
  all_goals simp [*]

theorem startPoliteiad_run (env : Env) (cfg : Config) (fuel : Nat) (w w' : World)
    (r : Option Error) (h : startPoliteiad env cfg fuel w = some (r, w')) :
    w'.cmswwwCmd = w.cmswwwCmd ∧
    ((∃ e, r = some e ∧ w'.politeiadCmd = none ∧ w'.trace = w.trace ++
        [⟨.ExecuteCommand "politeiad" ["--testnet"], none, .unit⟩,
         ⟨.StdoutPipe ⟨w.trace.length, ["politeiad", "--testnet"]⟩, none, .unit⟩,
         ⟨.Start ⟨w.trace.length, ["politeiad", "--testnet"]⟩, some e, .unit⟩]) ∨
     (w'.politeiadCmd = some ⟨w.trace.length, ["politeiad", "--testnet"]⟩ ∧
      w'.trace = w.trace ++
        [⟨.ExecuteCommand "politeiad" ["--testnet"], none, .unit⟩,
         ⟨.StdoutPipe ⟨w.trace.length, ["politeiad", "--testnet"]⟩, none, .unit⟩,
         ⟨.Start ⟨w.trace.length, ["politeiad", "--testnet"]⟩, none, .unit⟩,
         ⟨.OpenFile cfg.PoliteiadLogFile, r, .unit⟩])) := by
  unfold startPoliteiad at h
  simp only [Client.ExecuteCommand, createLogFile] at h
  repeat' split at h
  all_goals try contradiction
  all_goals try simp only [Option.some.injEq] at h
  all_goals repeat
    (have hx := call_run _ _ _ _ _ ‹call _ _ _ = _›; clear ‹call _ _ _ = _›)
  all_goals repeat
    (have hx := Login_run _ _ _ _ _ _ _ ‹Client.Login _ _ _ _ = _›;
     clear ‹Client.Login _ _ _ _ = _›)
  all_goals repeat
    (have hx := callStr_run _ _ _ _ _ _ ‹callStr _ _ _ = _›; clear ‹callStr _ _ _ = _›)
  all_goals repeat
    (have hx := osOpenFile_run _ _ _ _ _ _ ‹osOpenFile _ _ _ = _›;
     clear ‹osOpenFile _ _ _ = _›)
  all_goals repeat
    (have hx := UserDetails_run _ _ _ _ _ _ ‹Client.UserDetails _ _ _ = _›;
     clear ‹Client.UserDetails _ _ _ = _›)
  all_goals try simp only [Prod.mk.injEq] at h
  all_goals casesm* _ ∧ _
  all_goals subst_vars
  all_goals try simp only [ne_eq, not_not] at *
  all_goals try simp only [*, generateRandomString_trace, generateRandomString_politeiadCmd,
    generateRandomString_cmswwwCmd, call_trace, call_politeiadCmd, call_cmswwwCmd,
    List.append_assoc, List.singleton_append, List.cons_append,
    List.nil_append, true_and, callIgnored]
  all_goals simp [*]

theorem startCmswww_run (env : Env) (cfg : Config) (fuel : Nat) (w w' : World)
    (r : Option Error) (h : startCmswww env cfg fuel w = some (r, w')) :
    w'.politeiadCmd = w.politeiadCmd ∧
    ((∃ e, r = some e ∧ w'.cmswwwCmd = none ∧ w'.trace = w.trace ++
        [⟨.CreateCmswwwCmd, none, .unit⟩,
         ⟨.StdoutPipe ⟨w.trace.length, env.cmswwwArgs⟩, none, .unit⟩,
         ⟨.Start ⟨w.trace.length, env.cmswwwArgs⟩, some e, .unit⟩]) ∨
     (∃ e, r = some e ∧ w'.cmswwwCmd = some ⟨w.trace.length, env.cmswwwArgs⟩ ∧
      w'.trace = w.trace ++
        [⟨.CreateCmswwwCmd, none, .unit⟩,
         ⟨.StdoutPipe ⟨w.trace.length, env.cmswwwArgs⟩, none, .unit⟩,
         ⟨.Start ⟨w.trace.length, env.cmswwwArgs⟩, none, .unit⟩,
         ⟨.OpenFile cfg.CmswwwLogFile, some e, .unit⟩]) ∨
     (w'.cmswwwCmd = some ⟨w.trace.length, env.cmswwwArgs⟩ ∧
      w'.trace = w.trace ++
        [⟨.CreateCmswwwCmd, none, .unit⟩,
         ⟨.StdoutPipe ⟨w.trace.length, env.cmswwwArgs⟩, none, .unit⟩,
         ⟨.Start ⟨w.trace.length, env.cmswwwArgs⟩, none, .unit⟩,
         ⟨.OpenFile cfg.CmswwwLogFile, none, .unit⟩,
         ⟨.Version, r, .unit⟩])) := by
  unfold startCmswww at h
  simp only [Client.CreateCmswwwCmd, Client.Version, createLogFile] at h
  repeat' split at h
  all_goals try contradiction
  all_goals try simp only [Option.some.injEq] at h
  all_goals repeat
    (have hx := call_run _ _ _ _ _ ‹call _ _ _ = _›; clear ‹call _ _ _ = _›)
  all_goals repeat
    (have hx := Login_run _ _ _ _ _ _ _ ‹Client.Login _ _ _ _ = _›;
     clear ‹Client.Login _ _ _ _ = _›)
  all_goals repeat
    (have hx := callStr_run _ _ _ _ _ _ ‹callStr _ _ _ = _›; clear ‹callStr _ _ _ = _›)
  all_goals repeat
    (have hx := osOpenFile_run _ _ _ _ _ _ ‹osOpenFile _ _ _ = _›;
     clear ‹osOpenFile _ _ _ = _›)
  all_goals repeat
    (have hx := UserDetails_run _ _ _ _ _ _ ‹Client.UserDetails _ _ _ = _›;
     clear ‹Client.UserDetails _ _ _ = _›)
  all_goals try simp only [Prod.mk.injEq] at h
  all_goals casesm* _ ∧ _
  all_goals subst_vars
  all_goals try simp only [ne_eq, not_not] at *
  all_goals try simp only [*, generateRandomString_trace, generateRandomString_politeiadCmd,
    generateRandomString_cmswwwCmd, call_trace, call_politeiadCmd, call_cmswwwCmd,
    List.append_assoc, List.singleton_append, List.cons_append,
    List.nil_append, true_and, callIgnored]
  all_goals simp [*]

theorem setNewIdentity_run (env : Env) (email password : String) (w w' : World)
    (r : Option Error) (h : setNewIdentity env email password w = (r, w')) :
    w'.politeiadCmd = w.politeiadCmd ∧ w'.cmswwwCmd = w.cmswwwCmd ∧
    ((∃ e id, r = some e ∧ w'.trace = w.trace ++
        [⟨.Login email password, some e, .str id⟩]) ∨
     (∃ e id tok, r = some e ∧ w'.trace = w.trace ++
        [⟨.Login email password, none, .str id⟩, ⟨.NewIdentity, some e, .str tok⟩]) ∨
     (∃ e id tok, r = some e ∧ w'.trace = w.trace ++
        [⟨.Login email password, none, .str id⟩, ⟨.NewIdentity, none, .str tok⟩,
         ⟨.VerifyIdentity tok, some e, .unit⟩]) ∨
     (∃ id tok, w'.trace = w.trace ++
        [⟨.Login email password, none, .str id⟩, ⟨.NewIdentity, none, .str tok⟩,
         ⟨.VerifyIdentity tok, none, .unit⟩, ⟨.Logout, r, .unit⟩])) := by
  unfold setNewIdentity at h
  simp only [Client.NewIdentity, Client.VerifyIdentity, Client.Logout] at h
  repeat' split at h
  all_goals try contradiction
  all_goals try simp only [Option.some.injEq] at h
  all_goals repeat
    (have hx := call_run _ _ _ _ _ ‹call _ _ _ = _›; clear ‹call _ _ _ = _›)
  all_goals repeat
    (have hx := Login_run _ _ _ _ _ _ _ ‹Client.Login _ _ _ _ = _›;
     clear ‹Client.Login _ _ _ _ = _›)
  all_goals repeat
    (have hx := callStr_run _ _ _ _ _ _ ‹callStr _ _ _ = _›; clear ‹callStr _ _ _ = _›)
  all_goals repeat
    (have hx := osOpenFile_run _ _ _ _ _ _ ‹osOpenFile _ _ _ = _›;
     clear ‹osOpenFile _ _ _ = _›)
  all_goals repeat
    (have hx := UserDetails_run _ _ _ _ _ _ ‹Client.UserDetails _ _ _ = _›;
     clear ‹Client.UserDetails _ _ _ = _›)
  all_goals try simp only [Prod.mk.injEq] at h
  all_goals casesm* _ ∧ _
  all_goals subst_vars
  all_goals try simp only [ne_eq, not_not] at *
  all_goals try simp only [*, generateRandomString_trace, generateRandomString_politeiadCmd,
    generateRandomString_cmswwwCmd, call_trace, call_politeiadCmd, call_cmswwwCmd,
    List.append_assoc, List.singleton_append, List.cons_append,
    List.nil_append, true_and, callIgnored]
  all_goals simp [*]

theorem createContractorUser_run (env : Env)
    (adminEmail adminPass email user pass name location xpub : String) (w w' : World)
    (r : Option Error)
    (h : createContractorUser env adminEmail adminPass email user pass name location xpub w
      = (r, w')) :
    w'.politeiadCmd = w.politeiadCmd ∧ w'.cmswwwCmd = w.cmswwwCmd ∧
    ((∃ e id, r = some e ∧ w'.trace = w.trace ++
        [⟨.Login adminEmail adminPass, some e, .str id⟩]) ∨
     (∃ e id inv, r = some e ∧ w'.trace = w.trace ++
        [⟨.Login adminEmail adminPass, none, .str id⟩, ⟨.InviteUser email, some e, .str inv⟩]) ∨
     (∃ e id inv tok, r = some e ∧ w'.trace = w.trace ++
        [⟨.Login adminEmail adminPass, none, .str id⟩, ⟨.InviteUser email, none, .str inv⟩,
         ⟨.ResendInvite email, some e, .str tok⟩]) ∨
     (∃ e id inv tok, r = some e ∧ w'.trace = w.trace ++
        [⟨.Login adminEmail adminPass, none, .str id⟩, ⟨.InviteUser email, none, .str inv⟩,
         ⟨.ResendInvite email, none, .str tok⟩, ⟨.Logout, some e, .unit⟩]) ∨
     (∃ id inv tok, w'.trace = w.trace ++
        [⟨.Login adminEmail adminPass, none, .str id⟩, ⟨.InviteUser email, none, .str inv⟩,
         ⟨.ResendInvite email, none, .str tok⟩, ⟨.Logout, none, .unit⟩,
         ⟨.RegisterUser email user pass name location xpub tok, r, .unit⟩])) := by
  unfold createContractorUser at h
  simp only [Client.InviteUser, Client.ResendInvite, Client.RegisterUser,
    Client.Logout] at h
  repeat' split at h
  all_goals try contradiction
  all_goals try simp only [Option.some.injEq] at h
  all_goals repeat
    (have hx := call_run _ _ _ _ _ ‹call _ _ _ = _›; clear ‹call _ _ _ = _›)
  all_goals repeat
    (have hx := Login_run _ _ _ _ _ _ _ ‹Client.Login _ _ _ _ = _›;
     clear ‹Client.Login _ _ _ _ = _›)
  all_goals repeat
    (have hx := callStr_run _ _ _ _ _ _ ‹callStr _ _ _ = _›; clear ‹callStr _ _ _ = _›)
  all_goals repeat
    (have hx := osOpenFile_run _ _ _ _ _ _ ‹osOpenFile _ _ _ = _›;
     clear ‹osOpenFile _ _ _ = _›)
  all_goals repeat
    (have hx := UserDetails_run _ _ _ _ _ _ ‹Client.UserDetails _ _ _ = _›;
     clear ‹Client.UserDetails _ _ _ = _›)
  all_goals try simp only [Prod.mk.injEq] at h
  all_goals casesm* _ ∧ _
  all_goals subst_vars
  all_goals try simp only [ne_eq, not_not] at *
  all_goals try simp only [*, generateRandomString_trace, generateRandomString_politeiadCmd,
    generateRandomString_cmswwwCmd, call_trace, call_politeiadCmd, call_cmswwwCmd,
    List.append_assoc, List.singleton_append, List.cons_append,
    List.nil_append, true_and, callIgnored]
  all_goals simp [*]

theorem submitInvoice_run (env : Env) (email password filepath : String) (w w' : World)
    (token : String) (r : Option Error)
    (h : submitInvoice env email password filepath w = (token, r, w')) :
    w'.politeiadCmd = w.politeiadCmd ∧ w'.cmswwwCmd = w.cmswwwCmd ∧
    ((∃ e id, r = some e ∧ w'.trace = w.trace ++
        [⟨.Login email password, some e, .str id⟩]) ∨
     (∃ e id tok, r = some e ∧ w'.trace = w.trace ++
        [⟨.Login email password, none, .str id⟩, ⟨.SubmitInvoice filepath, some e, .str tok⟩]) ∨
     (∃ id, w'.trace = w.trace ++
        [⟨.Login email password, none, .str id⟩, ⟨.SubmitInvoice filepath, none, .str token⟩,
         ⟨.Logout, r, .unit⟩])) := by
  unfold submitInvoice at h
  simp only [Client.SubmitInvoice, Client.Logout] at h
  repeat' split at h
  all_goals try contradiction
  all_goals try simp only [Option.some.injEq] at h
  all_goals repeat
    (have hx := call_run _ _ _ _ _ ‹call _ _ _ = _›; clear ‹call _ _ _ = _›)
  all_goals repeat
    (have hx := Login_run _ _ _ _ _ _ _ ‹Client.Login _ _ _ _ = _›;
     clear ‹Client.Login _ _ _ _ = _›)
  all_goals repeat
    (have hx := callStr_run _ _ _ _ _ _ ‹callStr _ _ _ = _›; clear ‹callStr _ _ _ = _›)
  all_goals repeat
    (have hx := osOpenFile_run _ _ _ _ _ _ ‹osOpenFile _ _ _ = _›;
     clear ‹osOpenFile _ _ _ = _›)
  all_goals repeat
    (have hx := UserDetails_run _ _ _ _ _ _ ‹Client.UserDetails _ _ _ = _›;
     clear ‹Client.UserDetails _ _ _ = _›)
  all_goals try simp only [Prod.mk.injEq] at h
  all_goals casesm* _ ∧ _
  all_goals subst_vars
  all_goals try simp only [ne_eq, not_not] at *
  all_goals try simp only [*, generateRandomString_trace, generateRandomString_politeiadCmd,
    generateRandomString_cmswwwCmd, call_trace, call_politeiadCmd, call_cmswwwCmd,
    List.append_assoc, List.singleton_append, List.cons_append,
    List.nil_append, true_and, callIgnored]
  all_goals simp [*]

theorem approveInvoice_run (env : Env) (email password token : String) (w w' : World)
    (r : Option Error) (h : approveInvoice env email password token w = (r, w')) :
    w'.politeiadCmd = w.politeiadCmd ∧ w'.cmswwwCmd = w.cmswwwCmd ∧
    ((∃ e id, r = some e ∧ w'.trace = w.trace ++
        [⟨.Login email password, some e, .str id⟩]) ∨
     (∃ e id, r = some e ∧ w'.trace = w.trace ++
        [⟨.Login email password, none, .str id⟩, ⟨.ApproveInvoice token, some e, .unit⟩]) ∨
     (∃ id, w'.trace = w.trace ++
        [⟨.Login email password, none, .str id⟩, ⟨.ApproveInvoice token, none, .unit⟩,
         ⟨.Logout, r, .unit⟩])) := by
  unfold approveInvoice at h
  simp only [Client.ApproveInvoice, Client.Logout] at h
  repeat' split at h
  all_goals try contradiction
  all_goals try simp only [Option.some.injEq] at h
  all_goals repeat
    (have hx := call_run _ _ _ _ _ ‹call _ _ _ = _›; clear ‹call _ _ _ = _›)
  all_goals repeat
    (have hx := Login_run _ _ _ _ _ _ _ ‹Client.Login _ _ _ _ = _›;
     clear ‹Client.Login _ _ _ _ = _›)
  all_goals repeat
    (have hx := callStr_run _ _ _ _ _ _ ‹callStr _ _ _ = _›; clear ‹callStr _ _ _ = _›)
  all_goals repeat
    (have hx := osOpenFile_run _ _ _ _ _ _ ‹osOpenFile _ _ _ = _›;
     clear ‹osOpenFile _ _ _ = _›)
  all_goals repeat
    (have hx := UserDetails_run _ _ _ _ _ _ ‹Client.UserDetails _ _ _ = _›;
     clear ‹Client.UserDetails _ _ _ = _›)
  all_goals try simp only [Prod.mk.injEq] at h
  all_goals casesm* _ ∧ _
  all_goals subst_vars
  all_goals try simp only [ne_eq, not_not] at *
  all_goals try simp only [*, generateRandomString_trace, generateRandomString_politeiadCmd,
    generateRandomString_cmswwwCmd, call_trace, call_politeiadCmd, call_cmswwwCmd,
    List.append_assoc, List.singleton_append, List.cons_append,
    List.nil_append, true_and, callIgnored]
  all_goals simp [*]

theorem rejectInvoice_run (env : Env) (email password token : String) (w w' : World)
    (r : Option Error) (h : rejectInvoice env email password token w = (r, w')) :
    w'.politeiadCmd = w.politeiadCmd ∧ w'.cmswwwCmd = w.cmswwwCmd ∧
    ((∃ e id, r = some e ∧ w'.trace = w.trace ++
        [⟨.Login email password, some e, .str id⟩]) ∨
     (∃ e id, r = some e ∧ w'.trace = w.trace ++
        [⟨.Login email password, none, .str id⟩, ⟨.RejectInvoice token, some e, .unit⟩]) ∨
     (∃ id, w'.trace = w.trace ++
        [⟨.Login email password, none, .str id⟩, ⟨.RejectInvoice token, none, .unit⟩,
         ⟨.Logout, r, .unit⟩])) := by
  unfold rejectInvoice at h
  simp only [Client.RejectInvoice, Client.Logout] at h
  repeat' split at h
  all_goals try contradiction
  all_goals try simp only [Option.some.injEq] at h
  all_goals repeat
    (have hx := call_run _ _ _ _ _ ‹call _ _ _ = _›; clear ‹call _ _ _ = _›)
  all_goals repeat
    (have hx := Login_run _ _ _ _ _ _ _ ‹Client.Login _ _ _ _ = _›;
     clear ‹Client.Login _ _ _ _ = _›)
  all_goals repeat
    (have hx := callStr_run _ _ _ _ _ _ ‹callStr _ _ _ = _›; clear ‹callStr _ _ _ = _›)
  all_goals repeat
    (have hx := osOpenFile_run _ _ _ _ _ _ ‹osOpenFile _ _ _ = _›;
     clear ‹osOpenFile _ _ _ = _›)
  all_goals repeat
    (have hx := UserDetails_run _ _ _ _ _ _ ‹Client.UserDetails _ _ _ = _›;
     clear ‹Client.UserDetails _ _ _ = _›)
  all_goals try simp only [Prod.mk.injEq] at h
  all_goals casesm* _ ∧ _
  all_goals subst_vars
  all_goals try simp only [ne_eq, not_not] at *
  all_goals try simp only [*, generateRandomString_trace, generateRandomString_politeiadCmd,
    generateRandomString_cmswwwCmd, call_trace, call_politeiadCmd, call_cmswwwCmd,
    List.append_assoc, List.singleton_append, List.cons_append,
    List.nil_append, true_and, callIgnored]
  all_goals simp [*]

theorem testPasswordResetAndChange_run (env : Env) (email password : String) (w w' : World)
    (r : Option Error) (h : testPasswordResetAndChange env email password w = (r, w')) :
    w'.politeiadCmd = w.politeiadCmd ∧ w'.cmswwwCmd = w.cmswwwCmd ∧
    ∃ newPassword,
    ((∃ e, r = some e ∧ w'.trace = w.trace ++
        [⟨.generateRandomString 16, none, .str newPassword⟩,
         ⟨.ResetPassword email newPassword, some e, .unit⟩]) ∨
     (∃ e id, r = some e ∧ w'.trace = w.trace ++
        [⟨.generateRandomString 16, none, .str newPassword⟩,
         ⟨.ResetPassword email newPassword, none, .unit⟩,
         ⟨.Login email newPassword, some e, .str id⟩]) ∨
     (∃ e id, r = some e ∧ w'.trace = w.trace ++
        [⟨.generateRandomString 16, none, .str newPassword⟩,
         ⟨.ResetPassword email newPassword, none, .unit⟩,
         ⟨.Login email newPassword, none, .str id⟩,
         ⟨.ChangePassword newPassword password, some e, .unit⟩]) ∨
     (∃ id, w'.trace = w.trace ++
        [⟨.generateRandomString 16, none, .str newPassword⟩,
         ⟨.ResetPassword email newPassword, none, .unit⟩,
         ⟨.Login email newPassword, none, .str id⟩,
         ⟨.ChangePassword newPassword password, none, .unit⟩,
         ⟨.Logout, r, .unit⟩])) := by
  unfold testPasswordResetAndChange at h
  simp only [Client.ResetPassword, Client.ChangePassword,
    Client.Logout] at h
  repeat' split at h
  all_goals try contradiction
  all_goals try simp only [Option.some.injEq] at h
  all_goals repeat
    (have hx := call_run _ _ _ _ _ ‹call _ _ _ = _›; clear ‹call _ _ _ = _›)
  all_goals repeat
    (have hx := Login_run _ _ _ _ _ _ _ ‹Client.Login _ _ _ _ = _›;
     clear ‹Client.Login _ _ _ _ = _›)
  all_goals repeat
    (have hx := callStr_run _ _ _ _ _ _ ‹callStr _ _ _ = _›; clear ‹callStr _ _ _ = _›)
  all_goals repeat
    (have hx := osOpenFile_run _ _ _ _ _ _ ‹osOpenFile _ _ _ = _›;
     clear ‹osOpenFile _ _ _ = _›)
  all_goals repeat
    (have hx := UserDetails_run _ _ _ _ _ _ ‹Client.UserDetails _ _ _ = _›;
     clear ‹Client.UserDetails _ _ _ = _›)
  all_goals try simp only [Prod.mk.injEq] at h
  all_goals casesm* _ ∧ _
  all_goals subst_vars
  all_goals try simp only [ne_eq, not_not] at *
  all_goals try simp only [*, generateRandomString_trace, generateRandomString_politeiadCmd,
    generateRandomString_cmswwwCmd, call_trace, call_politeiadCmd, call_cmswwwCmd,
    List.append_assoc, List.singleton_append, List.cons_append,
    List.nil_append, true_and, callIgnored]
  all_goals simp [*]

theorem testEditUser_run (env : Env) (email password : String) (w w' : World)
    (r : Option Error) (h : testEditUser env email password w = (r, w')) :
    w'.politeiadCmd = w.politeiadCmd ∧ w'.cmswwwCmd = w.cmswwwCmd ∧
    ((∃ e id, r = some e ∧ w'.trace = w.trace ++
        [⟨.Login email password, some e, .str id⟩]) ∨
     (∃ e id u, r = some e ∧ w'.trace = w.trace ++
        [⟨.Login email password, none, .str id⟩, ⟨.UserDetails id, some e, .user u⟩]) ∨
     (∃ e id u n1 n2 n3, r = some e ∧ w'.trace = w.trace ++
        [⟨.Login email password, none, .str id⟩, ⟨.UserDetails id, none, .user u⟩,
         ⟨.generateRandomString 16, none, .str n1⟩, ⟨.generateRandomString 16, none, .str n2⟩,
         ⟨.generateRandomString 16, none, .str n3⟩, ⟨.EditUser n1 n2 n3, some e, .unit⟩]) ∨
     (∃ e id u n1 n2 n3 u2, r = some e ∧ w'.trace = w.trace ++
        [⟨.Login email password, none, .str id⟩, ⟨.UserDetails id, none, .user u⟩,
         ⟨.generateRandomString 16, none, .str n1⟩, ⟨.generateRandomString 16, none, .str n2⟩,
         ⟨.generateRandomString 16, none, .str n3⟩, ⟨.EditUser n1 n2 n3, none, .unit⟩,
         ⟨.UserDetails id, some e, .user u2⟩]) ∨
     (∃ id u n1 n2 n3 u2, w'.trace = w.trace ++
        [⟨.Login email password, none, .str id⟩, ⟨.UserDetails id, none, .user u⟩,
         ⟨.generateRandomString 16, none, .str n1⟩, ⟨.generateRandomString 16, none, .str n2⟩,
         ⟨.generateRandomString 16, none, .str n3⟩, ⟨.EditUser n1 n2 n3, none, .unit⟩,
         ⟨.UserDetails id, none, .user u2⟩] ∧
        (r = some "User's name was not modified" ∨
         r = some "User's location was not modified" ∨
         r = some "User's extended public key was not modified")) ∨
     (∃ e id u n1 n2 n3, r = some e ∧ w'.trace = w.trace ++
        [⟨.Login email password, none, .str id⟩, ⟨.UserDetails id, none, .user u⟩,
         ⟨.generateRandomString 16, none, .str n1⟩, ⟨.generateRandomString 16, none, .str n2⟩,
         ⟨.generateRandomString 16, none, .str n3⟩, ⟨.EditUser n1 n2 n3, none, .unit⟩,
         ⟨.UserDetails id, none, .user ⟨n1, n2, n3⟩⟩,
         ⟨.EditUser u.Name u.Location u.ExtendedPublicKey, some e, .unit⟩]) ∨
     (∃ id u n1 n2 n3, w'.trace = w.trace ++
        [⟨.Login email password, none, .str id⟩, ⟨.UserDetails id, none, .user u⟩,
         ⟨.generateRandomString 16, none, .str n1⟩, ⟨.generateRandomString 16, none, .str n2⟩,
         ⟨.generateRandomString 16, none, .str n3⟩, ⟨.EditUser n1 n2 n3, none, .unit⟩,
         ⟨.UserDetails id, none, .user ⟨n1, n2, n3⟩⟩,
         ⟨.EditUser u.Name u.Location u.ExtendedPublicKey, none, .unit⟩,
         ⟨.Logout, r, .unit⟩])) := by
  unfold testEditUser at h
  simp only [Client.EditUser, Client.Logout] at h
  repeat' split at h
  all_goals try contradiction
  all_goals try simp only [Option.some.injEq] at h
  all_goals repeat
    (have hx := call_run _ _ _ _ _ ‹call _ _ _ = _›; clear ‹call _ _ _ = _›)
  all_goals repeat
    (have hx := Login_run _ _ _ _ _ _ _ ‹Client.Login _ _ _ _ = _›;
     clear ‹Client.Login _ _ _ _ = _›)
  all_goals repeat
    (have hx := callStr_run _ _ _ _ _ _ ‹callStr _ _ _ = _›; clear ‹callStr _ _ _ = _›)
  all_goals repeat
    (have hx := osOpenFile_run _ _ _ _ _ _ ‹osOpenFile _ _ _ = _›;
     clear ‹osOpenFile _ _ _ = _›)
  all_goals repeat
    (have hx := UserDetails_run _ _ _ _ _ _ ‹Client.UserDetails _ _ _ = _›;
     clear ‹Client.UserDetails _ _ _ = _›)
  all_goals try simp only [Prod.mk.injEq] at h
  all_goals casesm* _ ∧ _
  all_goals subst_vars
  all_goals try simp only [ne_eq, not_not] at *
  all_goals try simp only [*, generateRandomString_trace, generateRandomString_politeiadCmd,
    generateRandomString_cmswwwCmd, call_trace, call_politeiadCmd, call_cmswwwCmd,
    List.append_assoc, List.singleton_append, List.cons_append,
    List.nil_append, true_and, callIgnored]
  all_goals simp [*]

/-! ## Fail-fast, sessions and teardown along a trace -/

theorem failFast_nil (r : Option Error) : failFast r [] := by
  intro pre ev post e h
  simp at h

theorem failFast_cons (r : Option Error) (ev : Event) (evs : List Event) :
    failFast r (ev :: evs) ↔
      (∀ e, ev.err = some e → evs = [] ∧ r = some e) ∧ failFast r evs := by
  constructor
  · intro h
    refine ⟨fun e he => h [] ev evs e rfl he, ?_⟩
    intro pre ev' post e hl he
    exact h (ev :: pre) ev' post e (by rw [hl]; rfl) he
  · rintro ⟨h1, h2⟩ pre ev' post e hl he
    cases pre with
    | nil =>
      simp only [List.nil_append, List.cons.injEq] at hl
      obtain ⟨rfl, rfl⟩ := hl
      exact h1 e he
    | cons p pre =>
      simp only [List.cons_append, List.cons.injEq] at hl
      obtain ⟨rfl, rfl⟩ := hl
      exact h2 pre ev' post e rfl he

theorem failFast_none_allOk (evs : List Event) (h : failFast none evs) :
    ∀ ev ∈ evs, ev.err = none := by
  intro ev hev
  obtain ⟨pre, post, rfl⟩ := List.append_of_mem hev
  cases he : ev.err with
  | none => rfl
  | some e => exact absurd (h pre ev post e rfl he).2 (by simp)

theorem failFast_append (r : Option Error) (a b : List Event)
    (ha : failFast none a) (hb : failFast r b) : failFast r (a ++ b) := by
  induction a with
  | nil => simpa using hb
  | cons ev a ih =>
    rw [failFast_cons] at ha
    rw [List.cons_append, failFast_cons]
    refine ⟨fun e he => ?_, ih ha.2⟩
    exact absurd (ha.1 e he).2 (by simp)

theorem sessions_append (s : Bool) (a b : List Event) (t : Bool)
    (ha : sessions s a = some t) : sessions s (a ++ b) = sessions t b := by
  unfold sessions at *
  rw [List.foldl_append, ha]

theorem Good_nil (r : Option Error) : Good r [] :=
  ⟨failFast_nil r, ⟨false, rfl, fun _ => rfl⟩, by simp⟩

theorem Good_append (r : Option Error) (a b : List Event) (ha : Good none a) (hb : Good r b) :
    Good r (a ++ b) := by
  obtain ⟨opened, ho, hclosed⟩ := ha.sess
  have hf : opened = false := hclosed rfl
  subst hf
  refine ⟨failFast_append r a b ha.ff hb.ff, ?_, ?_⟩
  · rw [sessions_append false a b false ho]
    exact hb.sess
  · intro ev hev
    rcases List.mem_append.mp hev with h | h
    · exact ha.quiet ev h
    · exact hb.quiet ev h

theorem sessionStep_none (evs : List Event) : evs.foldl sessionStep none = none := by
  induction evs with
  | nil => rfl
  | cons ev evs ih => simpa [List.foldl_cons, sessionStep] using ih

theorem isLogin_not_isLogout (c : Call) (h : c.isLogin = true) : c.isLogout = false := by
  cases c <;> simp_all [Call.isLogin, Call.isLogout]

theorem sessions_count (evs : List Event) :
    ∀ (s t : Bool), sessions s evs = some t →
      okLogins evs + (if s then 1 else 0) = logouts evs + (if t then 1 else 0) := by
  induction evs with
  | nil =>
    intro s t h
    simp only [sessions, List.foldl_nil, Option.some.injEq] at h
    subst h
    simp [okLogins, logouts]
  | cons ev evs ih =>
    intro s t h
    simp only [sessions, List.foldl_cons] at h
    cases hs : sessionStep (some s) ev with
    | none =>
      rw [hs, sessionStep_none] at h
      simp at h
    | some s' =>
      rw [hs] at h
      have hrec := ih s' t h
      simp only [okLogins, logouts, List.countP_cons] at hrec ⊢
      simp only [sessionStep] at hs
      by_cases hL : ev.call.isLogin = true
      · have hO := isLogin_not_isLogout _ hL
        simp only [hL, if_true] at hs
        cases s <;> simp at hs
        subst hs
        cases he : ev.err.isNone <;> simp [hL, hO, he] at hrec ⊢ <;> omega
      · simp only [hL] at hs
        by_cases hO : ev.call.isLogout = true
        · simp only [hO, if_true] at hs
          cases s <;> simp at hs
          subst hs
          simp [hL, hO] at hrec ⊢
          omega
        · simp only [hO] at hs
          simp only [Bool.false_eq_true, if_false, Option.some.injEq] at hs
          subst hs
          simp [hL, hO] at hrec ⊢
          omega

/-! ## What each function of `main.go` preserves -/

theorem invoiceCalls_append (a b : List Event) :
    invoiceCalls (a ++ b) = invoiceCalls a ++ invoiceCalls b := by
  simp [invoiceCalls]

theorem startedCmds_append (a b : List Event) :
    startedCmds (a ++ b) = startedCmds a ++ startedCmds b := by
  simp [startedCmds]

theorem plainStep_of_delta (r : Option Error) (w w' : World) (evs : List Event)
    (htr : w'.trace = w.trace ++ evs) (hp : w'.politeiadCmd = w.politeiadCmd)
    (hc : w'.cmswwwCmd = w.cmswwwCmd) (hg : Good r evs)
    (hi : invoiceCalls evs = []) (hs : startedCmds evs = []) : PlainStep r w w' :=
  ⟨evs, htr, hg, hi, hs, hp, hc⟩

theorem CreateAdminUser_plain (env : Env) (email username password : String) (w w' : World)
    (r : Option Error) (h : Client.CreateAdminUser env email username password w = (r, w')) :
    PlainStep r w w' := by
  obtain ⟨htr, hp, hc⟩ := call_run env _ w w' r h
  refine plainStep_of_delta r w w' _ htr hp hc ?_ ?_ ?_
  · refine ⟨?_, ?_, ?_⟩ <;>
      simp [failFast_cons, failFast_nil, sessions, sessionStep, Call.isLogin, Call.isLogout,
        Call.isTeardown]
  · simp [invoiceCalls, Call.isInvoice]
  · simp [startedCmds]

theorem deleteExistingData_plain (env : Env) (w w' : World) (r : Option Error)
    (h : deleteExistingData env w = (r, w')) : PlainStep r w w' := by
  obtain ⟨hp, hc, hcases⟩ := deleteExistingData_run env w w' r h
  casesm* _ ∨ _, ∃ _, _, _ ∧ _
  all_goals subst_vars
  all_goals refine plainStep_of_delta _ w w' _ ‹w'.trace = _› hp hc ?_ ?_ ?_
  all_goals first
    | (refine ⟨?_, ?_, ?_⟩ <;>
        simp [failFast_cons, failFast_nil, sessions, sessionStep, Call.isLogin, Call.isLogout,
          Call.isTeardown])
    | (simp [invoiceCalls, Call.isInvoice]; done)
    | (simp [startedCmds]; done)

theorem setNewIdentity_plain (env : Env) (email password : String) (w w' : World)
    (r : Option Error) (h : setNewIdentity env email password w = (r, w')) :
    PlainStep r w w' := by
  obtain ⟨hp, hc, hcases⟩ := setNewIdentity_run env email password w w' r h
  casesm* _ ∨ _, ∃ _, _, _ ∧ _
  all_goals try subst_vars
  all_goals refine plainStep_of_delta _ w w' _ ‹w'.trace = _› hp hc ?_ ?_ ?_
  all_goals first
    | (refine ⟨?_, ?_, ?_⟩ <;>
        simp [failFast_cons, failFast_nil, sessions, sessionStep, Call.isLogin, Call.isLogout,
          Call.isTeardown])
    | (simp [invoiceCalls, Call.isInvoice]; done)
    | (simp [startedCmds]; done)

theorem createContractorUser_plain (env : Env)
    (adminEmail adminPass email user pass name location xpub : String) (w w' : World)
    (r : Option Error)
    (h : createContractorUser env adminEmail adminPass email user pass name location xpub w
      = (r, w')) : PlainStep r w w' := by
  obtain ⟨hp, hc, hcases⟩ :=
    createContractorUser_run env adminEmail adminPass email user pass name location xpub w w' r h
  casesm* _ ∨ _, ∃ _, _, _ ∧ _
  all_goals try subst_vars
  all_goals refine plainStep_of_delta _ w w' _ ‹w'.trace = _› hp hc ?_ ?_ ?_
  all_goals first
    | (refine ⟨?_, ?_, ?_⟩ <;>
        simp [failFast_cons, failFast_nil, sessions, sessionStep, Call.isLogin, Call.isLogout,
          Call.isTeardown])
    | (simp [invoiceCalls, Call.isInvoice]; done)
    | (simp [startedCmds]; done)

theorem testPasswordResetAndChange_plain (env : Env) (email password : String) (w w' : World)
    (r : Option Error) (h : testPasswordResetAndChange env email password w = (r, w')) :
    PlainStep r w w' := by
  obtain ⟨hp, hc, hcases⟩ := testPasswordResetAndChange_run env email password w w' r h
  casesm* _ ∨ _, ∃ _, _, _ ∧ _
  all_goals try subst_vars
  all_goals refine plainStep_of_delta _ w w' _ ‹w'.trace = _› hp hc ?_ ?_ ?_
  all_goals first
    | (refine ⟨?_, ?_, ?_⟩ <;>
        simp [failFast_cons, failFast_nil, sessions, sessionStep, Call.isLogin, Call.isLogout,
          Call.isTeardown])
    | (simp [invoiceCalls, Call.isInvoice]; done)
    | (simp [startedCmds]; done)

theorem testEditUser_plain (env : Env) (email password : String) (w w' : World)
    (r : Option Error) (h : testEditUser env email password w = (r, w')) :
    PlainStep r w w' := by
  obtain ⟨hp, hc, hcases⟩ := testEditUser_run env email password w w' r h
  casesm* _ ∨ _, ∃ _, _, _ ∧ _
  all_goals try subst_vars
  all_goals refine plainStep_of_delta _ w w' _ ‹w'.trace = _› hp hc ?_ ?_ ?_
  all_goals first
    | (refine ⟨?_, ?_, ?_⟩ <;>
        simp [failFast_cons, failFast_nil, sessions, sessionStep, Call.isLogin, Call.isLogout,
          Call.isTeardown])
    | (simp [invoiceCalls, Call.isInvoice]; done)
    | (simp [startedCmds]; done)

theorem createInvoiceFile_plain (env : Env) (cfg : Config) (fuel month year : Nat)
    (numRecords : Int) (w w' : World) (p : String) (r : Option Error)
    (h : createInvoiceFile env cfg fuel month year numRecords w = some (p, r, w')) :
    PlainStep r w w' ∧
    (r = none → p = env.Join [cfg.DataDir, (Date year month).FormatCsv]) := by
  obtain ⟨hp, hc, hcases⟩ := createInvoiceFile_trace env cfg fuel month year numRecords w w' p r h
  casesm* _ ∨ _, ∃ _, _, _ ∧ _
  all_goals try subst_vars
  all_goals refine ⟨plainStep_of_delta _ w w' _ ‹w'.trace = _› hp hc ?_ ?_ ?_, ?_⟩
  all_goals first
    | (refine ⟨?_, ?_, ?_⟩ <;>
        simp [failFast_cons, failFast_nil, sessions, sessionStep, Call.isLogin, Call.isLogout,
          Call.isTeardown])
    | (simp [invoiceCalls, Call.isInvoice]; done)
    | (simp [startedCmds]; done)
    | (simp; done)

theorem startStep_of_delta (r : Option Error) (w w' : World) (evs : List Event) (cmd : Cmd)
    (held : Option Cmd) (htr : w'.trace = w.trace ++ evs) (hg : Good r evs)
    (hi : invoiceCalls evs = [])
    (hcase : (∃ e, r = some e ∧ held = none ∧ startedCmds evs = []) ∨
      (held = some cmd ∧ startedCmds evs = [cmd])) : StartStep r w w' cmd held := by
  refine ⟨evs, htr, hg, hi, ?_, ?_⟩
  · intro hr
    rcases hcase with ⟨e, he, _, _⟩ | ⟨hh, hs⟩
    · rw [hr] at he
      exact absurd he (by simp)
    · exact ⟨hh, hs⟩
  · intro e _
    rcases hcase with ⟨_, _, hh, hs⟩ | ⟨hh, hs⟩
    · exact Or.inl ⟨hh, hs⟩
    · exact Or.inr ⟨hh, hs⟩

theorem invoiceStep_of_delta (r : Option Error) (w w' : World) (evs : List Event) (c : Call)
    (v : Value) (htr : w'.trace = w.trace ++ evs) (hp : w'.politeiadCmd = w.politeiadCmd)
    (hc : w'.cmswwwCmd = w.cmswwwCmd) (hg : Good r evs) (hs : startedCmds evs = [])
    (hcase : (∃ e, r = some e ∧ invoiceCalls evs = []) ∨
      (∃ e v', r = some e ∧ invoiceCalls evs = [⟨c, some e, v'⟩]) ∨
      invoiceCalls evs = [⟨c, none, v⟩]) : InvoiceStep r w w' c v := by
  refine ⟨evs, htr, hg, hs, hp, hc, ?_, ?_⟩
  · intro hr
    rcases hcase with ⟨e, he, _⟩ | ⟨e, _, he, _⟩ | hi
    · rw [hr] at he
      exact absurd he (by simp)
    · rw [hr] at he
      exact absurd he (by simp)
    · exact hi
  · intro e he
    rcases hcase with ⟨_, _, hi⟩ | ⟨e', v', he', hi⟩ | hi
    · exact Or.inl hi
    · rw [he] at he'
      simp only [Option.some.injEq] at he'
      subst he'
      exact Or.inr (Or.inl ⟨v', hi⟩)
    · exact Or.inr (Or.inr hi)

theorem startPoliteiad_start (env : Env) (cfg : Config) (fuel : Nat) (w w' : World)
    (r : Option Error) (h : startPoliteiad env cfg fuel w = some (r, w')) :
    StartStep r w w' ⟨w.trace.length, ["politeiad", "--testnet"]⟩ w'.politeiadCmd ∧
    w'.cmswwwCmd = w.cmswwwCmd := by
  obtain ⟨hc, hcases⟩ := startPoliteiad_run env cfg fuel w w' r h
  refine ⟨?_, hc⟩
  casesm* _ ∨ _, ∃ _, _, _ ∧ _
  all_goals refine startStep_of_delta _ w w' _ _ _ ‹w'.trace = _› ?_ ?_ ?_
  all_goals first
    | (refine ⟨?_, ?_, ?_⟩ <;>
        simp [failFast_cons, failFast_nil, sessions, sessionStep, Call.isLogin, Call.isLogout,
          Call.isTeardown, *])
    | (simp [invoiceCalls, Call.isInvoice]; done)
    | (simp [startedCmds, *]; done)

theorem startCmswww_start (env : Env) (cfg : Config) (fuel : Nat) (w w' : World)
    (r : Option Error) (h : startCmswww env cfg fuel w = some (r, w')) :
    StartStep r w w' ⟨w.trace.length, env.cmswwwArgs⟩ w'.cmswwwCmd ∧
    w'.politeiadCmd = w.politeiadCmd := by
  obtain ⟨hc, hcases⟩ := startCmswww_run env cfg fuel w w' r h
  refine ⟨?_, hc⟩
  casesm* _ ∨ _, ∃ _, _, _ ∧ _
  all_goals refine startStep_of_delta _ w w' _ _ _ ‹w'.trace = _› ?_ ?_ ?_
  all_goals first
    | (refine ⟨?_, ?_, ?_⟩ <;>
        simp [failFast_cons, failFast_nil, sessions, sessionStep, Call.isLogin, Call.isLogout,
          Call.isTeardown, *])
    | (simp [invoiceCalls, Call.isInvoice]; done)
    | (simp [startedCmds, *]; done)

theorem submitInvoice_invoice (env : Env) (email password filepath : String) (w w' : World)
    (token : String) (r : Option Error)
    (h : submitInvoice env email password filepath w = (token, r, w')) :
    InvoiceStep r w w' (.SubmitInvoice filepath) (.str token) := by
  obtain ⟨hp, hc, hcases⟩ := submitInvoice_run env email password filepath w w' token r h
  casesm* _ ∨ _, ∃ _, _, _ ∧ _
  all_goals refine invoiceStep_of_delta _ w w' _ _ _ ‹w'.trace = _› hp hc ?_ ?_ ?_
  all_goals first
    | (refine ⟨?_, ?_, ?_⟩ <;>
        simp [failFast_cons, failFast_nil, sessions, sessionStep, Call.isLogin, Call.isLogout,
          Call.isTeardown, *])
    | (simp [startedCmds]; done)
    | (simp [invoiceCalls, Call.isInvoice, *]; done)

theorem approveInvoice_invoice (env : Env) (email password token : String) (w w' : World)
    (r : Option Error) (h : approveInvoice env email password token w = (r, w')) :
    InvoiceStep r w w' (.ApproveInvoice token) .unit := by
  obtain ⟨hp, hc, hcases⟩ := approveInvoice_run env email password token w w' r h
  casesm* _ ∨ _, ∃ _, _, _ ∧ _
  all_goals refine invoiceStep_of_delta _ w w' _ _ _ ‹w'.trace = _› hp hc ?_ ?_ ?_
  all_goals first
    | (refine ⟨?_, ?_, ?_⟩ <;>
        simp [failFast_cons, failFast_nil, sessions, sessionStep, Call.isLogin, Call.isLogout,
          Call.isTeardown, *])
    | (simp [startedCmds]; done)
    | (simp [invoiceCalls, Call.isInvoice, *]; done)

theorem rejectInvoice_invoice (env : Env) (email password token : String) (w w' : World)
    (r : Option Error) (h : rejectInvoice env email password token w = (r, w')) :
    InvoiceStep r w w' (.RejectInvoice token) .unit := by
  obtain ⟨hp, hc, hcases⟩ := rejectInvoice_run env email password token w w' r h
  casesm* _ ∨ _, ∃ _, _, _ ∧ _
  all_goals refine invoiceStep_of_delta _ w w' _ _ _ ‹w'.trace = _› hp hc ?_ ?_ ?_
  all_goals first
    | (refine ⟨?_, ?_, ?_⟩ <;>
        simp [failFast_cons, failFast_nil, sessions, sessionStep, Call.isLogin, Call.isLogout,
          Call.isTeardown, *])
    | (simp [startedCmds]; done)
    | (simp [invoiceCalls, Call.isInvoice, *]; done)

/-! ## The whole of `_main` -/

theorem date_2018_09 : (Date ((2018 : Nat) : Int) ((9 : Nat) : Int)).FormatCsv = "2018-09.csv" := by
  decide

theorem date_2018_10 : (Date ((2018 : Nat) : Int) ((10 : Nat) : Int)).FormatCsv = "2018-10.csv" := by
  decide

theorem deleteData_plain (env : Env) (b : Bool) (w w' : World) (r : Option Error)
    (h : (if b = true then deleteExistingData env w else (none, w)) = (r, w')) :
    PlainStep r w w' := by
  split at h
  · exact deleteExistingData_plain env w w' r h
  · simp only [Prod.mk.injEq] at h
    obtain ⟨rfl, rfl⟩ := h
    exact ⟨[], by simp, Good_nil none, rfl, rfl, rfl, rfl⟩

set_option maxHeartbeats 4000000

theorem _main_facts (env : Env) (load : Config × Option Error) (fuel : Nat) (w w' : World)
    (r : Option Error) (h : _main env load fuel w = some (r, w'))
    (ht : w.trace = []) (hp : w.politeiadCmd = none) (hc : w.cmswwwCmd = none) :
    Good r w'.trace ∧
    InvoiceFlow (env.Join [load.1.DataDir, (Date ((2018 : Nat) : Int) ((9 : Nat) : Int)).FormatCsv])
      (env.Join [load.1.DataDir, (Date ((2018 : Nat) : Int) ((10 : Nat) : Int)).FormatCsv])
      (invoiceCalls w'.trace) ∧
    (∀ cmd ∈ startedCmds w'.trace, w'.politeiadCmd = some cmd ∨ w'.cmswwwCmd = some cmd) := by
  unfold _main at h
  rcases load with ⟨cfg, _ | lerr⟩
  · simp only at h
    repeat' split at h
    all_goals try contradiction
    all_goals try simp only [Option.some.injEq, Prod.mk.injEq] at h
    all_goals repeat
      (have hx := deleteData_plain _ _ _ _ _ ‹(if _ then _ else _) = _›;
       clear ‹(if _ then _ else _) = _›)
    all_goals repeat
      (have hx := CreateAdminUser_plain _ _ _ _ _ _ _ ‹Client.CreateAdminUser _ _ _ _ _ = _›;
       clear ‹Client.CreateAdminUser _ _ _ _ _ = _›)
    all_goals repeat
      (have hx := startPoliteiad_start _ _ _ _ _ _ ‹startPoliteiad _ _ _ _ = _›;
       clear ‹startPoliteiad _ _ _ _ = _›)
    all_goals repeat
      (have hx := startCmswww_start _ _ _ _ _ _ ‹startCmswww _ _ _ _ = _›;
       clear ‹startCmswww _ _ _ _ = _›)
    all_goals repeat
      (have hx := setNewIdentity_plain _ _ _ _ _ _ ‹setNewIdentity _ _ _ _ = _›;
       clear ‹setNewIdentity _ _ _ _ = _›)
    all_goals repeat
      (have hx := createContractorUser_plain _ _ _ _ _ _ _ _ _ _ _ _
        ‹createContractorUser _ _ _ _ _ _ _ _ _ _ = _›;
       clear ‹createContractorUser _ _ _ _ _ _ _ _ _ _ = _›)
    all_goals repeat
      (have hx := createInvoiceFile_plain _ _ _ _ _ _ _ _ _ _ ‹createInvoiceFile _ _ _ _ _ _ _ = _›;
       clear ‹createInvoiceFile _ _ _ _ _ _ _ = _›)
    all_goals repeat
      (have hx := submitInvoice_invoice _ _ _ _ _ _ _ _ ‹submitInvoice _ _ _ _ _ = _›;
       clear ‹submitInvoice _ _ _ _ _ = _›)
    all_goals repeat
      (have hx := approveInvoice_invoice _ _ _ _ _ _ _ ‹approveInvoice _ _ _ _ _ = _›;
       clear ‹approveInvoice _ _ _ _ _ = _›)
    all_goals repeat
      (have hx := rejectInvoice_invoice _ _ _ _ _ _ _ ‹rejectInvoice _ _ _ _ _ = _›;
       clear ‹rejectInvoice _ _ _ _ _ = _›)
    all_goals repeat
      (have hx := testPasswordResetAndChange_plain _ _ _ _ _ _
        ‹testPasswordResetAndChange _ _ _ _ = _›;
       clear ‹testPasswordResetAndChange _ _ _ _ = _›)
    all_goals repeat
      (have hx := testEditUser_plain _ _ _ _ _ _ ‹testEditUser _ _ _ _ = _›;
       clear ‹testEditUser _ _ _ _ = _›)
    all_goals simp only [PlainStep, StartStep, InvoiceStep] at *
    all_goals casesm* ∃ _, _, _ ∧ _
    all_goals subst_vars
    all_goals try simp only [true_implies, forall_const,
      Option.some.injEq, forall_eq', reduceCtorEq, false_implies, implies_true] at *
    all_goals try casesm* _ ∨ _, ∃ _, _, _ ∧ _
    all_goals subst_vars
    all_goals refine ⟨?_, ?_, ?_⟩
    all_goals simp only [*, List.nil_append]
    all_goals first
      | done
      | (repeat (first | assumption | exact Good_nil _ | apply Good_append)
         done)
      | (try simp only [invoiceCalls_append, startedCmds_append, List.nil_append,
           List.append_nil, List.singleton_append, List.cons_append, *]
         simp [InvoiceFlow]
         done)
  · simp only [Option.some.injEq, Prod.mk.injEq] at h
    obtain ⟨rfl, rfl⟩ := h
    rw [ht]
    exact ⟨Good_nil _, Or.inl rfl, by simp [startedCmds]⟩

set_option maxHeartbeats 200000

/-! ## Runs without error -/

theorem setNewIdentity_success (env : Env) (email password : String) (w w' : World)
    (h : setNewIdentity env email password w = (none, w')) :
    w'.politeiadCmd = w.politeiadCmd ∧ w'.cmswwwCmd = w.cmswwwCmd ∧
    ∃ id tok, w'.trace = w.trace ++
        [⟨.Login email password, none, .str id⟩, ⟨.NewIdentity, none, .str tok⟩,
         ⟨.VerifyIdentity tok, none, .unit⟩, ⟨.Logout, none, .unit⟩] := by
  simpa using setNewIdentity_run env email password w w' none h

theorem createContractorUser_success (env : Env)
    (adminEmail adminPass email user pass name location xpub : String) (w w' : World)
    (h : createContractorUser env adminEmail adminPass email user pass name location xpub w
      = (none, w')) :
    w'.politeiadCmd = w.politeiadCmd ∧ w'.cmswwwCmd = w.cmswwwCmd ∧
    ∃ id inv tok, w'.trace = w.trace ++
        [⟨.Login adminEmail adminPass, none, .str id⟩, ⟨.InviteUser email, none, .str inv⟩,
         ⟨.ResendInvite email, none, .str tok⟩, ⟨.Logout, none, .unit⟩,
         ⟨.RegisterUser email user pass name location xpub tok, none, .unit⟩] := by
  simpa using
    createContractorUser_run env adminEmail adminPass email user pass name location xpub
      w w' none h

theorem submitInvoice_success (env : Env) (email password filepath token : String)
    (w w' : World) (h : submitInvoice env email password filepath w = (token, none, w')) :
    w'.politeiadCmd = w.politeiadCmd ∧ w'.cmswwwCmd = w.cmswwwCmd ∧
    ∃ id, w'.trace = w.trace ++
        [⟨.Login email password, none, .str id⟩, ⟨.SubmitInvoice filepath, none, .str token⟩,
         ⟨.Logout, none, .unit⟩] := by
  simpa using submitInvoice_run env email password filepath w w' token none h

theorem approveInvoice_success (env : Env) (email password token : String) (w w' : World)
    (h : approveInvoice env email password token w = (none, w')) :
    w'.politeiadCmd = w.politeiadCmd ∧ w'.cmswwwCmd = w.cmswwwCmd ∧
    ∃ id, w'.trace = w.trace ++
        [⟨.Login email password, none, .str id⟩, ⟨.ApproveInvoice token, none, .unit⟩,
         ⟨.Logout, none, .unit⟩] := by
  simpa using approveInvoice_run env email password token w w' none h

theorem rejectInvoice_success (env : Env) (email password token : String) (w w' : World)
    (h : rejectInvoice env email password token w = (none, w')) :
    w'.politeiadCmd = w.politeiadCmd ∧ w'.cmswwwCmd = w.cmswwwCmd ∧
    ∃ id, w'.trace = w.trace ++
        [⟨.Login email password, none, .str id⟩, ⟨.RejectInvoice token, none, .unit⟩,
         ⟨.Logout, none, .unit⟩] := by
  simpa using rejectInvoice_run env email password token w w' none h

theorem createInvoiceFile_success (env : Env) (cfg : Config) (fuel month year : Nat)
    (numRecords : Int) (w w' : World) (p : String)
    (h : createInvoiceFile env cfg fuel month year numRecords w = some (p, none, w')) :
    w'.politeiadCmd = w.politeiadCmd ∧ w'.cmswwwCmd = w.cmswwwCmd ∧
    p = env.Join [cfg.DataDir, (Date year month).FormatCsv] ∧ w'.trace = w.trace ++
        [⟨.OpenFile (env.Join [cfg.DataDir, (Date year month).FormatCsv]), none, .unit⟩,
         ⟨.Sync (env.Join [cfg.DataDir, (Date year month).FormatCsv]), none, .unit⟩] := by
  simpa using createInvoiceFile_trace env cfg fuel month year numRecords w w' p none h

theorem startPoliteiad_success (env : Env) (cfg : Config) (fuel : Nat) (w w' : World)
    (h : startPoliteiad env cfg fuel w = some (none, w')) :
    w'.cmswwwCmd = w.cmswwwCmd ∧
    w'.politeiadCmd = some ⟨w.trace.length, ["politeiad", "--testnet"]⟩ ∧
    w'.trace = w.trace ++
        [⟨.ExecuteCommand "politeiad" ["--testnet"], none, .unit⟩,
         ⟨.StdoutPipe ⟨w.trace.length, ["politeiad", "--testnet"]⟩, none, .unit⟩,
         ⟨.Start ⟨w.trace.length, ["politeiad", "--testnet"]⟩, none, .unit⟩,
         ⟨.OpenFile cfg.PoliteiadLogFile, none, .unit⟩] := by
  simpa using startPoliteiad_run env cfg fuel w w' none h

theorem startCmswww_success (env : Env) (cfg : Config) (fuel : Nat) (w w' : World)
    (h : startCmswww env cfg fuel w = some (none, w')) :
    w'.politeiadCmd = w.politeiadCmd ∧
    w'.cmswwwCmd = some ⟨w.trace.length, env.cmswwwArgs⟩ ∧
    w'.trace = w.trace ++
        [⟨.CreateCmswwwCmd, none, .unit⟩,
         ⟨.StdoutPipe ⟨w.trace.length, env.cmswwwArgs⟩, none, .unit⟩,
         ⟨.Start ⟨w.trace.length, env.cmswwwArgs⟩, none, .unit⟩,
         ⟨.OpenFile cfg.CmswwwLogFile, none, .unit⟩,
         ⟨.Version, none, .unit⟩] := by
  simpa using startCmswww_run env cfg fuel w w' none h

theorem testPasswordResetAndChange_trace (env : Env) (email password : String) (w w' : World)
    (h : testPasswordResetAndChange env email password w = (none, w')) :
    w'.politeiadCmd = w.politeiadCmd ∧ w'.cmswwwCmd = w.cmswwwCmd ∧
    ∃ newPassword id, w'.trace = w.trace ++
        [⟨.generateRandomString 16, none, .str newPassword⟩,
         ⟨.ResetPassword email newPassword, none, .unit⟩,
         ⟨.Login email newPassword, none, .str id⟩,
         ⟨.ChangePassword newPassword password, none, .unit⟩,
         ⟨.Logout, none, .unit⟩] := by
  simpa using testPasswordResetAndChange_run env email password w w' none h

theorem testEditUser_trace (env : Env) (email password : String) (w w' : World)
    (h : testEditUser env email password w = (none, w')) :
    w'.politeiadCmd = w.politeiadCmd ∧ w'.cmswwwCmd = w.cmswwwCmd ∧
    ∃ id u n1 n2 n3, w'.trace = w.trace ++
        [⟨.Login email password, none, .str id⟩, ⟨.UserDetails id, none, .user u⟩,
         ⟨.generateRandomString 16, none, .str n1⟩, ⟨.generateRandomString 16, none, .str n2⟩,
         ⟨.generateRandomString 16, none, .str n3⟩, ⟨.EditUser n1 n2 n3, none, .unit⟩,
         ⟨.UserDetails id, none, .user ⟨n1, n2, n3⟩⟩,
         ⟨.EditUser u.Name u.Location u.ExtendedPublicKey, none, .unit⟩,
         ⟨.Logout, none, .unit⟩] := by
  simpa using testEditUser_run env email password w w' none h

theorem _main_chain (env : Env) (cfg : Config) (fuel : Nat) (w w12 : World)
    (hi : cfg.IncludeTests = false) (h : _main env (cfg, none) fuel w = some (none, w12)) :
    ∃ (w0 w1 w2 w3 w4 w5 w6 w7 w8 w9 w10 w11 : World) (p1 t1 p2 t2 : String),
      (if cfg.DeleteData then deleteExistingData env w else (none, w)) = (none, w0) ∧
      Client.CreateAdminUser env cfg.AdminEmail cfg.AdminUser cfg.AdminPass w0 = (none, w1) ∧
      startPoliteiad env cfg fuel w1 = some (none, w2) ∧
      startCmswww env cfg fuel w2 = some (none, w3) ∧
      setNewIdentity env cfg.AdminEmail cfg.AdminPass w3 = (none, w4) ∧
      createContractorUser env cfg.AdminEmail cfg.AdminPass cfg.ContractorEmail
        cfg.ContractorUser cfg.ContractorPass cfg.ContractorName cfg.ContractorLocation
        cfg.ContractorExtendedPublicKey w4 = (none, w5) ∧
      setNewIdentity env cfg.ContractorEmail cfg.ContractorPass w5 = (none, w6) ∧
      createInvoiceFile env cfg fuel 9 2018 5 w6 = some (p1, none, w7) ∧
      submitInvoice env cfg.ContractorEmail cfg.ContractorPass p1 w7 = (t1, none, w8) ∧
      approveInvoice env cfg.AdminEmail cfg.AdminPass t1 w8 = (none, w9) ∧
      createInvoiceFile env cfg fuel 10 2018 5 w9 = some (p2, none, w10) ∧
      submitInvoice env cfg.ContractorEmail cfg.ContractorPass p2 w10 = (t2, none, w11) ∧
      rejectInvoice env cfg.AdminEmail cfg.AdminPass t2 w11 = (none, w12) := by
  unfold _main at h
  simp only [hi, Bool.false_eq_true, if_false] at h
  repeat' split at h
  all_goals try contradiction
  all_goals try simp only [Option.some.injEq, Prod.mk.injEq, reduceCtorEq, false_and] at h
  obtain ⟨-, rfl⟩ := h
  exact ⟨_, _, _, _, _, _, _, _, _, _, _, _, _, _, _, _, ‹_›, ‹_›, ‹_›, ‹_›, ‹_›, ‹_›, ‹_›,
    ‹_›, ‹_›, ‹_›, ‹_›, ‹_›, ‹_›⟩

set_option maxHeartbeats 4000000

theorem script_trace (env : Env) (cfg : Config) (fuel : Nat)
    (w0 w1 w2 w3 w4 w5 w6 w7 w8 w9 w10 w11 w12 : World) (p1 t1 p2 t2 : String)
    (h1 : Client.CreateAdminUser env cfg.AdminEmail cfg.AdminUser cfg.AdminPass w0 = (none, w1))
    (h2 : startPoliteiad env cfg fuel w1 = some (none, w2))
    (h3 : startCmswww env cfg fuel w2 = some (none, w3))
    (h4 : setNewIdentity env cfg.AdminEmail cfg.AdminPass w3 = (none, w4))
    (h5 : createContractorUser env cfg.AdminEmail cfg.AdminPass cfg.ContractorEmail
      cfg.ContractorUser cfg.ContractorPass cfg.ContractorName cfg.ContractorLocation
      cfg.ContractorExtendedPublicKey w4 = (none, w5))
    (h6 : setNewIdentity env cfg.ContractorEmail cfg.ContractorPass w5 = (none, w6))
    (h7 : createInvoiceFile env cfg fuel 9 2018 5 w6 = some (p1, none, w7))
    (h8 : submitInvoice env cfg.ContractorEmail cfg.ContractorPass p1 w7 = (t1, none, w8))
    (h9 : approveInvoice env cfg.AdminEmail cfg.AdminPass t1 w8 = (none, w9))
    (h10 : createInvoiceFile env cfg fuel 10 2018 5 w9 = some (p2, none, w10))
    (h11 : submitInvoice env cfg.ContractorEmail cfg.ContractorPass p2 w10 = (t2, none, w11))
    (h12 : rejectInvoice env cfg.AdminEmail cfg.AdminPass t2 w11 = (none, w12)) :
    w12.politeiadCmd = some ⟨w0.trace.length + 1, ["politeiad", "--testnet"]⟩ ∧
    w12.cmswwwCmd = some ⟨w0.trace.length + 5, env.cmswwwArgs⟩ ∧
    p1 = env.Join [cfg.DataDir, "2018-09.csv"] ∧ p2 = env.Join [cfg.DataDir, "2018-10.csv"] ∧
    ∃ id1 tok1 id2 inv tok2 id3 tok3 id4 id5 id6 id7 : String,
      w12.trace = w0.trace ++
        ([Event.ok (Call.CreateAdminUser cfg.AdminEmail cfg.AdminUser cfg.AdminPass),
         Event.ok (Call.ExecuteCommand "politeiad" ["--testnet"]),
         Event.ok (Call.StdoutPipe ⟨w0.trace.length + 1, ["politeiad", "--testnet"]⟩),
         Event.ok (Call.Start ⟨w0.trace.length + 1, ["politeiad", "--testnet"]⟩),
         Event.ok (Call.OpenFile cfg.PoliteiadLogFile),
         Event.ok (Call.CreateCmswwwCmd),
         Event.ok (Call.StdoutPipe ⟨w0.trace.length + 5, env.cmswwwArgs⟩),
         Event.ok (Call.Start ⟨w0.trace.length + 5, env.cmswwwArgs⟩),
         Event.ok (Call.OpenFile cfg.CmswwwLogFile),
         Event.ok (Call.Version),
         Event.gave (Call.Login cfg.AdminEmail cfg.AdminPass) id1,
         Event.gave (Call.NewIdentity) tok1,
         Event.ok (Call.VerifyIdentity tok1),
         Event.ok (Call.Logout),
         Event.gave (Call.Login cfg.AdminEmail cfg.AdminPass) id2,
         Event.gave (Call.InviteUser cfg.ContractorEmail) inv,
         Event.gave (Call.ResendInvite cfg.ContractorEmail) tok2,
         Event.ok (Call.Logout),
         Event.ok (Call.RegisterUser cfg.ContractorEmail cfg.ContractorUser cfg.ContractorPass
           cfg.ContractorName cfg.ContractorLocation cfg.ContractorExtendedPublicKey tok2),
         Event.gave (Call.Login cfg.ContractorEmail cfg.ContractorPass) id3,
         Event.gave (Call.NewIdentity) tok3,
         Event.ok (Call.VerifyIdentity tok3),
         Event.ok (Call.Logout),
         Event.ok (Call.OpenFile (env.Join [cfg.DataDir, "2018-09.csv"])),
         Event.ok (Call.Sync (env.Join [cfg.DataDir, "2018-09.csv"])),
         Event.gave (Call.Login cfg.ContractorEmail cfg.ContractorPass) id4,
         Event.gave (Call.SubmitInvoice (env.Join [cfg.DataDir, "2018-09.csv"])) t1,
         Event.ok (Call.Logout),
         Event.gave (Call.Login cfg.AdminEmail cfg.AdminPass) id5,
         Event.ok (Call.ApproveInvoice t1),
         Event.ok (Call.Logout),
         Event.ok (Call.OpenFile (env.Join [cfg.DataDir, "2018-10.csv"])),
         Event.ok (Call.Sync (env.Join [cfg.DataDir, "2018-10.csv"])),
         Event.gave (Call.Login cfg.ContractorEmail cfg.ContractorPass) id6,
         Event.gave (Call.SubmitInvoice (env.Join [cfg.DataDir, "2018-10.csv"])) t2,
         Event.ok (Call.Logout),
         Event.gave (Call.Login cfg.AdminEmail cfg.AdminPass) id7,
         Event.ok (Call.RejectInvoice t2),
         Event.ok (Call.Logout)] : List Event) := by
  have h1 := call_run _ _ _ _ _ h1
  have h2 := startPoliteiad_success _ _ _ _ _ h2
  have h3 := startCmswww_success _ _ _ _ _ h3
  have h4 := setNewIdentity_success _ _ _ _ _ h4
  have h5 := createContractorUser_success _ _ _ _ _ _ _ _ _ _ _ h5
  have h6 := setNewIdentity_success _ _ _ _ _ h6
  have h7 := createInvoiceFile_success _ _ _ _ _ _ _ _ _ h7
  have h8 := submitInvoice_success _ _ _ _ _ _ _ h8
  have h9 := approveInvoice_success _ _ _ _ _ _ h9
  have h10 := createInvoiceFile_success _ _ _ _ _ _ _ _ _ h10
  have h11 := submitInvoice_success _ _ _ _ _ _ _ h11
  have h12 := rejectInvoice_success _ _ _ _ _ _ h12
  casesm* ∃ _, _, _ ∧ _
  subst_vars
  refine ⟨?_, ?_, date_2018_09 ▸ rfl, date_2018_10 ▸ rfl, ?_⟩
  · simp [*]
  · simp [*]
  · simp only [*, date_2018_09, date_2018_10, Event.ok, Event.gave, List.append_assoc,
      List.cons_append, List.nil_append, List.length_append, List.length_cons, List.length_nil]
    simp

set_option maxHeartbeats 200000

/-! ## `main`: the run and the teardown -/

theorem stopServers_run (w : World) :
    (stopServers w).politeiadCmd = none ∧ (stopServers w).cmswwwCmd = none ∧
    (stopServers w).trace = w.trace ++ teardownCalls w := by
  cases hp : w.politeiadCmd <;> cases hc : w.cmswwwCmd <;>
    simp [stopServers, stopPoliteiad, stopCmswww, callIgnored, teardownCalls, hp, hc, Event.ok]

theorem main_run (env : Env) (load : Config × Option Error) (fuel : Nat) (w0 w : World)
    (r : Option Error) (h : main env load fuel w0 = some (r, w)) :
    ∃ w1, _main env load fuel w0 = some (r, w1) ∧ w.politeiadCmd = none ∧
      w.cmswwwCmd = none ∧ w.trace = w1.trace ++ teardownCalls w1 := by
  unfold main at h
  cases hm : _main env load fuel w0 with
  | none => rw [hm] at h; simp at h
  | some p =>
    obtain ⟨r1, w1⟩ := p
    rw [hm] at h
    simp only [Option.some.injEq, Prod.mk.injEq] at h
    obtain ⟨rfl, rfl⟩ := h
    obtain ⟨h1, h2, h3⟩ := stopServers_run w1
    exact ⟨w1, rfl, h1, h2, h3⟩

theorem sessions_teardownCalls (w : World) (b : Bool) :
    sessions b (teardownCalls w) = some b := by
  cases hp : w.politeiadCmd <;> cases hc : w.cmswwwCmd <;>
    simp [teardownCalls, hp, hc, Event.ok, sessions, sessionStep, Call.isLogin, Call.isLogout]

theorem counts_teardownCalls (w : World) :
    okLogins (teardownCalls w) = 0 ∧ logins (teardownCalls w) = 0 ∧
    logouts (teardownCalls w) = 0 ∧ invoiceCalls (teardownCalls w) = [] ∧
    startedCmds (teardownCalls w) = [] := by
  cases hp : w.politeiadCmd <;> cases hc : w.cmswwwCmd <;>
    simp [teardownCalls, hp, hc, Event.ok, okLogins, logins, logouts, invoiceCalls, startedCmds,
      Call.isLogin, Call.isLogout, Call.isInvoice]

theorem quiet_call (c : Call) (h : c.isTeardown = false) :
    c.isStopPoliteiad = false ∧ c.isStopCmswww = false ∧ c.killed = none := by
  cases c <;> first | exact ⟨rfl, rfl, rfl⟩ | simp [Call.isTeardown] at h

theorem quiet_counts (tr : List Event) (hq : ∀ ev ∈ tr, ev.call.isTeardown = false) :
    tr.countP (fun ev => ev.call.isStopPoliteiad) = 0 ∧
    tr.countP (fun ev => ev.call.isStopCmswww) = 0 ∧
    killedCmds tr = [] := by
  induction tr with
  | nil => simp [killedCmds]
  | cons ev tr ih =>
    obtain ⟨h1, h2, h3⟩ := ih (fun e he => hq e (List.mem_cons_of_mem _ he))
    obtain ⟨k1, k2, k3⟩ := quiet_call ev.call (hq ev (List.mem_cons_self _ _))
    simp only [killedCmds] at h3
    simp only [List.countP_cons, h1, h2, killedCmds, List.filterMap_cons, k1, k2, k3, h3]
    simp

theorem okLogins_eq_logins (tr : List Event) (h : ∀ ev ∈ tr, ev.err = none) :
    okLogins tr = logins tr := by
  induction tr with
  | nil => rfl
  | cons ev tr ih =>
    have hev := h ev (List.mem_cons_self _ _)
    have := ih (fun e he => h e (List.mem_cons_of_mem _ he))
    simp only [okLogins, logins, List.countP_cons] at this ⊢
    simp [hev, this]

theorem main_teardown_aux (env : Env) (load : Config × Option Error) (fuel : Nat)
    (files : List (String × String)) (r : Option Error) (w : World)
    (h : main env load fuel (World.init files) = some (r, w)) :
    w.politeiadCmd = none ∧ w.cmswwwCmd = none ∧
    (∃ w1 tail, _main env load fuel (World.init files) = some (r, w1) ∧
      w.trace = w1.trace ++ tail ∧
      (∀ ev ∈ w1.trace, ev.call.isTeardown = false) ∧
      (∀ ev ∈ tail, ev.call.isTeardown = true)) ∧
    w.trace.countP (fun ev => ev.call.isStopPoliteiad) = 1 ∧
    w.trace.countP (fun ev => ev.call.isStopCmswww) = 1 ∧
    ∀ cmd ∈ startedCmds w.trace, cmd ∈ killedCmds w.trace := by
  obtain ⟨w1, hm, hp, hc, htr⟩ := main_run env load fuel _ w r h
  obtain ⟨hg, -, hheld⟩ := _main_facts env load fuel _ w1 r hm rfl rfl rfl
  obtain ⟨q1, q2, q3⟩ := quiet_counts w1.trace hg.quiet
  obtain ⟨-, -, -, -, t5⟩ := counts_teardownCalls w1
  refine ⟨hp, hc, ⟨w1, teardownCalls w1, hm, htr, hg.quiet, ?_⟩, ?_, ?_, ?_⟩
  · cases hp1 : w1.politeiadCmd <;> cases hc1 : w1.cmswwwCmd <;>
      simp [teardownCalls, hp1, hc1, Event.ok, Call.isTeardown]
  · rw [htr, List.countP_append, q1]
    cases hp1 : w1.politeiadCmd <;> cases hc1 : w1.cmswwwCmd <;>
      simp [teardownCalls, hp1, hc1, Event.ok, Call.isStopPoliteiad]
  · rw [htr, List.countP_append, q2]
    cases hp1 : w1.politeiadCmd <;> cases hc1 : w1.cmswwwCmd <;>
      simp [teardownCalls, hp1, hc1, Event.ok, Call.isStopCmswww]
  · intro cmd hcmd
    rw [htr, startedCmds_append, t5, List.append_nil] at hcmd
    have hk : killedCmds w.trace = killedCmds w1.trace ++ killedCmds (teardownCalls w1) := by
      rw [htr]
      simp [killedCmds]
    rw [hk, q3, List.nil_append]
    rcases hheld cmd hcmd with hh | hh <;>
      cases hp1 : w1.politeiadCmd <;> cases hc1 : w1.cmswwwCmd <;>
      simp_all [teardownCalls, Event.ok, killedCmds, Call.killed]

/-! ## Sessions and invoice tokens over a whole run -/

theorem okLogins_append (a b : List Event) : okLogins (a ++ b) = okLogins a + okLogins b := by
  simp [okLogins]

theorem logins_append (a b : List Event) : logins (a ++ b) = logins a + logins b := by
  simp [logins]

theorem logouts_append (a b : List Event) : logouts (a ++ b) = logouts a + logouts b := by
  simp [logouts]

theorem main_sessions_aux (env : Env) (load : Config × Option Error) (fuel : Nat)
    (files : List (String × String)) (r : Option Error) (w : World)
    (h : main env load fuel (World.init files) = some (r, w)) :
    ∃ opened, sessions false w.trace = some opened ∧ (r = none → opened = false) ∧
      okLogins w.trace = logouts w.trace + (if opened then 1 else 0) ∧
      (r = none → logouts w.trace = logins w.trace) := by
  obtain ⟨w1, hm, -, -, htr⟩ := main_run env load fuel _ w r h
  obtain ⟨hg, -, -⟩ := _main_facts env load fuel _ w1 r hm rfl rfl rfl
  obtain ⟨opened, ho, hclosed⟩ := hg.sess
  obtain ⟨t1, t2, t3, -, -⟩ := counts_teardownCalls w1
  have hcount := sessions_count w1.trace false opened ho
  simp only [Bool.false_eq_true, if_false, Nat.add_zero] at hcount
  refine ⟨opened, ?_, hclosed, ?_, ?_⟩
  · rw [htr, sessions_append false _ _ opened ho, sessions_teardownCalls]
  · rw [htr, okLogins_append, logouts_append, t1, t3]
    omega
  · intro hr
    have hopen := hclosed hr
    subst hr
    subst hopen
    have hall := failFast_none_allOk _ hg.ff
    have := okLogins_eq_logins _ hall
    rw [htr, logins_append, logouts_append, t2, t3]
    simp only [Bool.false_eq_true, if_false] at hcount
    omega

theorem filterMap_filter_of {α : Type} (f : Event → Option α) (p : Event → Bool)
    (hf : ∀ ev, p ev = false → f ev = none) (tr : List Event) :
    (tr.filter p).filterMap f = tr.filterMap f := by
  induction tr with
  | nil => rfl
  | cons ev tr ih =>
    cases hp : p ev with
    | true => simp [List.filter_cons, hp, List.filterMap_cons, ih]
    | false => simp [List.filter_cons, hp, List.filterMap_cons, ih, hf ev hp]

theorem invoice_filterMaps (tr : List Event) :
    submittedFiles (invoiceCalls tr) = submittedFiles tr ∧
    submittedTokens (invoiceCalls tr) = submittedTokens tr ∧
    approvedTokens (invoiceCalls tr) = approvedTokens tr ∧
    rejectedTokens (invoiceCalls tr) = rejectedTokens tr := by
  refine ⟨?_, ?_, ?_, ?_⟩
  all_goals
    apply filterMap_filter_of
    intro ev h
    obtain ⟨c, e, v⟩ := ev
    cases c <;> first | rfl | simp [Call.isInvoice] at h

theorem invoiceFlow_tokens (p1 p2 : String) (l : List Event) (h : InvoiceFlow p1 p2 l) :
    submittedFiles l <+: [p1, p2] ∧
    approvedTokens l <+: (submittedTokens l).take 1 ∧
    rejectedTokens l <+: ((submittedTokens l).drop 1).take 1 ∧
    ((submittedTokens l).Nodup → ∀ t, t ∈ approvedTokens l → t ∉ rejectedTokens l) := by
  unfold InvoiceFlow at h
  casesm* _ ∨ _, ∃ _, _
  all_goals subst_vars
  all_goals
    simp [submittedFiles, submittedTokens, approvedTokens, rejectedTokens, List.prefix_cons_iff]
/-! ## The steps of `_main` -/

theorem _main_eq_runSteps (env : Env) (cfg : Config) (fuel : Nat) (w : World) :
    _main env (cfg, none) fuel w
      = (runSteps (steps env cfg fuel) Vars.init w).map (fun x => (x.1, x.2.2)) := by
  unfold _main
  simp only [steps, runSteps]
  rcases h1 : (if cfg.DeleteData then deleteExistingData env w else (none, w)) with ⟨_ | e, w1⟩
  rotate_left
  · rfl
  simp only []
  rcases h2 : Client.CreateAdminUser env cfg.AdminEmail cfg.AdminUser cfg.AdminPass w1 with ⟨_ | e, w2⟩
  rotate_left
  · rfl
  simp only []
  rcases h3 : startPoliteiad env cfg fuel w2 with _ | ⟨_ | e, w3⟩
  · rfl
  rotate_left
  · rfl
  simp only []
  rcases h4 : startCmswww env cfg fuel w3 with _ | ⟨_ | e, w4⟩
  · rfl
  rotate_left
  · rfl
  simp only []
  rcases h5 : setNewIdentity env cfg.AdminEmail cfg.AdminPass w4 with ⟨_ | e, w5⟩
  rotate_left
  · rfl
  simp only []
  rcases h6 : createContractorUser env cfg.AdminEmail cfg.AdminPass cfg.ContractorEmail
      cfg.ContractorUser cfg.ContractorPass cfg.ContractorName cfg.ContractorLocation
      cfg.ContractorExtendedPublicKey w5 with ⟨_ | e, w6⟩
  rotate_left
  · rfl
  simp only []
  rcases h7 : setNewIdentity env cfg.ContractorEmail cfg.ContractorPass w6 with ⟨_ | e, w7⟩
  rotate_left
  · rfl
  simp only []
  rcases h8 : createInvoiceFile env cfg fuel 9 2018 5 w7 with _ | ⟨p1, _ | e, w8⟩
  · rfl
  rotate_left
  · rfl
  simp only []
  rcases h9 : submitInvoice env cfg.ContractorEmail cfg.ContractorPass p1 w8 with ⟨t1, _ | e, w9⟩
  rotate_left
  · rfl
  simp only []
  rcases h10 : approveInvoice env cfg.AdminEmail cfg.AdminPass t1 w9 with ⟨_ | e, w10⟩
  rotate_left
  · rfl
  simp only []
  rcases h11 : createInvoiceFile env cfg fuel 10 2018 5 w10 with _ | ⟨p2, _ | e, w11⟩
  · rfl
  rotate_left
  · rfl
  simp only []
  rcases h12 : submitInvoice env cfg.ContractorEmail cfg.ContractorPass p2 w11 with ⟨t2, _ | e, w12⟩
  rotate_left
  · rfl
  simp only []
  rcases h13 : rejectInvoice env cfg.AdminEmail cfg.AdminPass t2 w12 with ⟨_ | e, w13⟩
  rotate_left
  · rfl
  simp only []
  by_cases hi : cfg.IncludeTests = true
  · simp only [hi, if_true]
    rcases h14 : testPasswordResetAndChange env cfg.AdminEmail cfg.AdminPass w13 with ⟨_ | e, w14⟩
    rotate_left
    · rfl
    simp only []
    rcases h15 : testEditUser env cfg.ContractorEmail cfg.ContractorPass w14 with ⟨_ | e, w15⟩
    · rfl
    · rfl
  · simp only [hi]
    rfl

theorem runSteps_append_fail (post : List Step) (s : Step) (e : Error) (v1 v2 : Vars)
    (w1 w2 : World) (hs : s v1 w1 = some (some e, v2, w2)) :
    ∀ (pre : List Step) (v : Vars) (w : World), runSteps pre v w = some (none, v1, w1) →
      runSteps (pre ++ s :: post) v w = some (some e, v2, w2) := by
  intro pre
  induction pre with
  | nil =>
    intro v w h
    simp only [runSteps, Option.some.injEq, Prod.mk.injEq, true_and] at h
    obtain ⟨rfl, rfl⟩ := h
    simp only [List.nil_append, runSteps, hs]
  | cons p pre ih =>
    intro v w h
    simp only [List.cons_append, runSteps] at h ⊢
    rcases hp : p v w with _ | ⟨_ | e1, v3, w3⟩
    · rw [hp] at h
      simp at h
    · rw [hp] at h
      simp only [] at h ⊢
      exact ih v3 w3 h
    · rw [hp] at h
      simp at h

theorem Ends_append (e : Error) (a b : List Event) (h : Ends e b) : Ends e (a ++ b) := by
  obtain ⟨last, hl, hcase⟩ := h
  refine ⟨last, ?_, hcase⟩
  rw [List.getLast?_append, hl]
  rfl

theorem CreateAdminUser_ends (env : Env) (email username password : String) (w w' : World)
    (r : Option Error) (h : Client.CreateAdminUser env email username password w = (r, w')) :
    ∃ evs, w'.trace = w.trace ++ evs ∧ ∀ e, r = some e → Ends e evs := by
  obtain ⟨htr, -, -⟩ := call_run env _ w w' r h
  refine ⟨_, htr, ?_⟩
  intro e he
  simp [Ends, he]

theorem deleteExistingData_ends (env : Env) (w w' : World)
    (r : Option Error) (h : deleteExistingData env w = (r, w')) :
    ∃ evs, w'.trace = w.trace ++ evs ∧ ∀ e, r = some e → Ends e evs := by
  obtain ⟨-, -, hcases⟩ :=
    deleteExistingData_run env w w' r h
  casesm* _ ∨ _, ∃ _, _, _ ∧ _
  all_goals refine ⟨_, ‹w'.trace = _›, ?_⟩
  all_goals intro e he
  all_goals subst_vars
  all_goals simp_all [Ends, AssertionError]

theorem setNewIdentity_ends (env : Env) (email password : String) (w w' : World)
    (r : Option Error) (h : setNewIdentity env email password w = (r, w')) :
    ∃ evs, w'.trace = w.trace ++ evs ∧ ∀ e, r = some e → Ends e evs := by
  obtain ⟨-, -, hcases⟩ :=
    setNewIdentity_run env email password w w' r h
  casesm* _ ∨ _, ∃ _, _, _ ∧ _
  all_goals refine ⟨_, ‹w'.trace = _›, ?_⟩
  all_goals intro e he
  all_goals subst_vars
  all_goals simp_all [Ends, AssertionError]

theorem createContractorUser_ends (env : Env) (adminEmail adminPass email user pass name location xpub : String) (w w' : World)
    (r : Option Error) (h : createContractorUser env adminEmail adminPass email user pass name location xpub w = (r, w')) :
    ∃ evs, w'.trace = w.trace ++ evs ∧ ∀ e, r = some e → Ends e evs := by
  obtain ⟨-, -, hcases⟩ :=
    createContractorUser_run env adminEmail adminPass email user pass name location xpub
      w w' r h
  casesm* _ ∨ _, ∃ _, _, _ ∧ _
  all_goals refine ⟨_, ‹w'.trace = _›, ?_⟩
  all_goals intro e he
  all_goals subst_vars
  all_goals simp_all [Ends, AssertionError]

theorem approveInvoice_ends (env : Env) (email password token : String) (w w' : World)
    (r : Option Error) (h : approveInvoice env email password token w = (r, w')) :
    ∃ evs, w'.trace = w.trace ++ evs ∧ ∀ e, r = some e → Ends e evs := by
  obtain ⟨-, -, hcases⟩ :=
    approveInvoice_run env email password token w w' r h
  casesm* _ ∨ _, ∃ _, _, _ ∧ _
  all_goals refine ⟨_, ‹w'.trace = _›, ?_⟩
  all_goals intro e he
  all_goals subst_vars
  all_goals simp_all [Ends, AssertionError]

theorem rejectInvoice_ends (env : Env) (email password token : String) (w w' : World)
    (r : Option Error) (h : rejectInvoice env email password token w = (r, w')) :
    ∃ evs, w'.trace = w.trace ++ evs ∧ ∀ e, r = some e → Ends e evs := by
  obtain ⟨-, -, hcases⟩ :=
    rejectInvoice_run env email password token w w' r h
  casesm* _ ∨ _, ∃ _, _, _ ∧ _
  all_goals refine ⟨_, ‹w'.trace = _›, ?_⟩
  all_goals intro e he
  all_goals subst_vars
  all_goals simp_all [Ends, AssertionError]

theorem testPasswordResetAndChange_ends (env : Env) (email password : String) (w w' : World)
    (r : Option Error) (h : testPasswordResetAndChange env email password w = (r, w')) :
    ∃ evs, w'.trace = w.trace ++ evs ∧ ∀ e, r = some e → Ends e evs := by
  obtain ⟨-, -, hcases⟩ :=
    testPasswordResetAndChange_run env email password w w' r h
  casesm* _ ∨ _, ∃ _, _, _ ∧ _
  all_goals refine ⟨_, ‹w'.trace = _›, ?_⟩
  all_goals intro e he
  all_goals subst_vars
  all_goals simp_all [Ends, AssertionError]

theorem testEditUser_ends (env : Env) (email password : String) (w w' : World)
    (r : Option Error) (h : testEditUser env email password w = (r, w')) :
    ∃ evs, w'.trace = w.trace ++ evs ∧ ∀ e, r = some e → Ends e evs := by
  obtain ⟨-, -, hcases⟩ :=
    testEditUser_run env email password w w' r h
  casesm* _ ∨ _, ∃ _, _, _ ∧ _
  all_goals refine ⟨_, ‹w'.trace = _›, ?_⟩
  all_goals intro e he
  all_goals subst_vars
  all_goals simp_all [Ends, AssertionError]

theorem submitInvoice_ends (env : Env) (email password filepath : String) (w w' : World)
    (token : String) (r : Option Error)
    (h : submitInvoice env email password filepath w = (token, r, w')) :
    ∃ evs, w'.trace = w.trace ++ evs ∧ ∀ e, r = some e → Ends e evs := by
  obtain ⟨-, -, hcases⟩ := submitInvoice_run env email password filepath w w' token r h
  casesm* _ ∨ _, ∃ _, _, _ ∧ _
  all_goals refine ⟨_, ‹w'.trace = _›, ?_⟩
  all_goals intro e he
  all_goals subst_vars
  all_goals simp_all [Ends, AssertionError]

theorem createInvoiceFile_ends (env : Env) (cfg : Config) (fuel month year : Nat)
    (numRecords : Int) (w w' : World) (p : String) (r : Option Error)
    (h : createInvoiceFile env cfg fuel month year numRecords w = some (p, r, w')) :
    ∃ evs, w'.trace = w.trace ++ evs ∧ ∀ e, r = some e → Ends e evs := by
  obtain ⟨-, -, hcases⟩ := createInvoiceFile_trace env cfg fuel month year numRecords w w' p r h
  casesm* _ ∨ _, ∃ _, _, _ ∧ _
  all_goals refine ⟨_, ‹w'.trace = _›, ?_⟩
  all_goals intro e he
  all_goals subst_vars
  all_goals simp_all [Ends, AssertionError]

theorem startPoliteiad_ends (env : Env) (cfg : Config) (fuel : Nat) (w w' : World)
    (r : Option Error) (h : startPoliteiad env cfg fuel w = some (r, w')) :
    ∃ evs, w'.trace = w.trace ++ evs ∧ ∀ e, r = some e → Ends e evs := by
  obtain ⟨-, hcases⟩ := startPoliteiad_run env cfg fuel w w' r h
  casesm* _ ∨ _, ∃ _, _, _ ∧ _
  all_goals refine ⟨_, ‹w'.trace = _›, ?_⟩
  all_goals intro e he
  all_goals subst_vars
  all_goals simp_all [Ends, AssertionError]

theorem startCmswww_ends (env : Env) (cfg : Config) (fuel : Nat) (w w' : World)
    (r : Option Error) (h : startCmswww env cfg fuel w = some (r, w')) :
    ∃ evs, w'.trace = w.trace ++ evs ∧ ∀ e, r = some e → Ends e evs := by
  obtain ⟨-, hcases⟩ := startCmswww_run env cfg fuel w w' r h
  casesm* _ ∨ _, ∃ _, _, _ ∧ _
  all_goals refine ⟨_, ‹w'.trace = _›, ?_⟩
  all_goals intro e he
  all_goals subst_vars
  all_goals simp_all [Ends, AssertionError]

theorem runSteps_ends (ss : List Step)
    (hss : ∀ s ∈ ss, ∀ v w r v2 w2, s v w = some (r, v2, w2) →
      ∃ evs, w2.trace = w.trace ++ evs ∧ ∀ e, r = some e → Ends e evs) :
    ∀ v w r v2 w2, runSteps ss v w = some (r, v2, w2) →
      ∃ evs, w2.trace = w.trace ++ evs ∧ ∀ e, r = some e → Ends e evs := by
  induction ss with
  | nil =>
    intro v w r v2 w2 h
    simp only [runSteps, Option.some.injEq, Prod.mk.injEq] at h
    obtain ⟨rfl, -, rfl⟩ := h
    exact ⟨[], by simp, fun e he => absurd he (by simp)⟩
  | cons s ss ih =>
    intro v w r v2 w2 h
    simp only [runSteps] at h
    rcases hs : s v w with _ | ⟨_ | e1, v3, w3⟩
    · rw [hs] at h
      simp at h
    · rw [hs] at h
      simp only [] at h
      obtain ⟨evs1, h1, -⟩ := hss s (List.mem_cons_self _ _) v w _ _ _ hs
      obtain ⟨evs2, h2, hends⟩ :=
        ih (fun s' hs' => hss s' (List.mem_cons_of_mem _ hs')) v3 w3 r v2 w2 h
      refine ⟨evs1 ++ evs2, by rw [h2, h1, List.append_assoc], ?_⟩
      intro e he
      exact Ends_append e _ _ (hends e he)
    · rw [hs] at h
      simp only [Option.some.injEq, Prod.mk.injEq] at h
      obtain ⟨rfl, rfl, rfl⟩ := h
      exact hss s (List.mem_cons_self _ _) v w _ _ _ hs

theorem steps_ends (env : Env) (cfg : Config) (fuel : Nat) :
    ∀ s ∈ steps env cfg fuel, ∀ v w r v2 w2, s v w = some (r, v2, w2) →
      ∃ evs, w2.trace = w.trace ++ evs ∧ ∀ e, r = some e → Ends e evs := by
  intro s hs v w r v2 w2 h
  simp only [steps, List.mem_cons, List.mem_singleton, List.not_mem_nil, or_false] at hs
  rcases hs with rfl | rfl | rfl | rfl | rfl | rfl | rfl | rfl | rfl | rfl | rfl | rfl | rfl |
    rfl | rfl
  · by_cases hd : cfg.DeleteData = true
    · simp only [hd, if_true, Option.some.injEq, Prod.mk.injEq] at h
      obtain ⟨rfl, -, rfl⟩ := h
      exact deleteExistingData_ends env w _ _ rfl
    · simp only [hd, Option.some.injEq, Prod.mk.injEq] at h
      obtain ⟨rfl, -, rfl⟩ := h
      exact ⟨[], by simp, fun e he => absurd he (by simp)⟩
  · simp only [Option.some.injEq, Prod.mk.injEq] at h
    obtain ⟨rfl, -, rfl⟩ := h
    exact CreateAdminUser_ends env _ _ _ w _ _ rfl
  · rcases hk : startPoliteiad env cfg fuel w with _ | ⟨r1, w1⟩
    · simp [hk] at h
    · simp only [hk, Option.some.injEq, Prod.mk.injEq] at h
      obtain ⟨rfl, -, rfl⟩ := h
      exact startPoliteiad_ends env cfg fuel w _ _ hk
  · rcases hk : startCmswww env cfg fuel w with _ | ⟨r1, w1⟩
    · simp [hk] at h
    · simp only [hk, Option.some.injEq, Prod.mk.injEq] at h
      obtain ⟨rfl, -, rfl⟩ := h
      exact startCmswww_ends env cfg fuel w _ _ hk
  · simp only [Option.some.injEq, Prod.mk.injEq] at h
    obtain ⟨rfl, -, rfl⟩ := h
    exact setNewIdentity_ends env _ _ w _ _ rfl
  · simp only [Option.some.injEq, Prod.mk.injEq] at h
    obtain ⟨rfl, -, rfl⟩ := h
    exact createContractorUser_ends env _ _ _ _ _ _ _ _ w _ _ rfl
  · simp only [Option.some.injEq, Prod.mk.injEq] at h
    obtain ⟨rfl, -, rfl⟩ := h
    exact setNewIdentity_ends env _ _ w _ _ rfl
  · rcases hk : createInvoiceFile env cfg fuel 9 2018 5 w with _ | ⟨p, r1, w1⟩
    · simp [hk] at h
    · simp only [hk, Option.some.injEq, Prod.mk.injEq] at h
      obtain ⟨rfl, -, rfl⟩ := h
      exact createInvoiceFile_ends env cfg fuel _ _ _ w _ _ _ hk
  · simp only [Option.some.injEq, Prod.mk.injEq] at h
    obtain ⟨rfl, -, rfl⟩ := h
    exact submitInvoice_ends env _ _ _ w _ _ _ rfl
  · simp only [Option.some.injEq, Prod.mk.injEq] at h
    obtain ⟨rfl, -, rfl⟩ := h
    exact approveInvoice_ends env _ _ _ w _ _ rfl
  · rcases hk : createInvoiceFile env cfg fuel 10 2018 5 w with _ | ⟨p, r1, w1⟩
    · simp [hk] at h
    · simp only [hk, Option.some.injEq, Prod.mk.injEq] at h
      obtain ⟨rfl, -, rfl⟩ := h
      exact createInvoiceFile_ends env cfg fuel _ _ _ w _ _ _ hk
  · simp only [Option.some.injEq, Prod.mk.injEq] at h
    obtain ⟨rfl, -, rfl⟩ := h
    exact submitInvoice_ends env _ _ _ w _ _ _ rfl
  · simp only [Option.some.injEq, Prod.mk.injEq] at h
    obtain ⟨rfl, -, rfl⟩ := h
    exact rejectInvoice_ends env _ _ _ w _ _ rfl
  · by_cases hi : cfg.IncludeTests = true
    · simp only [hi, if_true, Option.some.injEq, Prod.mk.injEq] at h
      obtain ⟨rfl, -, rfl⟩ := h
      exact testPasswordResetAndChange_ends env _ _ w _ _ rfl
    · simp only [hi, Option.some.injEq, Prod.mk.injEq] at h
      obtain ⟨rfl, -, rfl⟩ := h
      exact ⟨[], by simp, fun e he => absurd he (by simp)⟩
  · by_cases hi : cfg.IncludeTests = true
    · simp only [hi, if_true, Option.some.injEq, Prod.mk.injEq] at h
      obtain ⟨rfl, -, rfl⟩ := h
      exact testEditUser_ends env _ _ w _ _ rfl
    · simp only [hi, Option.some.injEq, Prod.mk.injEq] at h
      obtain ⟨rfl, -, rfl⟩ := h
      exact ⟨[], by simp, fun e he => absurd he (by simp)⟩

theorem _main_ends (env : Env) (cfg : Config) (fuel : Nat) (w w' : World) (e : Error)
    (h : _main env (cfg, none) fuel w = some (some e, w')) :
    ∃ evs, w'.trace = w.trace ++ evs ∧ Ends e evs := by
  rw [_main_eq_runSteps] at h
  rcases hr : runSteps (steps env cfg fuel) Vars.init w with _ | ⟨r, v2, w2⟩
  · rw [hr] at h
    simp at h
  · rw [hr] at h
    simp only [Option.map_some', Option.some.injEq, Prod.mk.injEq] at h
    obtain ⟨rfl, rfl⟩ := h
    obtain ⟨evs, htr, hends⟩ := runSteps_ends _ (steps_ends env cfg fuel) _ _ _ _ _ hr
    exact ⟨evs, htr, hends e rfl⟩

theorem _main_step_fail (env : Env) (cfg : Config) (fuel : Nat) (w : World)
    (pre post : List Step) (s : Step) (e : Error) (v1 v2 : Vars) (w1 w2 : World)
    (hsplit : steps env cfg fuel = pre ++ s :: post)
    (hpre : runSteps pre Vars.init w = some (none, v1, w1))
    (hs : s v1 w1 = some (some e, v2, w2)) :
    _main env (cfg, none) fuel w = some (some e, w2) := by
  rw [_main_eq_runSteps, hsplit, runSteps_append_fail post s e v1 v2 w1 w2 hs pre _ _ hpre]
  rfl

/-! ## The invoice files of `_main` -/

theorem writeRecords_isSome_fuel (numRecords : Int) (hN : numRecords < 2 ^ 63 - 1) :
    ∀ (fuel : Nat) (i : Int) (file : File) (w : World), -2 ^ 63 ≤ i →
      (writeRecords fuel i numRecords file w).isSome = true →
      (numRecords - i + 1).toNat < fuel := by
  intro fuel
  induction fuel with
  | zero =>
    intro i file w _ h
    simp [writeRecords] at h
  | succ fuel ih =>
    intro i file w hi h
    unfold writeRecords at h
    by_cases hle : i ≤ numRecords
    · simp only [hle, if_true] at h
      have hw : wrapInt (i + 1) = i + 1 := wrapInt_of_range _ (by omega) (by omega)
      rw [hw] at h
      have := ih (i + 1) _ _ (by omega) h
      omega
    · omega

theorem createInvoiceFile_some_inv (env : Env) (cfg : Config) (fuel month year : Nat)
    (numRecords : Int) (w w' : World) (p : String) (hN : numRecords < 2 ^ 63 - 1)
    (h : createInvoiceFile env cfg fuel month year numRecords w = some (p, none, w')) :
    env.errOf w.trace (.OpenFile (env.Join [cfg.DataDir, (Date year month).FormatCsv])) = none ∧
    numRecords.toNat < fuel := by
  unfold createInvoiceFile at h
  simp only [] at h
  split at h
  · simp at h
  · rename_i file w1 hopen
    constructor
    · unfold osOpenFile at hopen
      cases herr : env.errOf w.trace
          (.OpenFile (env.Join [cfg.DataDir, (Date year month).FormatCsv])) with
      | none => rfl
      | some e =>
        rw [herr] at hopen
        simp at hopen
    · split at h
      · simp at h
      · rename_i hw
        have := writeRecords_isSome_fuel numRecords hN fuel 1 _ _ (by norm_num)
          (by rw [hw]; rfl)
        omega

theorem format_2018_09 : (Date ((2018 : Nat) : Int) ((9 : Nat) : Int)).Format = "2018-09" := by
  rfl

theorem format_2018_10 : (Date ((2018 : Nat) : Int) ((10 : Nat) : Int)).Format = "2018-10" := by
  rfl

theorem concatAll_five :
    concatAll (recordsFrom 1 (5 : Int).toNat) = "Development,Task 1,,20,20Development,Task 2,,20,40Development,Task 3,,20,60Development,Task 4,,20,80Development,Task 5,,20,100" := by
  rfl

theorem createInvoiceFile_five (env : Env) (cfg : Config) (fuel month year : Nat)
    (w w' : World) (p : String)
    (h : createInvoiceFile env cfg fuel month year 5 w = some (p, none, w'))
    (hfresh : readFile w.files (env.Join [cfg.DataDir, (Date year month).FormatCsv]) = none) :
    readFile w'.files (env.Join [cfg.DataDir, (Date year month).FormatCsv])
      = some (("# " ++ (Date year month).Format ++ "\n")
          ++ ("# This file was generated by the dataload utility.\n"
          ++ concatAll (recordsFrom 1 (5 : Int).toNat))) := by
  obtain ⟨hopen, hfuel⟩ := createInvoiceFile_some_inv env cfg fuel month year 5 w w' p
    (by norm_num) h
  obtain ⟨err, w'', hrun, hcontent⟩ := createInvoiceFile_run env cfg fuel month year 5 w
    (by norm_num) (by norm_num) hfuel hopen hfresh
  rw [h] at hrun
  simp only [Option.some.injEq, Prod.mk.injEq] at hrun
  obtain ⟨-, -, rfl⟩ := hrun
  exact hcontent

/-! ## The run in which every step succeeds -/

theorem main_stop (env : Env) (load : Config × Option Error) (fuel : Nat) (w0 w : World)
    (r : Option Error) (h : main env load fuel w0 = some (r, w)) :
    ∃ w1, _main env load fuel w0 = some (r, w1) ∧ w = stopServers w1 := by
  unfold main at h
  cases hm : _main env load fuel w0 with
  | none => rw [hm] at h; simp at h
  | some p =>
    obtain ⟨r1, w1⟩ := p
    rw [hm] at h
    simp only [Option.some.injEq, Prod.mk.injEq] at h
    obtain ⟨rfl, rfl⟩ := h
    exact ⟨w1, rfl, rfl⟩

theorem wipe_trace (env : Env) (cfg : Config) (w w0 : World)
    (h : (if cfg.DeleteData then deleteExistingData env w else (none, w)) = (none, w0)) :
    w0.trace = w.trace ++ wipeCalls env cfg := by
  by_cases hd : cfg.DeleteData = true
  · simp only [hd, if_true] at h
    obtain ⟨-, -, hcases⟩ := deleteExistingData_run env w w0 none h
    simpa [wipeCalls, hd, Event.ok] using hcases
  · have hd' : cfg.DeleteData = false := by simpa using hd
    simp only [hd', Bool.false_eq_true, if_false, Prod.mk.injEq, true_and] at h
    subst h
    simp [wipeCalls, hd']

set_option maxHeartbeats 4000000

theorem main_success_aux (env : Env) (cfg : Config) (fuel : Nat)
    (files : List (String × String)) (w : World) (hi : cfg.IncludeTests = false)
    (h : main env (cfg, none) fuel (World.init files) = some (none, w)) :
    w.politeiadCmd = none ∧ w.cmswwwCmd = none ∧ sessions false w.trace = some false ∧
    ∃ (w0 w1 w2 w3 w4 w5 w6 w7 w8 w9 w10 w11 w12 : World)
      (id1 tok1 id2 inv tok2 id3 tok3 id4 t1 id5 id6 t2 id7 : String),
      (if cfg.DeleteData then deleteExistingData env (World.init files)
        else (none, World.init files)) = (none, w0) ∧
      Client.CreateAdminUser env cfg.AdminEmail cfg.AdminUser cfg.AdminPass w0 = (none, w1) ∧
      startPoliteiad env cfg fuel w1 = some (none, w2) ∧
      startCmswww env cfg fuel w2 = some (none, w3) ∧
      setNewIdentity env cfg.AdminEmail cfg.AdminPass w3 = (none, w4) ∧
      createContractorUser env cfg.AdminEmail cfg.AdminPass cfg.ContractorEmail
        cfg.ContractorUser cfg.ContractorPass cfg.ContractorName cfg.ContractorLocation
        cfg.ContractorExtendedPublicKey w4 = (none, w5) ∧
      setNewIdentity env cfg.ContractorEmail cfg.ContractorPass w5 = (none, w6) ∧
      createInvoiceFile env cfg fuel 9 2018 5 w6
        = some (env.Join [cfg.DataDir, "2018-09.csv"], none, w7) ∧
      submitInvoice env cfg.ContractorEmail cfg.ContractorPass
        (env.Join [cfg.DataDir, "2018-09.csv"]) w7 = (t1, none, w8) ∧
      approveInvoice env cfg.AdminEmail cfg.AdminPass t1 w8 = (none, w9) ∧
      createInvoiceFile env cfg fuel 10 2018 5 w9
        = some (env.Join [cfg.DataDir, "2018-10.csv"], none, w10) ∧
      submitInvoice env cfg.ContractorEmail cfg.ContractorPass
        (env.Join [cfg.DataDir, "2018-10.csv"]) w10 = (t2, none, w11) ∧
      rejectInvoice env cfg.AdminEmail cfg.AdminPass t2 w11 = (none, w12) ∧
      w = stopServers w12 ∧
      (readFile w6.files (env.Join [cfg.DataDir, "2018-09.csv"]) = none →
        readFile w7.files (env.Join [cfg.DataDir, "2018-09.csv"])
          = some "# 2018-09\n# This file was generated by the dataload utility.\nDevelopment,Task 1,,20,20Development,Task 2,,20,40Development,Task 3,,20,60Development,Task 4,,20,80Development,Task 5,,20,100") ∧
      (readFile w9.files (env.Join [cfg.DataDir, "2018-10.csv"]) = none →
        readFile w10.files (env.Join [cfg.DataDir, "2018-10.csv"])
          = some "# 2018-10\n# This file was generated by the dataload utility.\nDevelopment,Task 1,,20,20Development,Task 2,,20,40Development,Task 3,,20,60Development,Task 4,,20,80Development,Task 5,,20,100") ∧
      w.trace = wipeCalls env cfg ++
          ([Event.ok (Call.CreateAdminUser cfg.AdminEmail cfg.AdminUser cfg.AdminPass),
           Event.ok (Call.ExecuteCommand "politeiad" ["--testnet"]),
           Event.ok (Call.StdoutPipe ⟨(wipeCalls env cfg).length + 1, ["politeiad", "--testnet"]⟩),
           Event.ok (Call.Start ⟨(wipeCalls env cfg).length + 1, ["politeiad", "--testnet"]⟩),
           Event.ok (Call.OpenFile cfg.PoliteiadLogFile),
           Event.ok (Call.CreateCmswwwCmd),
           Event.ok (Call.StdoutPipe ⟨(wipeCalls env cfg).length + 5, env.cmswwwArgs⟩),
           Event.ok (Call.Start ⟨(wipeCalls env cfg).length + 5, env.cmswwwArgs⟩),
           Event.ok (Call.OpenFile cfg.CmswwwLogFile),
           Event.ok (Call.Version),
           Event.gave (Call.Login cfg.AdminEmail cfg.AdminPass) id1,
           Event.gave (Call.NewIdentity) tok1,
           Event.ok (Call.VerifyIdentity tok1),
           Event.ok (Call.Logout),
           Event.gave (Call.Login cfg.AdminEmail cfg.AdminPass) id2,
           Event.gave (Call.InviteUser cfg.ContractorEmail) inv,
           Event.gave (Call.ResendInvite cfg.ContractorEmail) tok2,
           Event.ok (Call.Logout),
           Event.ok (Call.RegisterUser cfg.ContractorEmail cfg.ContractorUser cfg.ContractorPass
             cfg.ContractorName cfg.ContractorLocation cfg.ContractorExtendedPublicKey tok2),
           Event.gave (Call.Login cfg.ContractorEmail cfg.ContractorPass) id3,
           Event.gave (Call.NewIdentity) tok3,
           Event.ok (Call.VerifyIdentity tok3),
           Event.ok (Call.Logout),
           Event.ok (Call.OpenFile (env.Join [cfg.DataDir, "2018-09.csv"])),
           Event.ok (Call.Sync (env.Join [cfg.DataDir, "2018-09.csv"])),
           Event.gave (Call.Login cfg.ContractorEmail cfg.ContractorPass) id4,
           Event.gave (Call.SubmitInvoice (env.Join [cfg.DataDir, "2018-09.csv"])) t1,
           Event.ok (Call.Logout),
           Event.gave (Call.Login cfg.AdminEmail cfg.AdminPass) id5,
           Event.ok (Call.ApproveInvoice t1),
           Event.ok (Call.Logout),
           Event.ok (Call.OpenFile (env.Join [cfg.DataDir, "2018-10.csv"])),
           Event.ok (Call.Sync (env.Join [cfg.DataDir, "2018-10.csv"])),
           Event.gave (Call.Login cfg.ContractorEmail cfg.ContractorPass) id6,
           Event.gave (Call.SubmitInvoice (env.Join [cfg.DataDir, "2018-10.csv"])) t2,
           Event.ok (Call.Logout),
           Event.gave (Call.Login cfg.AdminEmail cfg.AdminPass) id7,
           Event.ok (Call.RejectInvoice t2),
           Event.ok (Call.Logout),
             Event.ok (Call.stopPoliteiad),
             Event.ok (Call.Kill ⟨(wipeCalls env cfg).length + 1, ["politeiad", "--testnet"]⟩),
             Event.ok (Call.stopCmswww),
             Event.ok (Call.Kill ⟨(wipeCalls env cfg).length + 5, env.cmswwwArgs⟩)] : List Event) := by
  obtain ⟨opened, hs, hclosed, -, -⟩ := main_sessions_aux env (cfg, none) fuel files none w h
  rw [hclosed rfl] at hs
  obtain ⟨w12, hm, hstop⟩ := main_stop env (cfg, none) fuel _ w none h
  obtain ⟨hp, hc, htr⟩ := stopServers_run w12
  rw [← hstop] at hp hc htr
  obtain ⟨w0, w1, w2, w3, w4, w5, w6, w7, w8, w9, w10, w11, p1, t1, p2, t2, h0, h1, h2, h3, h4,
    h5, h6, h7, h8, h9, h10, h11, h12⟩ := _main_chain env cfg fuel _ w12 hi hm
  obtain ⟨hp12, hc12, rfl, rfl, id1, tok1, id2, inv, tok2, id3, tok3, id4, id5, id6, id7, htr12⟩ :=
    script_trace env cfg fuel w0 w1 w2 w3 w4 w5 w6 w7 w8 w9 w10 w11 w12 p1 t1 p2 t2
      h1 h2 h3 h4 h5 h6 h7 h8 h9 h10 h11 h12
  have hw0 := wipe_trace env cfg _ w0 h0
  simp only [World.init, List.nil_append] at hw0
  have hc09 := createInvoiceFile_five env cfg fuel 9 2018 w6 w7 _ h7
  have hc10 := createInvoiceFile_five env cfg fuel 10 2018 w9 w10 _ h10
  rw [date_2018_09, format_2018_09, concatAll_five] at hc09
  rw [date_2018_10, format_2018_10, concatAll_five] at hc10
  refine ⟨hp, hc, hs, w0, w1, w2, w3, w4, w5, w6, w7, w8, w9, w10, w11, w12,
    id1, tok1, id2, inv, tok2, id3, tok3, id4, t1, id5, id6, t2, id7,
    h0, h1, h2, h3, h4, h5, h6, h7, h8, h9, h10, h11, h12, hstop, hc09, hc10, ?_⟩
  rw [htr, htr12, hw0]
  simp [teardownCalls, hp12, hc12, hw0]

set_option maxHeartbeats 200000
theorem createInvoiceFile_isSome (env : Env) (cfg : Config) (fuel month year : Nat) (w : World)
    (hf : 6 ≤ fuel) : (createInvoiceFile env cfg fuel month year 5 w).isSome = true := by
  unfold createInvoiceFile
  simp only []
  split
  · rfl
  · rw [writeRecords_eq 5 (by norm_num) 5 fuel 1 _ _ (by norm_num) (by norm_num) (by omega)]
    rfl

theorem startPoliteiad_isSome (env : Env) (cfg : Config) (fuel : Nat) (w : World)
    (hw : ∀ cmd, (waitForStartOfDay fuel (env.stdout cmd) 0).isSome = true) :
    (startPoliteiad env cfg fuel w).isSome = true := by
  unfold startPoliteiad
  simp only []
  repeat' split
  all_goals first
    | rfl
    | (rename_i hn; have hx := congrArg Option.isSome hn; rw [hw] at hx;
       exact absurd hx (by simp))

theorem startCmswww_isSome (env : Env) (cfg : Config) (fuel : Nat) (w : World)
    (hw : ∀ cmd, (waitForStartOfDay fuel (env.stdout cmd) 0).isSome = true) :
    (startCmswww env cfg fuel w).isSome = true := by
  unfold startCmswww
  simp only []
  repeat' split
  all_goals first
    | rfl
    | (rename_i hn; have hx := congrArg Option.isSome hn; rw [hw] at hx;
       exact absurd hx (by simp))

theorem _main_isSome (env : Env) (load : Config × Option Error) (fuel : Nat) (w : World)
    (hf : 6 ≤ fuel)
    (hw : ∀ cmd, (waitForStartOfDay fuel (env.stdout cmd) 0).isSome = true) :
    (_main env load fuel w).isSome = true := by
  unfold _main
  repeat' split
  all_goals first
    | rfl
    | (rename_i hn; have hx := congrArg Option.isSome hn;
       rw [startPoliteiad_isSome env _ fuel _ hw] at hx;
       exact absurd hx (by simp))
    | (rename_i hn; have hx := congrArg Option.isSome hn;
       rw [startCmswww_isSome env _ fuel _ hw] at hx;
       exact absurd hx (by simp))
    | (rename_i hn; have hx := congrArg Option.isSome hn;
       rw [createInvoiceFile_isSome env _ fuel _ _ _ hf] at hx;
       exact absurd hx (by simp))

theorem main_isSome (env : Env) (load : Config × Option Error) (fuel : Nat) (w : World)
    (hf : 6 ≤ fuel)
    (hw : ∀ cmd, (waitForStartOfDay fuel (env.stdout cmd) 0).isSome = true) :
    (main env load fuel w).isSome = true := by
  have h := _main_isSome env load fuel w hf hw
  unfold main
  split
  · rename_i hn; rw [hn] at h; exact absurd h (by simp)
  · rfl


/-! ## Runs of `main` -/

/-- C2: `main` returns whenever the two readiness waits do (and the fuel covers
the five records of an invoice file), and whenever `main` returns, with an error
from any step of `_main` or with none, the teardown was entered exactly once for
each daemon, after every call of `_main`; both handles are `nil` afterwards and
every command whose `Start` succeeded has been sent a kill. -/
theorem main_teardown (env : Env) (load : Config × Option Error) (fuel : Nat)
    (files : List (String × String)) :
    (6 ≤ fuel → (∀ cmd, (waitForStartOfDay fuel (env.stdout cmd) 0).isSome = true) →
      (main env load fuel (World.init files)).isSome = true) ∧
    ∀ r w, main env load fuel (World.init files) = some (r, w) →
      w.politeiadCmd = none ∧ w.cmswwwCmd = none ∧
      (∃ w1 tail, _main env load fuel (World.init files) = some (r, w1) ∧
        w.trace = w1.trace ++ tail ∧
        (∀ ev ∈ w1.trace, ev.call.isTeardown = false) ∧
        (∀ ev ∈ tail, ev.call.isTeardown = true)) ∧
      w.trace.countP (fun ev => ev.call.isStopPoliteiad) = 1 ∧
      w.trace.countP (fun ev => ev.call.isStopCmswww) = 1 ∧
      ∀ cmd ∈ startedCmds w.trace, cmd ∈ killedCmds w.trace :=
  ⟨fun hf hw => main_isSome env load fuel _ hf hw,
   fun r w h => main_teardown_aux env load fuel files r w h⟩

/-- A run in which cmswww cannot be reached for its version after it started:
both daemons were spawned and both are killed. -/
theorem main_teardown_witness :
    ∃ w, main envNoVersion (cfg0, none) 10 (World.init []) = some (some "no route to host", w) ∧
      w.politeiadCmd = none ∧ w.cmswwwCmd = none ∧
      startedCmds w.trace = [⟨1, ["politeiad", "--testnet"]⟩, ⟨5, ["cmswww", "--testnet"]⟩] ∧
      killedCmds w.trace = [⟨1, ["politeiad", "--testnet"]⟩, ⟨5, ["cmswww", "--testnet"]⟩] ∧
      w.trace.countP (fun ev => ev.call.isStopPoliteiad) = 1 ∧
      w.trace.countP (fun ev => ev.call.isStopCmswww) = 1 := by
  have hmap : (main envNoVersion (cfg0, none) 10 (World.init [])).map
      (fun p => (p.1, startedCmds p.2.trace, killedCmds p.2.trace))
      = some (some "no route to host",
          [⟨1, ["politeiad", "--testnet"]⟩, ⟨5, ["cmswww", "--testnet"]⟩],
          [⟨1, ["politeiad", "--testnet"]⟩, ⟨5, ["cmswww", "--testnet"]⟩]) := by decide
  cases hrun : main envNoVersion (cfg0, none) 10 (World.init []) with
  | none => rw [hrun] at hmap; exact absurd hmap (by simp)
  | some p =>
    obtain ⟨r, w⟩ := p
    rw [hrun] at hmap
    simp only [Option.map_some', Option.some.injEq, Prod.mk.injEq] at hmap
    obtain ⟨rfl, hs, hk⟩ := hmap
    obtain ⟨h1, h2, -, h4, h5, -⟩ := (main_teardown envNoVersion (cfg0, none) 10 []).2 _ w hrun
    exact ⟨w, rfl, h1, h2, hs, hk, h4, h5⟩

/-- C3: `_main` returns whenever the two readiness waits do, and in every run
of `_main` that returns: a call that returned an error is the last call of the
run (nothing is called after it, nothing is called again) and its error is the
error `_main` returns; `_main` is the run of its steps in order, so whichever
step returns an error after the steps before it succeeded, `_main` returns that
error in the state that step left (no later step runs, none runs again); and an
error `_main` returns is the error of the last call of the run or one of the
three errors `testEditUser` raises on its second fetch, that fetch being the
last call of the run. -/
theorem fail_fast_sequence (env : Env) (load : Config × Option Error) (fuel : Nat)
    (files : List (String × String)) :
    (6 ≤ fuel → (∀ cmd, (waitForStartOfDay fuel (env.stdout cmd) 0).isSome = true) →
      (_main env load fuel (World.init files)).isSome = true) ∧
    (∀ r w, _main env load fuel (World.init files) = some (r, w) →
      ∀ pre ev post e, w.trace = pre ++ ev :: post → ev.err = some e →
        post = [] ∧ r = some e) ∧
    (∀ cfg, load = (cfg, none) →
      _main env load fuel (World.init files)
        = (runSteps (steps env cfg fuel) Vars.init (World.init files)).map
            (fun x => (x.1, x.2.2))) ∧
    (∀ cfg, load = (cfg, none) → ∀ (pre post : List Step) (s : Step) (e : Error)
        (v1 v2 : Vars) (w1 w2 : World),
      steps env cfg fuel = pre ++ s :: post →
      runSteps pre Vars.init (World.init files) = some (none, v1, w1) →
      s v1 w1 = some (some e, v2, w2) →
      _main env load fuel (World.init files) = some (some e, w2)) ∧
    (∀ cfg e w, load = (cfg, none) →
      _main env load fuel (World.init files) = some (some e, w) → Ends e w.trace) := by
  refine ⟨fun hf hw => _main_isSome env load fuel _ hf hw,
    fun r w h => (_main_facts env load fuel _ w r h rfl rfl rfl).1.ff, ?_, ?_, ?_⟩
  · rintro cfg rfl
    exact _main_eq_runSteps env cfg fuel _
  · rintro cfg rfl pre post s e v1 v2 w1 w2 hsplit hpre hs
    exact _main_step_fail env cfg fuel _ pre post s e v1 v2 w1 w2 hsplit hpre hs
  · rintro cfg e w rfl h
    obtain ⟨evs, htr, hends⟩ := _main_ends env cfg fuel _ w e h
    simp only [World.init, List.nil_append] at htr
    rw [htr]
    exact hends

/-- Two runs.  The identity service refuses the first `NewIdentity`: it is the
twelfth and last call and `_main` returns its error.  With the extra tests on
and a service that does not apply edits, `testEditUser` finds the name
unchanged: `_main` returns that error after 51 calls, the last of them the
second fetch. -/
theorem fail_fast_sequence_witness :
    (∃ w, _main envNoIdentity (cfg0, none) 10 (World.init [])
        = some (some "identity service unavailable", w) ∧
      w.trace.length = 12 ∧
      ∀ pre ev post e, w.trace = pre ++ ev :: post → ev.err = some e →
        post = [] ∧ some "identity service unavailable" = some e) ∧
    (∃ w, _main envOk (cfgTests, none) 10 (World.init [])
        = some (some "User's name was not modified", w) ∧
      w.trace.length = 51 ∧ Ends "User's name was not modified" w.trace) := by
  constructor
  · have hmap : (_main envNoIdentity (cfg0, none) 10 (World.init [])).map
        (fun p => (p.1, p.2.trace.length))
        = some (some "identity service unavailable", 12) := by decide
    cases hrun : _main envNoIdentity (cfg0, none) 10 (World.init []) with
    | none => rw [hrun] at hmap; exact absurd hmap (by simp)
    | some p =>
      obtain ⟨r, w⟩ := p
      rw [hrun] at hmap
      simp only [Option.map_some', Option.some.injEq, Prod.mk.injEq] at hmap
      obtain ⟨rfl, hl⟩ := hmap
      exact ⟨w, rfl, hl, (fail_fast_sequence envNoIdentity (cfg0, none) 10 []).2.1 _ w hrun⟩
  · have hmap : (_main envOk (cfgTests, none) 10 (World.init [])).map
        (fun p => (p.1, p.2.trace.length))
        = some (some "User's name was not modified", 51) := by decide
    cases hrun : _main envOk (cfgTests, none) 10 (World.init []) with
    | none => rw [hrun] at hmap; exact absurd hmap (by simp)
    | some p =>
      obtain ⟨r, w⟩ := p
      rw [hrun] at hmap
      simp only [Option.map_some', Option.some.injEq, Prod.mk.injEq] at hmap
      obtain ⟨rfl, hl⟩ := hmap
      exact ⟨w, rfl, hl,
        (fail_fast_sequence envOk (cfgTests, none) 10 []).2.2.2.2 cfgTests _ w rfl hrun⟩

/-- C4, as the code has it: in every run that returns, `Login` and `Logout`
calls alternate (no `Login` is attempted while a session is open, `Logout` is
called only while one is), so the successful logins are the logouts plus at
most one session left open at the end; a run that ends without error leaves
none open and has as many `Logout` as `Login` calls. -/
theorem main_sessions (env : Env) (load : Config × Option Error) (fuel : Nat)
    (files : List (String × String)) (r : Option Error) (w : World)
    (h : main env load fuel (World.init files) = some (r, w)) :
    ∃ opened, sessions false w.trace = some opened ∧ (r = none → opened = false) ∧
      okLogins w.trace = logouts w.trace + (if opened then 1 else 0) ∧
      (r = none → logouts w.trace = logins w.trace) :=
  main_sessions_aux env load fuel files r w h

/-- A run in which every call succeeds: seven logins, seven logouts. -/
theorem main_sessions_witness :
    ∃ w, main envOk (cfg0, none) 10 (World.init []) = some (none, w) ∧
      sessions false w.trace = some false ∧ logins w.trace = 7 ∧ logouts w.trace = 7 := by
  have hmap : (main envOk (cfg0, none) 10 (World.init [])).map
      (fun p => (p.1, logins p.2.trace)) = some (none, 7) := by decide
  cases hrun : main envOk (cfg0, none) 10 (World.init []) with
  | none => rw [hrun] at hmap; exact absurd hmap (by simp)
  | some p =>
    obtain ⟨r, w⟩ := p
    rw [hrun] at hmap
    simp only [Option.map_some', Option.some.injEq, Prod.mk.injEq] at hmap
    obtain ⟨rfl, hl⟩ := hmap
    obtain ⟨opened, h1, h2, -, h4⟩ := main_sessions envOk (cfg0, none) 10 [] _ w hrun
    rw [h2 rfl] at h1
    exact ⟨w, rfl, h1, hl, (h4 rfl).trans hl⟩

/-- C4 fails as stated: the admin logs in, `NewIdentity` fails, the run aborts;
one `Login` succeeded and no `Logout` was called before `main` ended. -/
theorem main_login_without_logout :
    (main envNoIdentity (cfg0, none) 10 (World.init [])).map
      (fun p => (p.1, okLogins p.2.trace, logouts p.2.trace,
        ((p.2.trace.map Event.call).drop 10).take 2))
    = some (some "identity service unavailable", 1, 0,
        [.Login "admin@example.org" "adminpass", .NewIdentity]) := by
  decide

/-- C5, as the code has it: on a run in which every step succeeds and the extra
tests are off, `main` performs exactly these operations, each on the state the
one before left: `deleteExistingData` when the wipe switch is on (its five
calls, `DeleteAllData` among them), nothing when it is off; `CreateAdminUser`;
`startPoliteiad`; `startCmswww`; `setNewIdentity` for the admin;
`createContractorUser`; `setNewIdentity` for the contractor;
`createInvoiceFile(9, 2018, 5)`, `submitInvoice` of that file, `approveInvoice`
of the token returned; `createInvoiceFile(10, 2018, 5)`, `submitInvoice` of that
file, `rejectInvoice` of the token returned; `stopServers`.  An invoice file
that was missing holds the two header lines and the five records with the costs
20, 40, 60, 80, 100 right after its step.  The calls of the run are the ones
listed, in this order, with a kill for each daemon at the end; logins and
logouts alternate with none open at the end, and both handles are `nil`. -/
theorem main_success_trace (env : Env) (cfg : Config) (fuel : Nat)
    (files : List (String × String)) (w : World) (hi : cfg.IncludeTests = false)
    (h : main env (cfg, none) fuel (World.init files) = some (none, w)) :
    w.politeiadCmd = none ∧ w.cmswwwCmd = none ∧ sessions false w.trace = some false ∧
    ∃ (w0 w1 w2 w3 w4 w5 w6 w7 w8 w9 w10 w11 w12 : World)
      (id1 tok1 id2 inv tok2 id3 tok3 id4 t1 id5 id6 t2 id7 : String),
      (if cfg.DeleteData then deleteExistingData env (World.init files)
        else (none, World.init files)) = (none, w0) ∧
      Client.CreateAdminUser env cfg.AdminEmail cfg.AdminUser cfg.AdminPass w0 = (none, w1) ∧
      startPoliteiad env cfg fuel w1 = some (none, w2) ∧
      startCmswww env cfg fuel w2 = some (none, w3) ∧
      setNewIdentity env cfg.AdminEmail cfg.AdminPass w3 = (none, w4) ∧
      createContractorUser env cfg.AdminEmail cfg.AdminPass cfg.ContractorEmail
        cfg.ContractorUser cfg.ContractorPass cfg.ContractorName cfg.ContractorLocation
        cfg.ContractorExtendedPublicKey w4 = (none, w5) ∧
      setNewIdentity env cfg.ContractorEmail cfg.ContractorPass w5 = (none, w6) ∧
      createInvoiceFile env cfg fuel 9 2018 5 w6
        = some (env.Join [cfg.DataDir, "2018-09.csv"], none, w7) ∧
      submitInvoice env cfg.ContractorEmail cfg.ContractorPass
        (env.Join [cfg.DataDir, "2018-09.csv"]) w7 = (t1, none, w8) ∧
      approveInvoice env cfg.AdminEmail cfg.AdminPass t1 w8 = (none, w9) ∧
      createInvoiceFile env cfg fuel 10 2018 5 w9
        = some (env.Join [cfg.DataDir, "2018-10.csv"], none, w10) ∧
      submitInvoice env cfg.ContractorEmail cfg.ContractorPass
        (env.Join [cfg.DataDir, "2018-10.csv"]) w10 = (t2, none, w11) ∧
      rejectInvoice env cfg.AdminEmail cfg.AdminPass t2 w11 = (none, w12) ∧
      w = stopServers w12 ∧
      (readFile w6.files (env.Join [cfg.DataDir, "2018-09.csv"]) = none →
        readFile w7.files (env.Join [cfg.DataDir, "2018-09.csv"])
          = some "# 2018-09\n# This file was generated by the dataload utility.\nDevelopment,Task 1,,20,20Development,Task 2,,20,40Development,Task 3,,20,60Development,Task 4,,20,80Development,Task 5,,20,100") ∧
      (readFile w9.files (env.Join [cfg.DataDir, "2018-10.csv"]) = none →
        readFile w10.files (env.Join [cfg.DataDir, "2018-10.csv"])
          = some "# 2018-10\n# This file was generated by the dataload utility.\nDevelopment,Task 1,,20,20Development,Task 2,,20,40Development,Task 3,,20,60Development,Task 4,,20,80Development,Task 5,,20,100") ∧
      w.trace = wipeCalls env cfg ++
          ([Event.ok (Call.CreateAdminUser cfg.AdminEmail cfg.AdminUser cfg.AdminPass),
           Event.ok (Call.ExecuteCommand "politeiad" ["--testnet"]),
           Event.ok (Call.StdoutPipe ⟨(wipeCalls env cfg).length + 1, ["politeiad", "--testnet"]⟩),
           Event.ok (Call.Start ⟨(wipeCalls env cfg).length + 1, ["politeiad", "--testnet"]⟩),
           Event.ok (Call.OpenFile cfg.PoliteiadLogFile),
           Event.ok (Call.CreateCmswwwCmd),
           Event.ok (Call.StdoutPipe ⟨(wipeCalls env cfg).length + 5, env.cmswwwArgs⟩),
           Event.ok (Call.Start ⟨(wipeCalls env cfg).length + 5, env.cmswwwArgs⟩),
           Event.ok (Call.OpenFile cfg.CmswwwLogFile),
           Event.ok (Call.Version),
           Event.gave (Call.Login cfg.AdminEmail cfg.AdminPass) id1,
           Event.gave (Call.NewIdentity) tok1,
           Event.ok (Call.VerifyIdentity tok1),
           Event.ok (Call.Logout),
           Event.gave (Call.Login cfg.AdminEmail cfg.AdminPass) id2,
           Event.gave (Call.InviteUser cfg.ContractorEmail) inv,
           Event.gave (Call.ResendInvite cfg.ContractorEmail) tok2,
           Event.ok (Call.Logout),
           Event.ok (Call.RegisterUser cfg.ContractorEmail cfg.ContractorUser cfg.ContractorPass
             cfg.ContractorName cfg.ContractorLocation cfg.ContractorExtendedPublicKey tok2),
           Event.gave (Call.Login cfg.ContractorEmail cfg.ContractorPass) id3,
           Event.gave (Call.NewIdentity) tok3,
           Event.ok (Call.VerifyIdentity tok3),
           Event.ok (Call.Logout),
           Event.ok (Call.OpenFile (env.Join [cfg.DataDir, "2018-09.csv"])),
           Event.ok (Call.Sync (env.Join [cfg.DataDir, "2018-09.csv"])),
           Event.gave (Call.Login cfg.ContractorEmail cfg.ContractorPass) id4,
           Event.gave (Call.SubmitInvoice (env.Join [cfg.DataDir, "2018-09.csv"])) t1,
           Event.ok (Call.Logout),
           Event.gave (Call.Login cfg.AdminEmail cfg.AdminPass) id5,
           Event.ok (Call.ApproveInvoice t1),
           Event.ok (Call.Logout),
           Event.ok (Call.OpenFile (env.Join [cfg.DataDir, "2018-10.csv"])),
           Event.ok (Call.Sync (env.Join [cfg.DataDir, "2018-10.csv"])),
           Event.gave (Call.Login cfg.ContractorEmail cfg.ContractorPass) id6,
           Event.gave (Call.SubmitInvoice (env.Join [cfg.DataDir, "2018-10.csv"])) t2,
           Event.ok (Call.Logout),
           Event.gave (Call.Login cfg.AdminEmail cfg.AdminPass) id7,
           Event.ok (Call.RejectInvoice t2),
           Event.ok (Call.Logout),
             Event.ok (Call.stopPoliteiad),
             Event.ok (Call.Kill ⟨(wipeCalls env cfg).length + 1, ["politeiad", "--testnet"]⟩),
             Event.ok (Call.stopCmswww),
             Event.ok (Call.Kill ⟨(wipeCalls env cfg).length + 5, env.cmswwwArgs⟩)] : List Event) :=
  main_success_aux env cfg fuel files w hi h

/-- The run of `envOk` with `cfg0`, and the run with the wipe switch on. -/
theorem main_success_trace_witness :
    (∃ w, main envOk (cfg0, none) 10 (World.init []) = some (none, w) ∧
      w.trace.length = 43 ∧ w.politeiadCmd = none ∧ w.cmswwwCmd = none ∧
      sessions false w.trace = some false) ∧
    (∃ w, main envOk (cfgDelete, none) 10 (World.init []) = some (none, w) ∧
      w.trace.length = 48 ∧ w.politeiadCmd = none ∧ w.cmswwwCmd = none ∧
      sessions false w.trace = some false) := by
  constructor
  · have hmap : (main envOk (cfg0, none) 10 (World.init [])).map
        (fun p => (p.1, p.2.trace.length)) = some (none, 43) := by decide
    cases hrun : main envOk (cfg0, none) 10 (World.init []) with
    | none => rw [hrun] at hmap; exact absurd hmap (by simp)
    | some p =>
      obtain ⟨r, w⟩ := p
      rw [hrun] at hmap
      simp only [Option.map_some', Option.some.injEq, Prod.mk.injEq] at hmap
      obtain ⟨rfl, hl⟩ := hmap
      obtain ⟨h1, h2, h3, -⟩ := main_success_trace envOk cfg0 10 [] w rfl hrun
      exact ⟨w, rfl, hl, h1, h2, h3⟩
  · have hmap : (main envOk (cfgDelete, none) 10 (World.init [])).map
        (fun p => (p.1, p.2.trace.length)) = some (none, 48) := by decide
    cases hrun : main envOk (cfgDelete, none) 10 (World.init []) with
    | none => rw [hrun] at hmap; exact absurd hmap (by simp)
    | some p =>
      obtain ⟨r, w⟩ := p
      rw [hrun] at hmap
      simp only [Option.map_some', Option.some.injEq, Prod.mk.injEq] at hmap
      obtain ⟨rfl, hl⟩ := hmap
      obtain ⟨h1, h2, h3, -⟩ := main_success_trace envOk cfgDelete 10 [] w rfl hrun
      exact ⟨w, rfl, hl, h1, h2, h3⟩

/-- C5 fails as stated: every step succeeds, the extra tests are off and the
wipe switch is on; the run begins with the calls of `deleteExistingData`, among
them the client call `DeleteAllData`, and `CreateAdminUser` is the sixth call. -/
theorem main_wipes_first :
    (main envOk (cfgDelete, none) 10 (World.init [])).map
      (fun p => (p.1, (p.2.trace.map Event.call).take 6))
    = some (none,
        [.RemoveAll "/home/u/.politeiad/data",
         .RemoveAll "/home/u/.cmswww/data/testnet3/sessions",
         .Remove "/home/u/.cmswww/data/testnet3/csrf.key",
         .DeleteAllData,
         .RemoveAll "/home/u/.cmswwwcli",
         .CreateAdminUser "admin@example.org" "admin" "adminpass"]) := by
  decide

/-- C6, as the code has it: in every run that returns, `SubmitInvoice` is called
at most twice, with the file of 2018-09 and then the file of 2018-10;
`ApproveInvoice` is called at most once and only with the token the first
submission returned, `RejectInvoice` at most once and only with the token the
second submission returned; if the submissions returned different tokens, no
token is passed to both. -/
theorem main_invoice_tokens (env : Env) (load : Config × Option Error) (fuel : Nat)
    (files : List (String × String)) (r : Option Error) (w : World)
    (h : main env load fuel (World.init files) = some (r, w)) :
    submittedFiles w.trace <+:
      [env.Join [load.1.DataDir, "2018-09.csv"], env.Join [load.1.DataDir, "2018-10.csv"]] ∧
    approvedTokens w.trace <+: (submittedTokens w.trace).take 1 ∧
    rejectedTokens w.trace <+: ((submittedTokens w.trace).drop 1).take 1 ∧
    ((submittedTokens w.trace).Nodup →
      ∀ t, t ∈ approvedTokens w.trace → t ∉ rejectedTokens w.trace) := by
  obtain ⟨w1, hm, -, -, htr⟩ := main_run env load fuel _ w r h
  have hflow := (_main_facts env load fuel _ w1 r hm rfl rfl rfl).2.1
  rw [date_2018_09, date_2018_10] at hflow
  have hinv : invoiceCalls w.trace = invoiceCalls w1.trace := by
    rw [htr, invoiceCalls_append, (counts_teardownCalls w1).2.2.2.1, List.append_nil]
  obtain ⟨e1, e2, e3, e4⟩ := invoice_filterMaps w.trace
  have hk := invoiceFlow_tokens _ _ _ hflow
  rw [← hinv, e1, e2, e3, e4] at hk
  exact hk

/-- The run of `envOk` with `cfg0`: two submissions with different tokens. -/
theorem main_invoice_tokens_witness :
    ∃ w, main envOk (cfg0, none) 10 (World.init []) = some (none, w) ∧
      submittedTokens w.trace = ["s26", "s34"] ∧
      approvedTokens w.trace <+: ["s26"] ∧ rejectedTokens w.trace <+: ["s34"] ∧
      ∀ t, t ∈ approvedTokens w.trace → t ∉ rejectedTokens w.trace := by
  have hmap : (main envOk (cfg0, none) 10 (World.init [])).map
      (fun p => (p.1, submittedTokens p.2.trace)) = some (none, ["s26", "s34"]) := by decide
  cases hrun : main envOk (cfg0, none) 10 (World.init []) with
  | none => rw [hrun] at hmap; exact absurd hmap (by simp)
  | some p =>
    obtain ⟨r, w⟩ := p
    rw [hrun] at hmap
    simp only [Option.map_some', Option.some.injEq, Prod.mk.injEq] at hmap
    obtain ⟨rfl, hl⟩ := hmap
    obtain ⟨-, h2, h3, h4⟩ := main_invoice_tokens envOk (cfg0, none) 10 [] _ w hrun
    rw [hl] at h2 h3 h4
    exact ⟨w, rfl, hl, h2, h3, h4 (by decide)⟩

/-- C6 fails as stated: the service answers both submissions with the same
token; every step succeeds, and that token is passed to `ApproveInvoice` and
then to `RejectInvoice`. -/
theorem main_same_token_approved_and_rejected :
    (main envSameToken (cfg0, none) 10 (World.init [])).map
      (fun p => (p.1, submittedTokens p.2.trace, approvedTokens p.2.trace,
        rejectedTokens p.2.trace))
    = some (none, ["token", "token"], ["token"], ["token"]) := by
  decide

/-- C9, as the code has it: whenever `testEditUser` returns success it made
exactly these calls: `Login`; a fetch; three random strings; `EditUser` with
them; a second fetch, which returned those three strings; `EditUser` with the
three fields of the first fetch; `Logout`.  No fetch follows the restoring
edit. -/
theorem testEditUser_success (env : Env) (email password : String) (w w' : World)
    (h : testEditUser env email password w = (none, w')) :
    ∃ id u n1 n2 n3, w'.trace = w.trace ++
        [⟨.Login email password, none, .str id⟩, ⟨.UserDetails id, none, .user u⟩,
         ⟨.generateRandomString 16, none, .str n1⟩, ⟨.generateRandomString 16, none, .str n2⟩,
         ⟨.generateRandomString 16, none, .str n3⟩, ⟨.EditUser n1 n2 n3, none, .unit⟩,
         ⟨.UserDetails id, none, .user ⟨n1, n2, n3⟩⟩,
         ⟨.EditUser u.Name u.Location u.ExtendedPublicKey, none, .unit⟩,
         ⟨.Logout, none, .unit⟩] :=
  (testEditUser_trace env email password w w' h).2.2

/-- The run of `testEditUser` against `envSticky`. -/
theorem testEditUser_success_witness :
    ∃ w', testEditUser envSticky "c@example.org" "pass" (World.init []) = (none, w') ∧
      w'.trace.length = 9 ∧
      ∃ id u n1 n2 n3, w'.trace = (World.init []).trace ++
        [⟨.Login "c@example.org" "pass", none, .str id⟩, ⟨.UserDetails id, none, .user u⟩,
         ⟨.generateRandomString 16, none, .str n1⟩, ⟨.generateRandomString 16, none, .str n2⟩,
         ⟨.generateRandomString 16, none, .str n3⟩, ⟨.EditUser n1 n2 n3, none, .unit⟩,
         ⟨.UserDetails id, none, .user ⟨n1, n2, n3⟩⟩,
         ⟨.EditUser u.Name u.Location u.ExtendedPublicKey, none, .unit⟩,
         ⟨.Logout, none, .unit⟩] := by
  have hmap : (testEditUser envSticky "c@example.org" "pass" (World.init [])).1 = none ∧
      (testEditUser envSticky "c@example.org" "pass" (World.init [])).2.trace.length = 9 := by
    decide
  exact ⟨_, Prod.ext hmap.1 rfl, hmap.2,
    testEditUser_success envSticky "c@example.org" "pass" (World.init []) _
      (Prod.ext hmap.1 rfl)⟩

/-- C9 fails as stated: the service applies the first edit and drops the
restoring one.  `testEditUser` returns success; its last fetch is the one before
the restoring edit, and the profile the service holds afterwards is the random
one, not the one of the first fetch. -/
theorem testEditUser_restore_unchecked :
    (testEditUser envSticky "c@example.org" "pass" (World.init [])).1 = none ∧
    (testEditUser envSticky "c@example.org" "pass" (World.init [])).2.trace.map Event.call
      = [.Login "c@example.org" "pass", .UserDetails "s0", .generateRandomString 16,
         .generateRandomString 16, .generateRandomString 16, .EditUser "s2" "s3" "s4",
         .UserDetails "s0", .EditUser "name" "location" "xpub", .Logout] ∧
    envSticky.userOf (testEditUser envSticky "c@example.org" "pass" (World.init [])).2.trace
      (.UserDetails "s0") = ⟨"s2", "s3", "s4"⟩ := by
  decide

/-- C10, as the code has it: whenever `testPasswordResetAndChange` returns
success it made exactly these calls: one random string; `ResetPassword` to it; a
`Login` with it, which succeeded; `ChangePassword` from it to the given
password; `Logout`.  No login with the given password is attempted, before or
after. -/
theorem testPasswordResetAndChange_success (env : Env) (email password : String)
    (w w' : World) (h : testPasswordResetAndChange env email password w = (none, w')) :
    ∃ newPassword id, w'.trace = w.trace ++
        [⟨.generateRandomString 16, none, .str newPassword⟩,
         ⟨.ResetPassword email newPassword, none, .unit⟩,
         ⟨.Login email newPassword, none, .str id⟩,
         ⟨.ChangePassword newPassword password, none, .unit⟩,
         ⟨.Logout, none, .unit⟩] :=
  (testPasswordResetAndChange_trace env email password w w' h).2.2

/-- The run of `testPasswordResetAndChange` against `envOk`. -/
theorem testPasswordResetAndChange_success_witness :
    ∃ w', testPasswordResetAndChange envOk "a@example.org" "pass" (World.init []) = (none, w') ∧
      w'.trace.length = 5 ∧
      ∃ newPassword id, w'.trace = (World.init []).trace ++
        [⟨.generateRandomString 16, none, .str newPassword⟩,
         ⟨.ResetPassword "a@example.org" newPassword, none, .unit⟩,
         ⟨.Login "a@example.org" newPassword, none, .str id⟩,
         ⟨.ChangePassword newPassword "pass", none, .unit⟩,
         ⟨.Logout, none, .unit⟩] := by
  have hmap : (testPasswordResetAndChange envOk "a@example.org" "pass" (World.init [])).1 = none ∧
      (testPasswordResetAndChange envOk "a@example.org" "pass"
        (World.init [])).2.trace.length = 5 := by
    decide
  exact ⟨_, Prod.ext hmap.1 rfl, hmap.2,
    testPasswordResetAndChange_success envOk "a@example.org" "pass" (World.init []) _
      (Prod.ext hmap.1 rfl)⟩

/-- C10 fails as stated: `testPasswordResetAndChange` returns success after five
calls, of which the only `Login` is the one with the new password; the given
password is never tried, neither after the reset nor after the change back. -/
theorem testPasswordResetAndChange_old_password_untested :
    (testPasswordResetAndChange envOk "a@example.org" "pass" (World.init [])).1 = none ∧
    (testPasswordResetAndChange envOk "a@example.org" "pass" (World.init [])).2.trace.map
      Event.call
      = [.generateRandomString 16, .ResetPassword "a@example.org" "s0",
         .Login "a@example.org" "s0", .ChangePassword "s0" "pass", .Logout] := by
  decide

end Dataload
